import Mathlib

/-!
# Zoracle: report collector, data source registry, messages, sandbox and genesis

A shallow embedding of `Keeper.AddReport`, `Keeper.SetRawDataReport` and
`Keeper.GetRawDataReport` (x/zoracle/internal/keeper/report.go), of the data source
registry (x/zoracle/internal/keeper/data_source.go), of the `ValidateBasic` and
`GetSigners` methods of the messages (x/zoracle/internal/types/msgs.go), of `Execute`
(owasm/execute.go) and of `InitGenesis` and `ExportGenesis` (x/zoracle/genesis.go).  The
transactional context `sdk.Context` is an explicit value of type `Context` that every
keeper function receives and, when it writes, returns.  Go's `int64` identifiers, heights and sizes are `Int` (the code only
compares them), byte slices are lists of naturals, and an `error` is the registered error
it wraps (`sdkerrors.Wrapf` only adds a message).
-/

namespace Zoracle

/-- The type `types.RequestID` (an `int64`). -/
abbrev RequestID := Int

/-- The type `types.ExternalID` (an `int64`). -/
abbrev ExternalID := Int

/-- The type `sdk.ValAddress`, a byte slice. -/
abbrev ValAddress := List Nat

/-- The type `sdk.AccAddress`, a byte slice. -/
abbrev AccAddress := List Nat

/-- The registered errors of package `types` that the keeper and the messages wrap. -/
inductive Error where
  | ErrItemNotFound
  | ErrInvalidState
  | ErrUnauthorizedPermission
  | ErrItemDuplication
  | ErrBadDataValue
  | ErrInvalidBasicMsg
  deriving DecidableEq, Repr

/-- Modelled from the spec: the declaration of `types.ResolveStatus` is not part of the
sources; the spec lists `ResolveStatus ∈ {Open, Success, Failure, Expired}`. -/
inductive ResolveStatus where
  | Open
  | Success
  | Failure
  | Expired
  deriving DecidableEq, Repr

/-- Modelled from the spec: the declaration of `types.Request` is not part of the sources.
The fields are those of the spec's data model, with the `SufficientValidatorCount` that
request creation records for the quorum test.  `AddReport` reads `ResolveStatus`,
`ExpirationHeight`, `RequestedValidators` and `ReceivedValidators`. -/
structure Request where
  OracleScriptID : Int
  Calldata : List Nat
  RequestedValidators : List ValAddress
  SufficientValidatorCount : Int
  ExpirationHeight : Int
  ReceivedValidators : List ValAddress
  ResolveStatus : ResolveStatus
  deriving DecidableEq, Repr

/-- Modelled from the spec: the declaration of `types.RawDataRequest` is not part of the
sources; the spec's record is `{RequestID, ExternalID, DataSourceID, Calldata}`, the first
two being the key under which it is stored. -/
structure RawDataRequest where
  DataSourceID : Int
  Calldata : List Nat
  deriving DecidableEq, Repr

/-- The value `types.RawDataReport{ExitCode, Data}` that `AddReport` stores. -/
structure RawDataReport where
  ExitCode : Nat
  Data : List Nat
  deriving DecidableEq, Repr

/-- One item of a report's data set, `types.RawDataReportWithID`: `AddReport` reads its
`ExternalDataID`, `ExitCode` and `Data`. -/
structure RawDataReportWithID where
  ExternalDataID : ExternalID
  ExitCode : Nat
  Data : List Nat
  deriving DecidableEq, Repr

/-- The type `types.DataSourceID` (an `int64`). -/
abbrev DataSourceID := Int

/-- One `sdk.Coin`: a denomination and an amount. -/
structure Coin where
  Denom : String
  Amount : Int
  deriving DecidableEq, Repr

/-- The type `sdk.Coins`, a list of coins. -/
abbrev Coins := List Coin

/-- The record `types.DataSource`.  Its declaration is not part of the sources; the fields
are those `InitGenesis` reads (`Owner`, `Name`, `Description`, `Fee`, `Executable`), which
are the arguments of `types.NewDataSource`. -/
structure DataSource where
  Owner : AccAddress
  Name : String
  Description : String
  Fee : Coins
  Executable : List Nat
  deriving DecidableEq, Repr

/-- The record `types.OracleScript`.  Its declaration is not part of the sources; the
fields are those `InitGenesis` reads (`Owner`, `Name`, `Description`, `Code`). -/
structure OracleScript where
  Owner : AccAddress
  Name : String
  Description : String
  Code : List Nat
  deriving DecidableEq, Repr

/-- The transactional context `sdk.Context` as far as the report collector uses it: the
block height and the key-value store of the module, one component per key family.
`RequestStoreKey`, `RawDataRequestStoreKey` and `RawDataReportStoreKey` are not part of
the sources; each family is keyed by the identifiers its key function receives, so two
keys are equal exactly when the identifiers are.  The reporter relation, the raw data
request counter and the parameter `MaxRawDataReportSize` are read through keeper
functions that are not part of the sources either: they are components of the context
that `AddReport` never writes. -/
structure Context where
  blockHeight : Int
  requests : RequestID → Option Request
  reporters : ValAddress → AccAddress → Bool
  rawDataRequests : RequestID → ExternalID → Option RawDataRequest
  rawDataRequestCount : RequestID → Int
  rawDataReports : RequestID → ExternalID → ValAddress → Option RawDataReport
  pendingResolveList : List RequestID
  maxRawDataReportSize : Int
  /-- The data sources under `DataSourceStoreKey(id)`, in the order in which the prefix
  iterator of the store reads them: ascending ID. -/
  dataSources : List (DataSourceID × DataSource) := []
  maxDataSourceExecutableSize : Int := 0
  maxNameLength : Int := 0
  maxDescriptionLength : Int := 0
  /-- The oracle scripts, in ascending ID order. -/
  oracleScripts : List (Int × OracleScript) := []
  maxOracleScriptCodeSize : Int := 0
  maxCalldataSize : Int := 0
  maxDataSourceCountPerRequest : Int := 0
  maxResultSize : Int := 0
  endBlockExecuteGasLimit : Int := 0
  gasPerRawDataRequestPerValidator : Int := 0

deriving instance DecidableEq for Except

/-- The method `Equals` of `sdk.ValAddress`: equality of the two byte slices. -/
def Equals (a b : ValAddress) : Bool := decide (a = b)

/-- Modelled from the spec: `Keeper.GetRequest` is not part of the sources; the spec's
`GetX(id) → record | NotFound`. -/
def GetRequest (ctx : Context) (id : RequestID) : Except Error Request :=
  match ctx.requests id with
  | some request => .ok request
  | none => .error Error.ErrItemNotFound

/-- Modelled from the spec: `Keeper.SetRequest` is not part of the sources; it stores the
request under its ID, replacing what was there. -/
def SetRequest (ctx : Context) (id : RequestID) (request : Request) : Context :=
  { ctx with requests := fun i => if i = id then some request else ctx.requests i }

/-- Modelled from the spec: `Keeper.CheckReporter` is not part of the sources; the spec's
reporter-authorization relation `isAuthorized(reporter, validator) → bool`. -/
def CheckReporter (ctx : Context) (validator : ValAddress) (reporter : AccAddress) : Bool :=
  ctx.reporters validator reporter

/-- Modelled from the spec: `Keeper.GetRawDataRequestCount` is not part of the sources; it
reads the number of raw data requests recorded for the request. -/
def GetRawDataRequestCount (ctx : Context) (requestID : RequestID) : Int :=
  ctx.rawDataRequestCount requestID

/-- Modelled from the spec: `Keeper.CheckRawDataRequestExists` is not part of the sources;
whether a RawDataRequest is stored for this request under this ExternalID. -/
def CheckRawDataRequestExists (ctx : Context) (requestID : RequestID)
    (externalID : ExternalID) : Bool :=
  (ctx.rawDataRequests requestID externalID).isSome

/-- Modelled from the spec: the parameter accessor `Keeper.MaxRawDataReportSize` is not part
of the sources; it reads the configured maximum. -/
def MaxRawDataReportSize (ctx : Context) : Int :=
  ctx.maxRawDataReportSize

/-- Modelled from the spec: `Keeper.ShouldBecomePendingResolve` is not part of the sources.
The spec's step 9: `len(ReceivedValidators) ≥ sufficientValidatorCount` (quorum reached)
and this is the transition into quorum (the request is not already enqueued). -/
def ShouldBecomePendingResolve (ctx : Context) (id : RequestID) : Bool :=
  match GetRequest ctx id with
  | .error _ => false
  | .ok request =>
    decide (request.SufficientValidatorCount ≤ (request.ReceivedValidators.length : Int))
      && !(ctx.pendingResolveList.contains id)

/-- Modelled from the spec: `Keeper.AddPendingRequest` is not part of the sources.  The
pending resolution queue is an ordered set in enqueue order: the ID is appended at the
end, and an ID that is already a member is the `Duplicate` error. -/
def AddPendingRequest (ctx : Context) (requestID : RequestID) : Context × Option Error :=
  if ctx.pendingResolveList.contains requestID then
    (ctx, some Error.ErrItemDuplication)
  else
    ({ ctx with pendingResolveList := ctx.pendingResolveList ++ [requestID] }, none)

/-- `Keeper.SetRawDataReport`: `store.Set` of the report under
`RawDataReportStoreKey(requestID, externalID, validatorAddress)`. -/
def SetRawDataReport (ctx : Context) (requestID : RequestID) (externalID : ExternalID)
    (validatorAddress : ValAddress) (rawDataReport : RawDataReport) : Context :=
  { ctx with
    rawDataReports := fun r e v =>
      if r = requestID ∧ e = externalID ∧ v = validatorAddress then some rawDataReport
      else ctx.rawDataReports r e v }

/-- `Keeper.GetRawDataReport`: `ErrItemNotFound` when the store has no such key, the
stored report otherwise. -/
def GetRawDataReport (ctx : Context) (requestID : RequestID) (externalID : ExternalID)
    (validatorAddress : ValAddress) : Except Error RawDataReport :=
  match ctx.rawDataReports requestID externalID validatorAddress with
  | none => .error Error.ErrItemNotFound
  | some rawDataReport => .ok rawDataReport

/-- The loop `for idx, rawReport := range dataSet` of `AddReport` (lines 83-112), entered at
index `idx` with `lastExternalID`: each item is checked and, when its three checks pass,
written at once, before the next item is looked at.  The context returned with an error
is the context at the `return`. -/
def reportLoop (requestID : RequestID) (validator : ValAddress) :
    Context → Nat → ExternalID → List RawDataReportWithID → Context × Option Error
  | ctx, _, _, [] => (ctx, none)
  | ctx, idx, lastExternalID, rawReport :: rest =>
    if idx ≠ 0 ∧ lastExternalID ≥ rawReport.ExternalDataID then
      (ctx, some Error.ErrBadDataValue)
    else if !(CheckRawDataRequestExists ctx requestID rawReport.ExternalDataID) then
      (ctx, some Error.ErrBadDataValue)
    else if (rawReport.Data.length : Int) > MaxRawDataReportSize ctx then
      (ctx, some Error.ErrBadDataValue)
    else
      reportLoop requestID validator
        (SetRawDataReport ctx requestID rawReport.ExternalDataID validator
          { ExitCode := rawReport.ExitCode, Data := rawReport.Data })
        (idx + 1) rawReport.ExternalDataID rest

/-- `Keeper.AddReport` (lines 9-125).  The result is the context when the function returns
and the returned error (`none` for `nil`). -/
def AddReport (ctx : Context) (requestID : RequestID) (dataSet : List RawDataReportWithID)
    (validator : ValAddress) (reporter : AccAddress) : Context × Option Error :=
  match GetRequest ctx requestID with
  | .error err => (ctx, some err)
  | .ok request =>
    if request.ResolveStatus ≠ ResolveStatus.Open then
      (ctx, some Error.ErrInvalidState)
    else if request.ExpirationHeight < ctx.blockHeight then
      (ctx, some Error.ErrInvalidState)
    else if !(CheckReporter ctx validator reporter) then
      (ctx, some Error.ErrUnauthorizedPermission)
    else if !(request.RequestedValidators.any (fun validValidator =>
        Equals validator validValidator)) then
      (ctx, some Error.ErrUnauthorizedPermission)
    else if request.ReceivedValidators.any (fun submittedValidator =>
        Equals validator submittedValidator) then
      (ctx, some Error.ErrItemDuplication)
    else if (dataSet.length : Int) ≠ GetRawDataRequestCount ctx requestID then
      (ctx, some Error.ErrBadDataValue)
    else
      match reportLoop requestID validator ctx 0 0 dataSet with
      | (ctx1, some err) => (ctx1, some err)
      | (ctx1, none) =>
        let ctx2 := SetRequest ctx1 requestID
          { request with ReceivedValidators := request.ReceivedValidators ++ [validator] }
        if ShouldBecomePendingResolve ctx2 requestID then
          match AddPendingRequest ctx2 requestID with
          | (ctx3, some err) => (ctx3, some err)
          | (ctx3, none) => (ctx3, none)
        else
          (ctx2, none)

/-- One `AddReport` message as the handler receives it, with the height of the block that
carries it. -/
structure ReportCall where
  height : Int
  requestID : RequestID
  dataSet : List RawDataReportWithID
  validator : ValAddress
  reporter : AccAddress

/-- The context after one call of `AddReport` at the call's block height. -/
def applyCall (ctx : Context) (c : ReportCall) : Context :=
  (AddReport { ctx with blockHeight := c.height } c.requestID c.dataSet c.validator
    c.reporter).1

/-- The context after a sequence of `AddReport` calls, in order. -/
def applyCalls (ctx : Context) (cs : List ReportCall) : Context :=
  cs.foldl applyCall ctx

/-- The request of the spec's scenario: four requested validators, quorum three,
expiration height 100, nobody has reported. -/
def scenarioRequest : Request :=
  { OracleScriptID := 1, Calldata := [], RequestedValidators := [[1], [2], [3], [4]],
    SufficientValidatorCount := 3, ExpirationHeight := 100, ReceivedValidators := [],
    ResolveStatus := ResolveStatus.Open }

/-- A context at height 50 holding `scenarioRequest` under ID 1 with raw data requests for
ExternalIDs 1 and 2; validator `[n]` has the reporter `[10 + n]`. -/
def scenarioCtx : Context :=
  { blockHeight := 50,
    requests := fun i => if i = 1 then some scenarioRequest else none,
    reporters := fun v r => decide (v.map (fun b => b + 10) = r),
    rawDataRequests := fun i e =>
      if i = 1 ∧ (e = 1 ∨ e = 2) then some { DataSourceID := e, Calldata := [] } else none,
    rawDataRequestCount := fun i => if i = 1 then 2 else 0,
    rawDataReports := fun _ _ _ => none,
    pendingResolveList := [],
    maxRawDataReportSize := 4 }

/-- A complete, ordered data set for `scenarioCtx`. -/
def scenarioDataSet : List RawDataReportWithID :=
  [{ ExternalDataID := 1, ExitCode := 0, Data := [7] },
   { ExternalDataID := 2, ExitCode := 0, Data := [8, 9] }]

/-- The data set of the spec's scenario with ExternalIDs `[2, 1]`. -/
def decreasingDataSet : List RawDataReportWithID :=
  [{ ExternalDataID := 2, ExitCode := 0, Data := [8, 9] },
   { ExternalDataID := 1, ExitCode := 0, Data := [7] }]

/-- The context `scenarioCtx` one block past the expiration height, after validator `[1]`
has reported. -/
def expiredReportedCtx : Context :=
  { scenarioCtx with
    blockHeight := 101,
    requests := fun i =>
      if i = 1 then some { scenarioRequest with ReceivedValidators := [[1]] } else none }

/-- The context `scenarioCtx` after validator `[1]` has reported, still at height 50. -/
def reportedCtx : Context :=
  { expiredReportedCtx with blockHeight := 50 }

/-- The ExternalIDs of a data set, in order. -/
def externalIDs (dataSet : List RawDataReportWithID) : List ExternalID :=
  dataSet.map (fun item => item.ExternalDataID)

/-- Check 8 in the spec's words: over the data set, ExternalIDs are strictly increasing,
each ExternalID has a RawDataRequest of this request, and each report's data length is at
most the configured maximum raw-report size. -/
def ItemChecksPass (ctx : Context) (requestID : RequestID)
    (dataSet : List RawDataReportWithID) : Prop :=
  (externalIDs dataSet).Chain' (fun a b => a < b) ∧
  (∀ item ∈ dataSet, CheckRawDataRequestExists ctx requestID item.ExternalDataID = true) ∧
  (∀ item ∈ dataSet, (item.Data.length : Int) ≤ MaxRawDataReportSize ctx)

instance (ctx : Context) (requestID : RequestID) (dataSet : List RawDataReportWithID) :
    Decidable (ItemChecksPass ctx requestID dataSet) := by
  unfold ItemChecksPass; infer_instance

/-- Checks 2 to 6 in the spec's words, for the stored request: it is Open, the current
height is at most its ExpirationHeight, the reporter is authorized for the validator, the
validator is requested and has not reported yet. -/
def RequestChecksPass (ctx : Context) (request : Request) (validator : ValAddress)
    (reporter : AccAddress) : Prop :=
  request.ResolveStatus = ResolveStatus.Open ∧
  ctx.blockHeight ≤ request.ExpirationHeight ∧
  CheckReporter ctx validator reporter = true ∧
  validator ∈ request.RequestedValidators ∧
  validator ∉ request.ReceivedValidators

instance (ctx : Context) (request : Request) (validator : ValAddress)
    (reporter : AccAddress) : Decidable (RequestChecksPass ctx request validator reporter) := by
  unfold RequestChecksPass; infer_instance

/-- Checks 1 to 7 in the spec's words, those made before the data set is iterated: the
request exists (1), checks 2 to 6 hold of it, and the data set has as many items as the
request has raw data requests (7). -/
def HeaderChecksPass (ctx : Context) (requestID : RequestID)
    (dataSet : List RawDataReportWithID) (validator : ValAddress) (reporter : AccAddress) :
    Prop :=
  match ctx.requests requestID with
  | none => False
  | some request =>
    RequestChecksPass ctx request validator reporter ∧
    (dataSet.length : Int) = GetRawDataRequestCount ctx requestID

instance (ctx : Context) (requestID : RequestID) (dataSet : List RawDataReportWithID)
    (validator : ValAddress) (reporter : AccAddress) :
    Decidable (HeaderChecksPass ctx requestID dataSet validator reporter) := by
  unfold HeaderChecksPass; split <;> infer_instance

/-- All checks of the spec's ReportCollector, in its words: checks 1 to 7 and the per-item
checks (8). -/
def ReportChecksPass (ctx : Context) (requestID : RequestID)
    (dataSet : List RawDataReportWithID) (validator : ValAddress) (reporter : AccAddress) :
    Prop :=
  HeaderChecksPass ctx requestID dataSet validator reporter ∧
  ItemChecksPass ctx requestID dataSet

instance (ctx : Context) (requestID : RequestID) (dataSet : List RawDataReportWithID)
    (validator : ValAddress) (reporter : AccAddress) :
    Decidable (ReportChecksPass ctx requestID dataSet validator reporter) := by
  unfold ReportChecksPass; infer_instance

/-- The error kind of the first failing check, in the order of the spec's list. -/
def firstFailingCheck (ctx : Context) (requestID : RequestID)
    (dataSet : List RawDataReportWithID) (validator : ValAddress) (reporter : AccAddress) :
    Option Error :=
  match ctx.requests requestID with
  | none => some Error.ErrItemNotFound
  | some request =>
    if request.ResolveStatus ≠ ResolveStatus.Open then some Error.ErrInvalidState
    else if ¬ ctx.blockHeight ≤ request.ExpirationHeight then some Error.ErrInvalidState
    else if CheckReporter ctx validator reporter ≠ true then
      some Error.ErrUnauthorizedPermission
    else if validator ∉ request.RequestedValidators then some Error.ErrUnauthorizedPermission
    else if validator ∈ request.ReceivedValidators then some Error.ErrItemDuplication
    else if (dataSet.length : Int) ≠ GetRawDataRequestCount ctx requestID then
      some Error.ErrBadDataValue
    else if ¬ ItemChecksPass ctx requestID dataSet then some Error.ErrBadDataValue
    else none

/-- The request invariant of the spec: ReceivedValidators is a duplicate-free list of
members of RequestedValidators. -/
def RequestInvariant (request : Request) : Prop :=
  request.ReceivedValidators.Nodup ∧
  ∀ v ∈ request.ReceivedValidators, v ∈ request.RequestedValidators

instance (request : Request) : Decidable (RequestInvariant request) := by
  unfold RequestInvariant; infer_instance

/-- The validator is among the ReceivedValidators of the stored request. -/
def HasReported (ctx : Context) (requestID : RequestID) (validator : ValAddress) : Prop :=
  ∃ request, ctx.requests requestID = some request ∧ validator ∈ request.ReceivedValidators

/-- The quorum invariant of a request with respect to the pending resolution queue: a
request is stored under the ID with the given SufficientValidatorCount, and the ID occurs
in the queue once when the request's ReceivedValidators have reached that count and not
at all otherwise. -/
def QuorumInvariant (ctx : Context) (requestID : RequestID) (sufficient : Int) : Prop :=
  ∃ request, ctx.requests requestID = some request ∧
    request.SufficientValidatorCount = sufficient ∧
    ctx.pendingResolveList.count requestID =
      if sufficient ≤ (request.ReceivedValidators.length : Int) then 1 else 0

/-! ## The data source registry (x/zoracle/internal/keeper/data_source.go)

The data sources live in the key family `DataSourceStoreKey(id)`.  The key function is not
part of the sources: the family is keyed by the ID, and the prefix iterator reads it in
ascending ID order (the spec's "insertion order (ID ascending)").  The codec's
`MustMarshalBinaryBare` and `MustUnmarshalBinaryBare` are inverse to each other, so the
store holds the records themselves. -/

/-- `store.Set` on a key family read in ascending key order: the value replaces the one
under an equal key, or is inserted at the key's place. -/
def storeSet {α : Type} (id : Int) (value : α) : List (Int × α) → List (Int × α)
  | [] => [(id, value)]
  | (k, w) :: rest =>
    if id < k then (id, value) :: (k, w) :: rest
    else if id = k then (id, value) :: rest
    else (k, w) :: storeSet id value rest

/-- `store.Get` on a key family: the value under the key, if the store has the key. -/
def storeGet {α : Type} (id : Int) : List (Int × α) → Option α
  | [] => none
  | (k, w) :: rest => if id = k then some w else storeGet id rest

/-- The keys of a key family, in iteration order. -/
def storeKeys {α : Type} (entries : List (Int × α)) : List Int :=
  entries.map Prod.fst

/-- The constructor `types.NewDataSource`. -/
def NewDataSource (owner : AccAddress) (name : String) (description : String) (fee : Coins)
    (executable : List Nat) : DataSource :=
  { Owner := owner, Name := name, Description := description, Fee := fee,
    Executable := executable }

/-- Modelled from the spec: the parameter accessor `Keeper.MaxDataSourceExecutableSize` is
not part of the sources; it reads the configured maximum. -/
def MaxDataSourceExecutableSize (ctx : Context) : Int :=
  ctx.maxDataSourceExecutableSize

/-- Modelled from the spec: the parameter accessor `Keeper.MaxNameLength` is not part of the
sources; it reads the configured maximum. -/
def MaxNameLength (ctx : Context) : Int :=
  ctx.maxNameLength

/-- Modelled from the spec: the parameter accessor `Keeper.MaxDescriptionLength` is not part
of the sources; it reads the configured maximum. -/
def MaxDescriptionLength (ctx : Context) : Int :=
  ctx.maxDescriptionLength

/-- Modelled from the spec: `Keeper.GetNextDataSourceID` is not part of the sources.  The
spec assigns IDs densely from 1 (section 8), assigns the next ID only when the sizes are
within their maxima (section 4.1), leaves the state without any mutation on an error
(section 7) and has no deletion.  `AddDataSource` calls this function before its size
checks and afterwards writes the record only, so in the spec's words the function writes
nothing: it returns the context it was given and the number of stored data sources plus
one.  The ID is an `int64`; a registry of 2^63 - 1 data sources is out of reach and not
modelled. -/
def GetNextDataSourceID (ctx : Context) : Context × DataSourceID :=
  (ctx, (ctx.dataSources.length : Int) + 1)

/-- `Keeper.SetDataSource`: `store.Set` under `DataSourceStoreKey(id)`, without any check on
the ID. -/
def SetDataSource (ctx : Context) (id : DataSourceID) (dataSource : DataSource) : Context :=
  { ctx with dataSources := storeSet id dataSource ctx.dataSources }

/-- `Keeper.CheckDataSourceExists`: `store.Has` of `DataSourceStoreKey(id)`. -/
def CheckDataSourceExists (ctx : Context) (id : DataSourceID) : Bool :=
  (storeGet id ctx.dataSources).isSome

/-- `Keeper.GetDataSource`: `ErrItemNotFound` when `CheckDataSourceExists` fails, the stored
record otherwise. -/
def GetDataSource (ctx : Context) (id : DataSourceID) : Except Error DataSource :=
  if !(CheckDataSourceExists ctx id) then .error Error.ErrItemNotFound
  else
    match storeGet id ctx.dataSources with
    | some dataSource => .ok dataSource
    | none => .error Error.ErrItemNotFound

/-- `Keeper.AddDataSource` (lines 17-48): the next ID is asked for first, then the three
sizes are checked, then the record is stored.  The result is the context when the function
returns and the returned ID or error (Go returns ID 0 with an error). -/
def AddDataSource (ctx : Context) (owner : AccAddress) (name : String)
    (description : String) (fee : Coins) (executable : List Nat) :
    Context × Except Error DataSourceID :=
  let (ctx1, newDataSourceID) := GetNextDataSourceID ctx
  if (executable.length : Int) > MaxDataSourceExecutableSize ctx1 then
    (ctx1, .error Error.ErrBadDataValue)
  else if (name.utf8ByteSize : Int) > MaxNameLength ctx1 then
    (ctx1, .error Error.ErrBadDataValue)
  else if (description.utf8ByteSize : Int) > MaxDescriptionLength ctx1 then
    (ctx1, .error Error.ErrBadDataValue)
  else
    (SetDataSource ctx1 newDataSourceID
      (NewDataSource owner name description fee executable), .ok newDataSourceID)

/-- `Keeper.EditDataSource` (lines 51-84): the ID must exist, then the three sizes are
checked, then the record under the ID is replaced. -/
def EditDataSource (ctx : Context) (dataSourceID : DataSourceID) (owner : AccAddress)
    (name : String) (description : String) (fee : Coins) (executable : List Nat) :
    Context × Option Error :=
  if !(CheckDataSourceExists ctx dataSourceID) then
    (ctx, some Error.ErrItemNotFound)
  else if (executable.length : Int) > MaxDataSourceExecutableSize ctx then
    (ctx, some Error.ErrBadDataValue)
  else if (name.utf8ByteSize : Int) > MaxNameLength ctx then
    (ctx, some Error.ErrBadDataValue)
  else if (description.utf8ByteSize : Int) > MaxDescriptionLength ctx then
    (ctx, some Error.ErrBadDataValue)
  else
    (SetDataSource ctx dataSourceID (NewDataSource owner name description fee executable),
      none)

/-- `Keeper.GetAllDataSources`: the values the prefix iterator of the data source family
yields, in its order. -/
def GetAllDataSources (ctx : Context) : List DataSource :=
  ctx.dataSources.map Prod.snd

/-- The IDs under which a data source is stored, in iteration order. -/
def storedDataSourceIDs (ctx : Context) : List DataSourceID :=
  storeKeys ctx.dataSources

/-- Some size exceeds its configured maximum: the condition of the three size checks of
`AddDataSource` and `EditDataSource`, in the spec's words. -/
def Oversized (ctx : Context) (name : String) (description : String)
    (executable : List Nat) : Prop :=
  (executable.length : Int) > MaxDataSourceExecutableSize ctx ∨
  (name.utf8ByteSize : Int) > MaxNameLength ctx ∨
  (description.utf8ByteSize : Int) > MaxDescriptionLength ctx

instance (ctx : Context) (name : String) (description : String) (executable : List Nat) :
    Decidable (Oversized ctx name description executable) := by
  unfold Oversized; infer_instance

/-- One call of the registry: `AddDataSource` or `EditDataSource` with its arguments. -/
inductive RegistryCall where
  | add (owner : AccAddress) (name : String) (description : String) (fee : Coins)
      (executable : List Nat)
  | edit (dataSourceID : DataSourceID) (owner : AccAddress) (name : String)
      (description : String) (fee : Coins) (executable : List Nat)

/-- The context in which a registry call returns, whether it fails or not. -/
def applyRegistryCall (ctx : Context) : RegistryCall → Context
  | .add owner name description fee executable =>
    (AddDataSource ctx owner name description fee executable).1
  | .edit dataSourceID owner name description fee executable =>
    (EditDataSource ctx dataSourceID owner name description fee executable).1

/-- The context after a sequence of registry calls in one context, in order. -/
def applyRegistryCalls (ctx : Context) (calls : List RegistryCall) : Context :=
  calls.foldl applyRegistryCall ctx

/-- The results of the `AddDataSource` calls of a sequence of registry calls, in order. -/
def addResults : Context → List RegistryCall → List (Except Error DataSourceID)
  | _, [] => []
  | ctx, .add owner name description fee executable :: rest =>
    (AddDataSource ctx owner name description fee executable).2 ::
      addResults (AddDataSource ctx owner name description fee executable).1 rest
  | ctx, .edit dataSourceID owner name description fee executable :: rest =>
    addResults (EditDataSource ctx dataSourceID owner name description fee executable).1 rest

/-- A context whose registry is empty, with maximum sizes 4 (executable), 8 (name) and 16
(description). -/
def emptyRegistryCtx : Context :=
  { scenarioCtx with
    dataSources := [], maxDataSourceExecutableSize := 4, maxNameLength := 8,
    maxDescriptionLength := 16 }

/-- A data source of owner `[1]` within the limits of `emptyRegistryCtx`. -/
def sampleAdd : RegistryCall :=
  .add [1] "btc" "price" [] [1, 2]

/-- An `AddDataSource` call whose executable exceeds the limit of `emptyRegistryCtx`. -/
def oversizedAdd : RegistryCall :=
  .add [1] "eth" "price" [] [1, 2, 3, 4, 5]

/-- The registry of `emptyRegistryCtx` after `sampleAdd`: one data source, of owner `[1]`,
under ID 1. -/
def oneSourceCtx : Context :=
  applyRegistryCall emptyRegistryCtx sampleAdd

/-- The IDs 1, 2, ..., n in ascending order. -/
def denseIDs (n : Nat) : List DataSourceID :=
  List.map (fun (j : Nat) => (j : Int) + 1) (List.range n)

/-- The IDs returned by the successful calls among the results, in order. -/
def successfulIDs (results : List (Except Error DataSourceID)) : List DataSourceID :=
  results.filterMap Except.toOption

/-- The call is an `AddDataSource` call. -/
def RegistryCall.isAdd : RegistryCall → Bool
  | .add _ _ _ _ _ => true
  | .edit _ _ _ _ _ _ => false

/-- The stored IDs are 1, ..., n for the number n of stored data sources. -/
def DenseRegistry (ctx : Context) : Prop :=
  storedDataSourceIDs ctx = denseIDs ctx.dataSources.length

/-! ## Messages (x/zoracle/internal/types/msgs.go)

`ValidateBasic` returns the registered error it wraps (`none` for `nil`).  A nil slice and
an empty slice are both the empty list, as `len` and `Empty` do not tell them apart. -/

/-- The method `Empty` of `sdk.AccAddress` and `sdk.ValAddress`: the address is nil or has
no bytes. -/
def Empty (address : List Nat) : Bool := address.isEmpty

/-- The message `MsgRequestData`; `PrepareGas` and `ExecuteGas` are `uint64`. -/
structure MsgRequestData where
  OracleScriptID : Int
  Calldata : List Nat
  RequestedValidatorCount : Int
  SufficientValidatorCount : Int
  Expiration : Int
  PrepareGas : Nat
  ExecuteGas : Nat
  Sender : AccAddress
  SourcePort : String
  SourceChannel : String
  deriving DecidableEq, Repr

/-- `MsgRequestData.ValidateBasic` (lines 59-110). -/
def MsgRequestData.ValidateBasic (msg : MsgRequestData) : Option Error :=
  if Empty msg.Sender then some Error.ErrInvalidBasicMsg
  else if msg.OracleScriptID ≤ 0 then some Error.ErrInvalidBasicMsg
  else if msg.SufficientValidatorCount ≤ 0 then some Error.ErrInvalidBasicMsg
  else if msg.RequestedValidatorCount < msg.SufficientValidatorCount then
    some Error.ErrInvalidBasicMsg
  else if msg.Expiration ≤ 0 then some Error.ErrInvalidBasicMsg
  else if msg.PrepareGas ≤ 0 then some Error.ErrInvalidBasicMsg
  else if msg.ExecuteGas ≤ 0 then some Error.ErrInvalidBasicMsg
  else none

/-- The message `MsgReportData`. -/
structure MsgReportData where
  RequestID : RequestID
  DataSet : List RawDataReportWithID
  Validator : ValAddress
  Reporter : AccAddress
  deriving DecidableEq, Repr

/-- `MsgReportData.ValidateBasic` (lines 153-180). -/
def MsgReportData.ValidateBasic (msg : MsgReportData) : Option Error :=
  if msg.RequestID ≤ 0 then some Error.ErrInvalidBasicMsg
  else if msg.DataSet = [] ∨ msg.DataSet.length = 0 then some Error.ErrInvalidBasicMsg
  else if Empty msg.Validator then some Error.ErrInvalidBasicMsg
  else if Empty msg.Reporter then some Error.ErrInvalidBasicMsg
  else none

/-- The message `MsgCreateDataSource`. -/
structure MsgCreateDataSource where
  Owner : AccAddress
  Name : String
  Description : String
  Fee : Coins
  Executable : List Nat
  Sender : AccAddress
  deriving DecidableEq, Repr

/-- `MsgCreateDataSource.ValidateBasic` (lines 229-268).  The method `IsValid` of
`sdk.Coins` belongs to the SDK; it is the parameter `feeIsValid`. -/
def MsgCreateDataSource.ValidateBasic (feeIsValid : Coins → Bool)
    (msg : MsgCreateDataSource) : Option Error :=
  if Empty msg.Owner then some Error.ErrInvalidBasicMsg
  else if msg.Name = "" then some Error.ErrInvalidBasicMsg
  else if msg.Description = "" then some Error.ErrInvalidBasicMsg
  else if !(feeIsValid msg.Fee) then some Error.ErrInvalidBasicMsg
  else if msg.Executable = [] ∨ msg.Executable.length = 0 then
    some Error.ErrInvalidBasicMsg
  else if Empty msg.Sender then some Error.ErrInvalidBasicMsg
  else none

/-- The message `MsgEditDataSource`. -/
structure MsgEditDataSource where
  DataSourceID : DataSourceID
  Owner : AccAddress
  Name : String
  Description : String
  Fee : Coins
  Executable : List Nat
  Sender : AccAddress
  deriving DecidableEq, Repr

/-- `MsgEditDataSource.ValidateBasic` (lines 320-367), with `sdk.Coins.IsValid` as the
parameter `feeIsValid`. -/
def MsgEditDataSource.ValidateBasic (feeIsValid : Coins → Bool)
    (msg : MsgEditDataSource) : Option Error :=
  if msg.DataSourceID ≤ 0 then some Error.ErrInvalidBasicMsg
  else if Empty msg.Owner then some Error.ErrInvalidBasicMsg
  else if msg.Name = "" then some Error.ErrInvalidBasicMsg
  else if msg.Description = "" then some Error.ErrInvalidBasicMsg
  else if !(feeIsValid msg.Fee) then some Error.ErrInvalidBasicMsg
  else if msg.Executable = [] ∨ msg.Executable.length = 0 then
    some Error.ErrInvalidBasicMsg
  else if Empty msg.Sender then some Error.ErrInvalidBasicMsg
  else none

/-- `MsgEditDataSource.GetSigners` (lines 370-372): the sender alone. -/
def MsgEditDataSource.GetSigners (msg : MsgEditDataSource) : List AccAddress :=
  [msg.Sender]

/-- The `MsgCreateDataSource` with the Owner, Name, Description, Fee, Executable and Sender
of an edit message. -/
def MsgEditDataSource.asCreate (msg : MsgEditDataSource) : MsgCreateDataSource :=
  { Owner := msg.Owner, Name := msg.Name, Description := msg.Description, Fee := msg.Fee,
    Executable := msg.Executable, Sender := msg.Sender }

/-- The type `types.OracleScriptID` (an `int64`). -/
abbrev OracleScriptID := Int

/-- `MsgRequestData.GetSigners` (lines 113-115). -/
def MsgRequestData.GetSigners (msg : MsgRequestData) : List AccAddress :=
  [msg.Sender]

/-- `MsgReportData.GetSigners` (lines 183-185). -/
def MsgReportData.GetSigners (msg : MsgReportData) : List AccAddress :=
  [msg.Reporter]

/-- `MsgCreateDataSource.GetSigners` (lines 271-273). -/
def MsgCreateDataSource.GetSigners (msg : MsgCreateDataSource) : List AccAddress :=
  [msg.Sender]

/-- The message `MsgCreateOracleScript`. -/
structure MsgCreateOracleScript where
  Owner : AccAddress
  Name : String
  Description : String
  Code : List Nat
  Sender : AccAddress
  deriving DecidableEq, Repr

/-- `MsgCreateOracleScript.ValidateBasic` (lines 413-430). -/
def MsgCreateOracleScript.ValidateBasic (msg : MsgCreateOracleScript) : Option Error :=
  if Empty msg.Owner then some Error.ErrInvalidBasicMsg
  else if Empty msg.Sender then some Error.ErrInvalidBasicMsg
  else if msg.Name = "" then some Error.ErrInvalidBasicMsg
  else if msg.Description = "" then some Error.ErrInvalidBasicMsg
  else if msg.Code = [] ∨ msg.Code.length = 0 then some Error.ErrInvalidBasicMsg
  else none

/-- `MsgCreateOracleScript.GetSigners` (lines 433-435). -/
def MsgCreateOracleScript.GetSigners (msg : MsgCreateOracleScript) : List AccAddress :=
  [msg.Sender]

/-- The message `MsgEditOracleScript`. -/
structure MsgEditOracleScript where
  OracleScriptID : OracleScriptID
  Owner : AccAddress
  Name : String
  Description : String
  Code : List Nat
  Sender : AccAddress
  deriving DecidableEq, Repr

/-- `MsgEditOracleScript.ValidateBasic` (lines 479-496). -/
def MsgEditOracleScript.ValidateBasic (msg : MsgEditOracleScript) : Option Error :=
  if msg.OracleScriptID ≤ 0 then some Error.ErrInvalidBasicMsg
  else if Empty msg.Owner then some Error.ErrInvalidBasicMsg
  else if Empty msg.Sender then some Error.ErrInvalidBasicMsg
  else if msg.Name = "" then some Error.ErrInvalidBasicMsg
  else if msg.Code = [] ∨ msg.Code.length = 0 then some Error.ErrInvalidBasicMsg
  else none

/-- `MsgEditOracleScript.GetSigners` (lines 499-501). -/
def MsgEditOracleScript.GetSigners (msg : MsgEditOracleScript) : List AccAddress :=
  [msg.Sender]

/-- The `MsgCreateOracleScript` with the Owner, Name, Description, Code and Sender of an
edit message. -/
def MsgEditOracleScript.asCreate (msg : MsgEditOracleScript) : MsgCreateOracleScript :=
  { Owner := msg.Owner, Name := msg.Name, Description := msg.Description, Code := msg.Code,
    Sender := msg.Sender }

/-- The message `MsgAddOracleAddress`. -/
structure MsgAddOracleAddress where
  Validator : ValAddress
  Reporter : AccAddress
  deriving DecidableEq, Repr

/-- `MsgAddOracleAddress.ValidateBasic` (lines 533-542). -/
def MsgAddOracleAddress.ValidateBasic (msg : MsgAddOracleAddress) : Option Error :=
  if Empty msg.Validator then some Error.ErrInvalidBasicMsg
  else if Empty msg.Reporter then some Error.ErrInvalidBasicMsg
  else none

/-- `MsgAddOracleAddress.GetSigners` (lines 545-547): the validator's bytes converted to an
account address, `sdk.AccAddress(msg.Validator)`. -/
def MsgAddOracleAddress.GetSigners (msg : MsgAddOracleAddress) : List AccAddress :=
  [msg.Validator]

/-- The message `MsgRemoveOracleAdderess`. -/
structure MsgRemoveOracleAdderess where
  Validator : ValAddress
  Reporter : AccAddress
  deriving DecidableEq, Repr

/-- `MsgRemoveOracleAdderess.ValidateBasic` (lines 579-588). -/
def MsgRemoveOracleAdderess.ValidateBasic (msg : MsgRemoveOracleAdderess) : Option Error :=
  if Empty msg.Validator then some Error.ErrInvalidBasicMsg
  else if Empty msg.Reporter then some Error.ErrInvalidBasicMsg
  else none

/-- `MsgRemoveOracleAdderess.GetSigners` (lines 591-593): `sdk.AccAddress(msg.Validator)`. -/
def MsgRemoveOracleAdderess.GetSigners (msg : MsgRemoveOracleAdderess) : List AccAddress :=
  [msg.Validator]

/-! ## The script sandbox (owasm/execute.go)

`Execute` drives the virtual machine of the library `github.com/perlin-network/life/exec`.
The library is a parameter of the model: what it builds from a code, which entries it
exports and how a run ends are those of the value passed in.  A Go `error` of this
package is its message. -/

/-- The configuration record `exec.VMConfig` with the fields `Execute` sets; `GasLimit` is
a `uint64`. -/
structure VMConfig where
  EnableJIT : Bool
  MaxMemoryPages : Int
  MaxTableSize : Int
  MaxValueSlots : Int
  MaxCallStackDepth : Int
  DefaultMemoryPages : Int
  DefaultTableSize : Int
  GasLimit : Nat
  DisableFloatingPoint : Bool
  ReturnOnGasLimitExceeded : Bool
  deriving DecidableEq, Repr

/-- The `exec.VMConfig` literal of `Execute` (lines 20-31). -/
def executeConfig (gasLimit : Nat) : VMConfig :=
  { EnableJIT := false,
    MaxMemoryPages := 1024,
    MaxTableSize := 1024,
    MaxValueSlots := 65536,
    MaxCallStackDepth := 128,
    DefaultMemoryPages := 64,
    DefaultTableSize := 65536,
    GasLimit := gasLimit,
    DisableFloatingPoint := false,
    ReturnOnGasLimitExceeded := false }

/-- Modelled from the spec: the resolver of the host calls (`NewResolver`, its `result`
field and the host call `save_result`) is not part of the sources.  It holds the execution
environment, the call data and the bytes saved as result. -/
structure Resolver (Env : Type) where
  env : Env
  calldata : List Nat
  result : List Nat

/-- Modelled from the spec: `NewResolver(env, calldata)`, with no result saved (nil). -/
def NewResolver {Env : Type} (env : Env) (calldata : List Nat) : Resolver Env :=
  { env := env, calldata := calldata, result := [] }

/-- Modelled from the spec: the host call `save_result(bytes)`; the last write wins. -/
def Resolver.saveResult {Env : Type} (resolver : Resolver Env) (bytes : List Nat) :
    Resolver Env :=
  { resolver with result := bytes }

/-- How a call of `vm.Run` ends, as `Execute` observes it: the arguments of the
`save_result` host calls the run made, in order, the gas counter `vm.Gas` at termination,
and the error of the run (`none` when it completed; a trap or gas exhaustion
otherwise). -/
structure RunOutcome where
  saved : List (List Nat)
  Gas : Nat
  err : Option String
  deriving DecidableEq, Repr

/-- The library `exec` as `Execute` uses it, over the library's type of virtual machines:
`NewVirtualMachine(code, config, resolver, gasPolicy)` (the gas policy is the constant
`BandChainGasPolicy`), `vm.GetFunctionExport(entry)` and `vm.Run(entryID)`. -/
structure VirtualMachineLibrary (Env : Type) (VM : Type) where
  NewVirtualMachine : List Nat → VMConfig → Resolver Env → Except String VM
  GetFunctionExport : VM → String → Option Int
  Run : VM → Int → RunOutcome

/-- `Execute` (lines 12-41): the result bytes, the gas used and the error (`none` for
`nil`; a nil result is the empty list). -/
def Execute {Env : Type} {VM : Type} (library : VirtualMachineLibrary Env VM) (env : Env)
    (code : List Nat) (entry : String) (calldata : List Nat) (gasLimit : Nat) :
    List Nat × Nat × Option String :=
  let resolver := NewResolver env calldata
  match library.NewVirtualMachine code (executeConfig gasLimit) resolver with
  | .error err => ([], 0, some err)
  | .ok vm =>
    match library.GetFunctionExport vm entry with
    | none => ([], 0, some ("Execute: invalid owasm entry: " ++ entry))
    | some entryID =>
      let outcome := library.Run vm entryID
      ((outcome.saved.foldl Resolver.saveResult resolver).result, outcome.Gas, outcome.err)

/-- A library for examples: every non-empty code builds a machine that exports `prepare`
(which saves nothing and uses 7 gas) and `execute` (which saves twice and runs out of gas
at 40). -/
def sampleLibrary : VirtualMachineLibrary Unit Unit :=
  { NewVirtualMachine := fun code _ _ => if code = [] then .error "empty code" else .ok (),
    GetFunctionExport := fun _ entry =>
      if entry = "prepare" then some 0 else if entry = "execute" then some 1 else none,
    Run := fun _ entryID =>
      if entryID = 0 then { saved := [], Gas := 7, err := none }
      else { saved := [[1], [2, 3]], Gas := 40, err := some "gas limit exceeded" } }

/-! ## Genesis (x/zoracle/genesis.go) -/

/-- Modelled from the spec: the declaration of `types.Params` is not part of the sources;
its fields are the ten parameters `InitGenesis` reads. -/
structure Params where
  MaxDataSourceExecutableSize : Int
  MaxOracleScriptCodeSize : Int
  MaxCalldataSize : Int
  MaxDataSourceCountPerRequest : Int
  MaxRawDataReportSize : Int
  MaxResultSize : Int
  EndBlockExecuteGasLimit : Int
  MaxNameLength : Int
  MaxDescriptionLength : Int
  GasPerRawDataRequestPerValidator : Int
  deriving DecidableEq, Repr

/-- The record `GenesisState` (lines 10-14). -/
structure GenesisState where
  Params : Params
  DataSources : List DataSource
  OracleScripts : List OracleScript
  deriving DecidableEq, Repr

/-- `ValidateGenesis` (lines 27-29): every genesis state is accepted. -/
def ValidateGenesis (_data : GenesisState) : Option Error :=
  none

/-- Modelled from the spec: the parameter setters of the keeper
(`SetMaxDataSourceExecutableSize` and the nine others) are not part of the sources; each
stores the value its accessor reads.  This is their composition in the order of
`InitGenesis` (lines 41-50). -/
def setParams (ctx : Context) (params : Params) : Context :=
  { ctx with
    maxDataSourceExecutableSize := params.MaxDataSourceExecutableSize,
    maxOracleScriptCodeSize := params.MaxOracleScriptCodeSize,
    maxCalldataSize := params.MaxCalldataSize,
    maxDataSourceCountPerRequest := params.MaxDataSourceCountPerRequest,
    maxRawDataReportSize := params.MaxRawDataReportSize,
    maxResultSize := params.MaxResultSize,
    endBlockExecuteGasLimit := params.EndBlockExecuteGasLimit,
    maxNameLength := params.MaxNameLength,
    maxDescriptionLength := params.MaxDescriptionLength,
    gasPerRawDataRequestPerValidator := params.GasPerRawDataRequestPerValidator }

/-- Modelled from the spec: `Keeper.GetParams` is not part of the sources; it reads the ten
parameters. -/
def GetParams (ctx : Context) : Params :=
  { MaxDataSourceExecutableSize := ctx.maxDataSourceExecutableSize,
    MaxOracleScriptCodeSize := ctx.maxOracleScriptCodeSize,
    MaxCalldataSize := ctx.maxCalldataSize,
    MaxDataSourceCountPerRequest := ctx.maxDataSourceCountPerRequest,
    MaxRawDataReportSize := ctx.maxRawDataReportSize,
    MaxResultSize := ctx.maxResultSize,
    EndBlockExecuteGasLimit := ctx.endBlockExecuteGasLimit,
    MaxNameLength := ctx.maxNameLength,
    MaxDescriptionLength := ctx.maxDescriptionLength,
    GasPerRawDataRequestPerValidator := ctx.gasPerRawDataRequestPerValidator }

/-- Modelled from the spec: the parameter accessor `Keeper.MaxOracleScriptCodeSize` is not
part of the sources; it reads the configured maximum. -/
def MaxOracleScriptCodeSize (ctx : Context) : Int :=
  ctx.maxOracleScriptCodeSize

/-- Modelled from the spec: `Keeper.AddOracleScript` is not part of the sources.  The spec
gives oracle scripts the same pair of operations as data sources, with the code in place
of the executable and the fee: the code, the name and the description are checked against
their maxima (`ErrBadDataValue`, nothing written), and otherwise the record is stored
under the next ID, the number of stored oracle scripts plus one. -/
def AddOracleScript (ctx : Context) (owner : AccAddress) (name : String)
    (description : String) (code : List Nat) : Context × Except Error OracleScriptID :=
  let newOracleScriptID := (ctx.oracleScripts.length : Int) + 1
  if (code.length : Int) > MaxOracleScriptCodeSize ctx then
    (ctx, .error Error.ErrBadDataValue)
  else if (name.utf8ByteSize : Int) > MaxNameLength ctx then
    (ctx, .error Error.ErrBadDataValue)
  else if (description.utf8ByteSize : Int) > MaxDescriptionLength ctx then
    (ctx, .error Error.ErrBadDataValue)
  else
    ({ ctx with
        oracleScripts := storeSet newOracleScriptID
          { Owner := owner, Name := name, Description := description, Code := code }
          ctx.oracleScripts },
      .ok newOracleScriptID)

/-- Modelled from the spec: `Keeper.GetAllOracleScripts` is not part of the sources; the
stored oracle scripts in ascending ID order. -/
def GetAllOracleScripts (ctx : Context) : List OracleScript :=
  ctx.oracleScripts.map Prod.snd

/-- The loop over `data.DataSources` of `InitGenesis` (lines 52-64): each data source is
added with `AddDataSource`, and an error is a panic, which ends the loop with the error. -/
def initDataSources : Context → List DataSource → Except Error Context
  | ctx, [] => .ok ctx
  | ctx, dataSource :: rest =>
    match AddDataSource ctx dataSource.Owner dataSource.Name dataSource.Description
        dataSource.Fee dataSource.Executable with
    | (_, .error err) => .error err
    | (ctx1, .ok _) => initDataSources ctx1 rest

/-- The loop over `data.OracleScripts` of `InitGenesis` (lines 66-74). -/
def initOracleScripts : Context → List OracleScript → Except Error Context
  | ctx, [] => .ok ctx
  | ctx, oracleScript :: rest =>
    match AddOracleScript ctx oracleScript.Owner oracleScript.Name oracleScript.Description
        oracleScript.Code with
    | (_, .error err) => .error err
    | (ctx1, .ok _) => initOracleScripts ctx1 rest

/-- `InitGenesis` (lines 40-76): the context after the parameters are set and every data
source and oracle script is added, or the error it panics with.  The value it returns is
always the empty list of validator updates. -/
def InitGenesis (ctx : Context) (data : GenesisState) : Except Error Context :=
  match initDataSources (setParams ctx data.Params) data.DataSources with
  | .error err => .error err
  | .ok ctx1 => initOracleScripts ctx1 data.OracleScripts

/-- `ExportGenesis` (lines 78-84). -/
def ExportGenesis (ctx : Context) : GenesisState :=
  { Params := GetParams ctx,
    DataSources := GetAllDataSources ctx,
    OracleScripts := GetAllOracleScripts ctx }

/-- The error `InitGenesis` panics with, if it panics. -/
def panicOf (result : Except Error Context) : Option Error :=
  match result with
  | .error err => some err
  | .ok _ => none

/-- A data source is within the size limits of the parameters. -/
def DataSourceWithin (params : Params) (dataSource : DataSource) : Prop :=
  (dataSource.Executable.length : Int) ≤ params.MaxDataSourceExecutableSize ∧
  (dataSource.Name.utf8ByteSize : Int) ≤ params.MaxNameLength ∧
  (dataSource.Description.utf8ByteSize : Int) ≤ params.MaxDescriptionLength

instance (params : Params) (dataSource : DataSource) :
    Decidable (DataSourceWithin params dataSource) := by
  unfold DataSourceWithin; infer_instance

/-- An oracle script is within the size limits of the parameters. -/
def OracleScriptWithin (params : Params) (oracleScript : OracleScript) : Prop :=
  (oracleScript.Code.length : Int) ≤ params.MaxOracleScriptCodeSize ∧
  (oracleScript.Name.utf8ByteSize : Int) ≤ params.MaxNameLength ∧
  (oracleScript.Description.utf8ByteSize : Int) ≤ params.MaxDescriptionLength

instance (params : Params) (oracleScript : OracleScript) :
    Decidable (OracleScriptWithin params oracleScript) := by
  unfold OracleScriptWithin; infer_instance

/-- Some size of an oracle script exceeds its configured maximum. -/
def OracleScriptOversized (ctx : Context) (name : String) (description : String)
    (code : List Nat) : Prop :=
  (code.length : Int) > MaxOracleScriptCodeSize ctx ∨
  (name.utf8ByteSize : Int) > MaxNameLength ctx ∨
  (description.utf8ByteSize : Int) > MaxDescriptionLength ctx

instance (ctx : Context) (name : String) (description : String) (code : List Nat) :
    Decidable (OracleScriptOversized ctx name description code) := by
  unfold OracleScriptOversized; infer_instance

/-- Parameters for examples: executables and codes of at most 4 bytes, names of at most 8,
descriptions of at most 16. -/
def sampleParams : Params :=
  { MaxDataSourceExecutableSize := 4, MaxOracleScriptCodeSize := 4, MaxCalldataSize := 16,
    MaxDataSourceCountPerRequest := 4, MaxRawDataReportSize := 4, MaxResultSize := 16,
    EndBlockExecuteGasLimit := 1000, MaxNameLength := 8, MaxDescriptionLength := 16,
    GasPerRawDataRequestPerValidator := 10 }

/-- A genesis state with two data sources within the limits of `sampleParams` and no
oracle script. -/
def sampleGenesis : GenesisState :=
  { Params := sampleParams,
    DataSources := [NewDataSource [1] "btc" "price" [] [1, 2],
                    NewDataSource [2] "eth" "rate" [] [3]],
    OracleScripts := [] }

/-- The genesis state `sampleGenesis` with a data source whose executable has 5 bytes. -/
def oversizedDataSourceGenesis : GenesisState :=
  { sampleGenesis with
    DataSources := [NewDataSource [1] "btc" "price" [] [1, 2, 3, 4, 5]] }

/-- The genesis state `sampleGenesis` with an oracle script whose code has 5 bytes. -/
def oversizedOracleScriptGenesis : GenesisState :=
  { sampleGenesis with
    OracleScripts := [{ Owner := [1], Name := "median", Description := "of prices",
                        Code := [0, 97, 115, 109, 1] }] }

/-! ## The loop over the data set -/

theorem any_Equals_iff (v : ValAddress) (l : List ValAddress) :
    l.any (fun x => Equals v x) = true ↔ v ∈ l := by
  simp [List.any_eq_true, Equals]

theorem any_Equals_eq (v : ValAddress) (l : List ValAddress) :
    l.any (fun x => Equals v x) = decide (v ∈ l) := by
  rw [Bool.eq_iff_iff, any_Equals_iff, decide_eq_true_iff]

/-- The loop writes raw data reports only: every other component of the context is the one
it started from. -/
theorem reportLoop_frame (requestID : RequestID) (validator : ValAddress) :
    ∀ (dataSet : List RawDataReportWithID) (ctx : Context) (idx : Nat)
      (lastExternalID : ExternalID),
      (reportLoop requestID validator ctx idx lastExternalID dataSet).1 =
        { ctx with rawDataReports :=
            (reportLoop requestID validator ctx idx lastExternalID dataSet).1.rawDataReports }
  | [], _, _, _ => rfl
  | item :: rest, ctx, idx, lastExternalID => by
    simp only [reportLoop]
    split_ifs
    · rfl
    · rfl
    · rfl
    · exact (reportLoop_frame requestID validator rest _ _ _).trans rfl

/-- The components of the context that the loop leaves as they were. -/
theorem reportLoop_fields (requestID : RequestID) (validator : ValAddress)
    (dataSet : List RawDataReportWithID) (ctx : Context) (idx : Nat)
    (lastExternalID : ExternalID) :
    (reportLoop requestID validator ctx idx lastExternalID dataSet).1.blockHeight =
      ctx.blockHeight ∧
    (reportLoop requestID validator ctx idx lastExternalID dataSet).1.requests =
      ctx.requests ∧
    (reportLoop requestID validator ctx idx lastExternalID dataSet).1.reporters =
      ctx.reporters ∧
    (reportLoop requestID validator ctx idx lastExternalID dataSet).1.rawDataRequests =
      ctx.rawDataRequests ∧
    (reportLoop requestID validator ctx idx lastExternalID dataSet).1.rawDataRequestCount =
      ctx.rawDataRequestCount ∧
    (reportLoop requestID validator ctx idx lastExternalID dataSet).1.pendingResolveList =
      ctx.pendingResolveList ∧
    (reportLoop requestID validator ctx idx lastExternalID dataSet).1.maxRawDataReportSize =
      ctx.maxRawDataReportSize := by
  have h := reportLoop_frame requestID validator dataSet ctx idx lastExternalID
  have h1 := congrArg Context.blockHeight h
  have h2 := congrArg Context.requests h
  have h3 := congrArg Context.reporters h
  have h4 := congrArg Context.rawDataRequests h
  have h5 := congrArg Context.rawDataRequestCount h
  have h6 := congrArg Context.pendingResolveList h
  have h7 := congrArg Context.maxRawDataReportSize h
  exact ⟨h1, h2, h3, h4, h5, h6, h7⟩

/-- An error of the loop is `ErrBadDataValue`. -/
theorem reportLoop_error_kind (requestID : RequestID) (validator : ValAddress) :
    ∀ (dataSet : List RawDataReportWithID) (ctx : Context) (idx : Nat)
      (lastExternalID : ExternalID) (err : Error),
      (reportLoop requestID validator ctx idx lastExternalID dataSet).2 = some err →
        err = Error.ErrBadDataValue
  | [], _, _, _, _ => by simp [reportLoop]
  | item :: rest, ctx, idx, lastExternalID, err => by
    simp only [reportLoop]
    split_ifs
    · intro h; exact (Option.some.inj h).symm
    · intro h; exact (Option.some.inj h).symm
    · intro h; exact (Option.some.inj h).symm
    · exact reportLoop_error_kind requestID validator rest _ _ _ err

/-- The loop writes only under keys of this request and validator whose ExternalID is in
the data set. -/
theorem reportLoop_other_keys (requestID : RequestID) (validator : ValAddress) :
    ∀ (dataSet : List RawDataReportWithID) (ctx : Context) (idx : Nat)
      (lastExternalID : ExternalID) (r : RequestID) (e : ExternalID) (w : ValAddress),
      ¬ (r = requestID ∧ w = validator ∧ e ∈ externalIDs dataSet) →
        (reportLoop requestID validator ctx idx lastExternalID dataSet).1.rawDataReports r e w =
          ctx.rawDataReports r e w
  | [], _, _, _, _, _, _ => fun _ => rfl
  | item :: rest, ctx, idx, lastExternalID, r, e, w => by
    intro hkey
    simp only [reportLoop]
    have hrest : ¬ (r = requestID ∧ w = validator ∧ e ∈ externalIDs rest) := by
      rintro ⟨h1, h2, h3⟩
      exact hkey ⟨h1, h2, by simp [externalIDs] at h3 ⊢; exact Or.inr h3⟩
    have hhead : ¬ (r = requestID ∧ e = item.ExternalDataID ∧ w = validator) := by
      rintro ⟨h1, h2, h3⟩
      exact hkey ⟨h1, h3, by simp [externalIDs, h2]⟩
    split_ifs
    · rfl
    · rfl
    · rfl
    · rw [reportLoop_other_keys requestID validator rest _ _ _ r e w hrest]
      simp only [SetRawDataReport, if_neg hhead]

@[simp] theorem CheckRawDataRequestExists_SetRawDataReport (ctx : Context)
    (requestID : RequestID) (externalID : ExternalID) (validator : ValAddress)
    (report : RawDataReport) (r : RequestID) (e : ExternalID) :
    CheckRawDataRequestExists (SetRawDataReport ctx requestID externalID validator report) r e =
      CheckRawDataRequestExists ctx r e := rfl

@[simp] theorem MaxRawDataReportSize_SetRawDataReport (ctx : Context)
    (requestID : RequestID) (externalID : ExternalID) (validator : ValAddress)
    (report : RawDataReport) :
    MaxRawDataReportSize (SetRawDataReport ctx requestID externalID validator report) =
      MaxRawDataReportSize ctx := rfl

/-- Entered after at least one item, the loop returns no error exactly when the remaining
ExternalIDs increase strictly from the last one and every remaining item is known and
within the size limit. -/
theorem reportLoop_succ_none_iff (requestID : RequestID) (validator : ValAddress) :
    ∀ (dataSet : List RawDataReportWithID) (ctx : Context) (idx : Nat)
      (lastExternalID : ExternalID),
      (reportLoop requestID validator ctx (idx + 1) lastExternalID dataSet).2 = none ↔
        (externalIDs dataSet).Chain (fun a b => a < b) lastExternalID ∧
        (∀ item ∈ dataSet,
          CheckRawDataRequestExists ctx requestID item.ExternalDataID = true) ∧
        (∀ item ∈ dataSet, (item.Data.length : Int) ≤ MaxRawDataReportSize ctx)
  | [], _, _, _ => by simp [reportLoop, externalIDs]
  | item :: rest, ctx, idx, lastExternalID => by
    have ih := reportLoop_succ_none_iff requestID validator rest
      (SetRawDataReport ctx requestID item.ExternalDataID validator
        { ExitCode := item.ExitCode, Data := item.Data }) (idx + 1) item.ExternalDataID
    simp only [reportLoop]
    split_ifs with h1 h2 h3
    · simp [externalIDs]
      intro h
      exact absurd h (not_lt.mpr h1.2)
    · simp at h2
      simp [externalIDs, h2]
    · simp [externalIDs]
      intro _ _ _ _ h
      exact absurd h (by omega)
    · rw [ih]
      simp at h1 h2 h3
      simp [externalIDs, h1, h2, h3]

/-- The loop from its start returns no error exactly when the per-item checks pass. -/
theorem reportLoop_none_iff (requestID : RequestID) (validator : ValAddress)
    (ctx : Context) (dataSet : List RawDataReportWithID) :
    (reportLoop requestID validator ctx 0 0 dataSet).2 = none ↔
      ItemChecksPass ctx requestID dataSet := by
  cases dataSet with
  | nil => simp [reportLoop, ItemChecksPass, externalIDs]
  | cons item rest =>
    have ih := reportLoop_succ_none_iff requestID validator rest
      (SetRawDataReport ctx requestID item.ExternalDataID validator
        { ExitCode := item.ExitCode, Data := item.Data }) 0 item.ExternalDataID
    simp only [reportLoop, ItemChecksPass]
    split_ifs with h1 h2 h3
    · simp at h1
    · simp at h2
      simp [h2]
    · simp
      intro _ _ _ h
      exact absurd h (by omega)
    · rw [ih]
      simp at h2 h3
      simp [externalIDs, List.Chain', h2, h3]

/-- A loop that returns no error over strictly increasing ExternalIDs has stored, for
every item, the item's report under the item's ExternalID. -/
theorem reportLoop_written (requestID : RequestID) (validator : ValAddress) :
    ∀ (dataSet : List RawDataReportWithID) (ctx : Context) (idx : Nat)
      (lastExternalID : ExternalID),
      (reportLoop requestID validator ctx idx lastExternalID dataSet).2 = none →
      (externalIDs dataSet).Pairwise (fun a b => a < b) →
      ∀ item ∈ dataSet,
        (reportLoop requestID validator ctx idx lastExternalID dataSet).1.rawDataReports
            requestID item.ExternalDataID validator =
          some { ExitCode := item.ExitCode, Data := item.Data }
  | [], _, _, _ => by simp
  | head :: rest, ctx, idx, lastExternalID => by
    simp only [reportLoop]
    split_ifs with h1 h2 h3
    · simp
    · simp
    · simp
    · intro hnone hpw item hitem
      have hpw2 : (∀ b ∈ externalIDs rest, head.ExternalDataID < b) ∧
          (externalIDs rest).Pairwise (fun a b => a < b) := by
        simpa [externalIDs] using hpw
      rcases List.mem_cons.mp hitem with rfl | hmem
      · rw [reportLoop_other_keys requestID validator rest _ _ _ requestID
          item.ExternalDataID validator]
        · simp [SetRawDataReport]
        · rintro ⟨_, _, hin⟩
          exact lt_irrefl _ (hpw2.1 _ hin)
      · exact reportLoop_written requestID validator rest _ _ _ hnone hpw2.2 item hmem

/-- A loop that returns an error has run without error over the `k` items that precede the
failing one, where the context at its `return` is the one it had reached, and it returns
an error over those `k` items followed by the failing one. -/
theorem reportLoop_error_first_failing (requestID : RequestID) (validator : ValAddress) :
    ∀ (dataSet : List RawDataReportWithID) (ctx : Context) (idx : Nat)
      (lastExternalID : ExternalID) (err : Error),
      (reportLoop requestID validator ctx idx lastExternalID dataSet).2 = some err →
      ∃ k, k < dataSet.length ∧
        reportLoop requestID validator ctx idx lastExternalID (dataSet.take k) =
          ((reportLoop requestID validator ctx idx lastExternalID dataSet).1, none) ∧
        (reportLoop requestID validator ctx idx lastExternalID (dataSet.take (k + 1))).2 ≠
          none
  | [], _, _, _, _ => by simp [reportLoop]
  | head :: rest, ctx, idx, lastExternalID, err => by
    simp only [reportLoop]
    split_ifs with h1 h2 h3
    · intro _
      refine ⟨0, by simp, by simp [reportLoop], ?_⟩
      simp only [List.take_succ_cons, List.take_zero, reportLoop, if_pos h1]
      simp
    · intro _
      refine ⟨0, by simp, by simp [reportLoop], ?_⟩
      simp only [List.take_succ_cons, List.take_zero, reportLoop, if_neg h1, if_pos h2]
      simp
    · intro _
      refine ⟨0, by simp, by simp [reportLoop], ?_⟩
      simp only [List.take_succ_cons, List.take_zero, reportLoop, if_neg h1, if_neg h2,
        if_pos h3]
      simp
    · intro herr
      obtain ⟨k, hk, hrun, hfail⟩ :=
        reportLoop_error_first_failing requestID validator rest _ _ _ err herr
      refine ⟨k + 1, by simpa using hk, ?_, ?_⟩
      · simp only [List.take_succ_cons, reportLoop, if_neg h1, if_neg h2, if_neg h3]
        exact hrun
      · exact hfail

/-! ## AddReport -/

/-- A call for an unknown request returns `ErrItemNotFound` in the unchanged context. -/
theorem AddReport_of_unknown (ctx : Context) (requestID : RequestID)
    (dataSet : List RawDataReportWithID) (validator : ValAddress) (reporter : AccAddress)
    (hreq : ctx.requests requestID = none) :
    AddReport ctx requestID dataSet validator reporter = (ctx, some Error.ErrItemNotFound) := by
  simp [AddReport, GetRequest, hreq]

/-- A call that fails one of the checks 2 to 7 returns in the unchanged context. -/
theorem AddReport_of_failed_request_checks (ctx : Context) (requestID : RequestID)
    (dataSet : List RawDataReportWithID) (validator : ValAddress) (reporter : AccAddress)
    (request : Request) (hreq : ctx.requests requestID = some request)
    (hfail : ¬ (RequestChecksPass ctx request validator reporter ∧
      (dataSet.length : Int) = GetRawDataRequestCount ctx requestID)) :
    AddReport ctx requestID dataSet validator reporter =
      (ctx, firstFailingCheck ctx requestID dataSet validator reporter) := by
  simp only [AddReport, GetRequest, firstFailingCheck, hreq, any_Equals_eq]
  by_cases h2 : request.ResolveStatus = ResolveStatus.Open
  swap
  · simp [h2]
  by_cases h3 : ctx.blockHeight ≤ request.ExpirationHeight
  swap
  · simp [h2, h3, not_le.mp h3]
  by_cases h4 : CheckReporter ctx validator reporter = true
  swap
  · simp [h2, h3, not_lt.mpr h3, h4]
  by_cases h5 : validator ∈ request.RequestedValidators
  swap
  · simp [h2, h3, not_lt.mpr h3, h4, h5]
  by_cases h6 : validator ∈ request.ReceivedValidators
  · simp [h2, h3, not_lt.mpr h3, h4, h5, h6]
  by_cases h7 : (dataSet.length : Int) = GetRawDataRequestCount ctx requestID
  swap
  · simp [h2, h3, not_lt.mpr h3, h4, h5, h6, h7]
  exact absurd ⟨⟨h2, h3, h4, h5, h6⟩, h7⟩ hfail

/-- A call that passes the checks 1 to 7 runs the loop: when the per-item checks pass it
stores the request with the validator appended and enqueues the request when it should
become pending; otherwise it returns `ErrBadDataValue` in the context the loop reached. -/
theorem AddReport_of_request_checks (ctx : Context) (requestID : RequestID)
    (dataSet : List RawDataReportWithID) (validator : ValAddress) (reporter : AccAddress)
    (request : Request) (hreq : ctx.requests requestID = some request)
    (hreqChecks : RequestChecksPass ctx request validator reporter)
    (hlen : (dataSet.length : Int) = GetRawDataRequestCount ctx requestID) :
    AddReport ctx requestID dataSet validator reporter =
      if ItemChecksPass ctx requestID dataSet then
        (let ctx2 := SetRequest (reportLoop requestID validator ctx 0 0 dataSet).1 requestID
            { request with ReceivedValidators := request.ReceivedValidators ++ [validator] }
         if ShouldBecomePendingResolve ctx2 requestID then
           { ctx2 with pendingResolveList := ctx2.pendingResolveList ++ [requestID] }
         else ctx2, none)
      else ((reportLoop requestID validator ctx 0 0 dataSet).1, some Error.ErrBadDataValue) := by
  obtain ⟨h2, h3, h4, h5, h6⟩ := hreqChecks
  have hloop := reportLoop_none_iff requestID validator ctx dataSet
  have c3 : ¬ ((!CheckReporter ctx validator reporter) = true) := by simp [h4]
  have c4 : ¬ ((!decide (validator ∈ request.RequestedValidators)) = true) := by simp [h5]
  have c5 : ¬ (decide (validator ∈ request.ReceivedValidators) = true) := by simp [h6]
  simp only [AddReport, GetRequest, hreq, any_Equals_eq]
  rw [if_neg (not_not.mpr h2), if_neg (not_lt.mpr h3), if_neg c3, if_neg c4, if_neg c5,
    if_neg (not_not.mpr hlen)]
  rcases hrun : reportLoop requestID validator ctx 0 0 dataSet with ⟨ctx1, _ | err⟩
  · rw [hrun] at hloop
    have hitems : ItemChecksPass ctx requestID dataSet := hloop.mp rfl
    simp only [if_pos hitems]
    by_cases hshould : ShouldBecomePendingResolve
        (SetRequest ctx1 requestID
          { request with ReceivedValidators := request.ReceivedValidators ++ [validator] })
        requestID = true
    · have hnotin : (SetRequest ctx1 requestID
          { request with ReceivedValidators :=
              request.ReceivedValidators ++ [validator] }).pendingResolveList.contains
            requestID = false := by
        simp only [ShouldBecomePendingResolve, GetRequest, SetRequest, if_true,
          Bool.and_eq_true, Bool.not_eq_true'] at hshould
        exact hshould.2
      simp only [hshould, if_true, AddPendingRequest, hnotin, Bool.false_eq_true, if_false]
    · simp only [hshould, if_false, Bool.false_eq_true]
  · rw [hrun] at hloop
    have hitems : ¬ ItemChecksPass ctx requestID dataSet := by
      intro hc
      have := hloop.mpr hc
      simp at this
    have hkind := reportLoop_error_kind requestID validator dataSet ctx 0 0 err
      (by rw [hrun])
    simp only [if_neg hitems, hkind]

/-- The returned error is the one of the first failing check in the spec's order. -/
theorem AddReport_error_eq (ctx : Context) (requestID : RequestID)
    (dataSet : List RawDataReportWithID) (validator : ValAddress) (reporter : AccAddress) :
    (AddReport ctx requestID dataSet validator reporter).2 =
      firstFailingCheck ctx requestID dataSet validator reporter := by
  cases hreq : ctx.requests requestID with
  | none =>
    rw [AddReport_of_unknown ctx requestID dataSet validator reporter hreq]
    simp [firstFailingCheck, hreq]
  | some request =>
    by_cases hhead : RequestChecksPass ctx request validator reporter ∧
        (dataSet.length : Int) = GetRawDataRequestCount ctx requestID
    · rw [AddReport_of_request_checks ctx requestID dataSet validator reporter request hreq
        hhead.1 hhead.2]
      obtain ⟨⟨h2, h3, h4, h5, h6⟩, h7⟩ := hhead
      simp only [firstFailingCheck, hreq]
      rw [if_neg (not_not.mpr h2), if_neg (not_not.mpr h3), if_neg (not_not.mpr h4),
        if_neg (not_not.mpr h5), if_neg h6, if_neg (not_not.mpr h7)]
      by_cases hitems : ItemChecksPass ctx requestID dataSet
      · simp [hitems]
      · simp [hitems]
    · rw [AddReport_of_failed_request_checks ctx requestID dataSet validator reporter request
        hreq hhead]

/-- No check fails exactly when all checks of the spec pass. -/
theorem firstFailingCheck_eq_none_iff (ctx : Context) (requestID : RequestID)
    (dataSet : List RawDataReportWithID) (validator : ValAddress) (reporter : AccAddress) :
    firstFailingCheck ctx requestID dataSet validator reporter = none ↔
      ReportChecksPass ctx requestID dataSet validator reporter := by
  unfold firstFailingCheck ReportChecksPass HeaderChecksPass RequestChecksPass
  cases hreq : ctx.requests requestID with
  | none => simp
  | some request =>
    simp only
    split_ifs <;> simp_all

/-- A call that fails one of the checks 1 to 7 returns in the unchanged context. -/
theorem AddReport_of_failed_header (ctx : Context) (requestID : RequestID)
    (dataSet : List RawDataReportWithID) (validator : ValAddress) (reporter : AccAddress)
    (hfail : ¬ HeaderChecksPass ctx requestID dataSet validator reporter) :
    (AddReport ctx requestID dataSet validator reporter).1 = ctx := by
  cases hreq : ctx.requests requestID with
  | none => rw [AddReport_of_unknown ctx requestID dataSet validator reporter hreq]
  | some request =>
    have hfail2 : ¬ (RequestChecksPass ctx request validator reporter ∧
        (dataSet.length : Int) = GetRawDataRequestCount ctx requestID) := by
      simpa [HeaderChecksPass, hreq] using hfail
    rw [AddReport_of_failed_request_checks ctx requestID dataSet validator reporter request
      hreq hfail2]

/-- The stored form of the request after a successful report of `validator`. -/
theorem HeaderChecksPass_iff (ctx : Context) (requestID : RequestID)
    (dataSet : List RawDataReportWithID) (validator : ValAddress) (reporter : AccAddress) :
    HeaderChecksPass ctx requestID dataSet validator reporter ↔
      ∃ request, ctx.requests requestID = some request ∧
        RequestChecksPass ctx request validator reporter ∧
        (dataSet.length : Int) = GetRawDataRequestCount ctx requestID := by
  unfold HeaderChecksPass
  cases hreq : ctx.requests requestID with
  | none => simp
  | some request => simp

theorem GetRequest_eq_ok_iff (ctx : Context) (id : RequestID) (request : Request) :
    GetRequest ctx id = .ok request ↔ ctx.requests id = some request := by
  unfold GetRequest
  cases h : ctx.requests id with
  | none => simp
  | some q => simp

/-- The context in which a call that passes all checks returns, component by component:
the request is stored with the validator appended, the raw data reports are those the
loop wrote, the request ID is appended to the pending list when the request should become
pending, and nothing else is written. -/
theorem AddReport_success_fields (ctx : Context) (requestID : RequestID)
    (dataSet : List RawDataReportWithID) (validator : ValAddress) (reporter : AccAddress)
    (request : Request) (hreq : ctx.requests requestID = some request)
    (hpass : ReportChecksPass ctx requestID dataSet validator reporter) :
    (AddReport ctx requestID dataSet validator reporter).1.requests =
      (fun i => if i = requestID then
          some { request with ReceivedValidators := request.ReceivedValidators ++ [validator] }
        else ctx.requests i) ∧
    (AddReport ctx requestID dataSet validator reporter).1.rawDataReports =
      (reportLoop requestID validator ctx 0 0 dataSet).1.rawDataReports ∧
    (AddReport ctx requestID dataSet validator reporter).1.pendingResolveList =
      (if request.SufficientValidatorCount ≤
            ((request.ReceivedValidators ++ [validator]).length : Int) ∧
          requestID ∉ ctx.pendingResolveList then
        ctx.pendingResolveList ++ [requestID]
      else ctx.pendingResolveList) ∧
    (AddReport ctx requestID dataSet validator reporter).1.blockHeight = ctx.blockHeight ∧
    (AddReport ctx requestID dataSet validator reporter).1.reporters = ctx.reporters ∧
    (AddReport ctx requestID dataSet validator reporter).1.rawDataRequests =
      ctx.rawDataRequests ∧
    (AddReport ctx requestID dataSet validator reporter).1.rawDataRequestCount =
      ctx.rawDataRequestCount ∧
    (AddReport ctx requestID dataSet validator reporter).1.maxRawDataReportSize =
      ctx.maxRawDataReportSize := by
  obtain ⟨hhead, hitems⟩ := hpass
  obtain ⟨request2, hreq2, hchecks, hlen⟩ :=
    (HeaderChecksPass_iff ctx requestID dataSet validator reporter).mp hhead
  have heq : request2 = request := Option.some.inj (hreq2.symm.trans hreq)
  subst heq
  rw [AddReport_of_request_checks ctx requestID dataSet validator reporter request2 hreq
    hchecks hlen, if_pos hitems]
  obtain ⟨f1, f2, f3, f4, f5, hpend, f7⟩ :=
    reportLoop_fields requestID validator dataSet ctx 0 0
  have hshould : ShouldBecomePendingResolve
      (SetRequest (reportLoop requestID validator ctx 0 0 dataSet).1 requestID
        { request2 with ReceivedValidators := request2.ReceivedValidators ++ [validator] })
      requestID = true ↔
      (request2.SufficientValidatorCount ≤
          ((request2.ReceivedValidators ++ [validator]).length : Int) ∧
        requestID ∉ ctx.pendingResolveList) := by
    simp [ShouldBecomePendingResolve, GetRequest, SetRequest, hpend]
  by_cases hs : request2.SufficientValidatorCount ≤
          ((request2.ReceivedValidators ++ [validator]).length : Int) ∧
        requestID ∉ ctx.pendingResolveList
  · simp only [if_pos (hshould.mpr hs), if_pos hs]
    refine ⟨?_, rfl, ?_, f1, f3, f4, f5, f7⟩
    · simp only [SetRequest, f2]
    · simp only [SetRequest, hpend]
  · simp only [if_neg (fun h => hs (hshould.mp h)), if_neg hs]
    refine ⟨?_, rfl, hpend, f1, f3, f4, f5, f7⟩
    simp only [SetRequest, f2]

/-- A call that returns an error has failed a header check and returns in the unchanged
context, or has passed the header checks and returns `ErrBadDataValue` in the context the
loop reached. -/
theorem AddReport_error_cases (ctx : Context) (requestID : RequestID)
    (dataSet : List RawDataReportWithID) (validator : ValAddress) (reporter : AccAddress)
    (err : Error) (herr : (AddReport ctx requestID dataSet validator reporter).2 = some err) :
    (¬ HeaderChecksPass ctx requestID dataSet validator reporter ∧
      (AddReport ctx requestID dataSet validator reporter).1 = ctx) ∨
    (HeaderChecksPass ctx requestID dataSet validator reporter ∧
      err = Error.ErrBadDataValue ∧
      (AddReport ctx requestID dataSet validator reporter).1 =
        (reportLoop requestID validator ctx 0 0 dataSet).1 ∧
      ∃ loopErr, (reportLoop requestID validator ctx 0 0 dataSet).2 = some loopErr) := by
  by_cases hhead : HeaderChecksPass ctx requestID dataSet validator reporter
  · right
    obtain ⟨request, hreq, hchecks, hlen⟩ :=
      (HeaderChecksPass_iff ctx requestID dataSet validator reporter).mp hhead
    have hrun := AddReport_of_request_checks ctx requestID dataSet validator reporter request
      hreq hchecks hlen
    by_cases hitems : ItemChecksPass ctx requestID dataSet
    · rw [hrun, if_pos hitems] at herr
      simp at herr
    · rw [hrun, if_neg hitems] at herr ⊢
      refine ⟨hhead, (Option.some.inj herr).symm, rfl, ?_⟩
      cases hl : (reportLoop requestID validator ctx 0 0 dataSet).2 with
      | none => exact absurd ((reportLoop_none_iff requestID validator ctx dataSet).mp hl) hitems
      | some e => exact ⟨e, rfl⟩
  · left
    exact ⟨hhead, AddReport_of_failed_header ctx requestID dataSet validator reporter hhead⟩

/-- A call that returns an error has written nothing but raw data reports. -/
theorem AddReport_error_fields (ctx : Context) (requestID : RequestID)
    (dataSet : List RawDataReportWithID) (validator : ValAddress) (reporter : AccAddress)
    (err : Error) (herr : (AddReport ctx requestID dataSet validator reporter).2 = some err) :
    (AddReport ctx requestID dataSet validator reporter).1.requests = ctx.requests ∧
    (AddReport ctx requestID dataSet validator reporter).1.pendingResolveList =
      ctx.pendingResolveList := by
  rcases AddReport_error_cases ctx requestID dataSet validator reporter err herr with
    ⟨_, hctx⟩ | ⟨_, _, hctx, _⟩
  · rw [hctx]
    exact ⟨rfl, rfl⟩
  · rw [hctx]
    obtain ⟨_, f2, _, _, _, f6, _⟩ := reportLoop_fields requestID validator dataSet ctx 0 0
    exact ⟨f2, f6⟩

/-- A call that returns no error has passed all checks. -/
theorem ReportChecksPass_of_success (ctx : Context) (requestID : RequestID)
    (dataSet : List RawDataReportWithID) (validator : ValAddress) (reporter : AccAddress)
    (hok : (AddReport ctx requestID dataSet validator reporter).2 = none) :
    ReportChecksPass ctx requestID dataSet validator reporter := by
  rw [AddReport_error_eq] at hok
  exact (firstFailingCheck_eq_none_iff ctx requestID dataSet validator reporter).mp hok

/-- The checks a successful call has passed, for the stored request. -/
theorem checks_of_success (ctx : Context) (requestID : RequestID)
    (dataSet : List RawDataReportWithID) (validator : ValAddress) (reporter : AccAddress)
    (hok : (AddReport ctx requestID dataSet validator reporter).2 = none) :
    ∃ request, ctx.requests requestID = some request ∧
      RequestChecksPass ctx request validator reporter ∧
      (dataSet.length : Int) = GetRawDataRequestCount ctx requestID ∧
      ItemChecksPass ctx requestID dataSet := by
  have hpass := ReportChecksPass_of_success ctx requestID dataSet validator reporter hok
  obtain ⟨request, hreq, hchecks, hlen⟩ :=
    (HeaderChecksPass_iff ctx requestID dataSet validator reporter).mp hpass.1
  exact ⟨request, hreq, hchecks, hlen, hpass.2⟩

/-- After a successful call every item of the data set is stored under its ExternalID. -/
theorem AddReport_success_written (ctx : Context) (requestID : RequestID)
    (dataSet : List RawDataReportWithID) (validator : ValAddress) (reporter : AccAddress)
    (hok : (AddReport ctx requestID dataSet validator reporter).2 = none) :
    ∀ item ∈ dataSet,
      (AddReport ctx requestID dataSet validator reporter).1.rawDataReports requestID
          item.ExternalDataID validator =
        some { ExitCode := item.ExitCode, Data := item.Data } := by
  obtain ⟨request, hreq, _, _, hitems⟩ :=
    checks_of_success ctx requestID dataSet validator reporter hok
  have hpass := ReportChecksPass_of_success ctx requestID dataSet validator reporter hok
  have hfields := AddReport_success_fields ctx requestID dataSet validator reporter request
    hreq hpass
  rw [hfields.2.1]
  exact reportLoop_written requestID validator dataSet ctx 0 0
    ((reportLoop_none_iff requestID validator ctx dataSet).mpr hitems)
    (List.chain'_iff_pairwise.mp hitems.1)

/-- The raw data reports after any call, successful or not, are those the loop reached or
those before the call. -/
theorem AddReport_reports_cases (ctx : Context) (requestID : RequestID)
    (dataSet : List RawDataReportWithID) (validator : ValAddress) (reporter : AccAddress) :
    (AddReport ctx requestID dataSet validator reporter).1.rawDataReports =
        ctx.rawDataReports ∨
    (AddReport ctx requestID dataSet validator reporter).1.rawDataReports =
        (reportLoop requestID validator ctx 0 0 dataSet).1.rawDataReports := by
  cases hres : (AddReport ctx requestID dataSet validator reporter).2 with
  | some err =>
    rcases AddReport_error_cases ctx requestID dataSet validator reporter err hres with
      ⟨_, hctx⟩ | ⟨_, _, hctx, _⟩
    · left; rw [hctx]
    · right; rw [hctx]
  | none =>
    obtain ⟨request, hreq, _, _, _⟩ :=
      checks_of_success ctx requestID dataSet validator reporter hres
    right
    exact (AddReport_success_fields ctx requestID dataSet validator reporter request hreq
      (ReportChecksPass_of_success ctx requestID dataSet validator reporter hres)).2.1

/-- No call writes a raw data report of another request or of another validator. -/
theorem AddReport_other_keys (ctx : Context) (requestID : RequestID)
    (dataSet : List RawDataReportWithID) (validator : ValAddress) (reporter : AccAddress)
    (r : RequestID) (e : ExternalID) (w : ValAddress)
    (hkey : ¬ (r = requestID ∧ w = validator)) :
    (AddReport ctx requestID dataSet validator reporter).1.rawDataReports r e w =
      ctx.rawDataReports r e w := by
  rcases AddReport_reports_cases ctx requestID dataSet validator reporter with h | h
  · rw [h]
  · rw [h]
    exact reportLoop_other_keys requestID validator dataSet ctx 0 0 r e w
      (fun hk => hkey ⟨hk.1, hk.2.1⟩)

/-- A validator that has reported on a request stays among its ReceivedValidators across
every later call. -/
theorem HasReported_AddReport (ctx : Context) (requestID : RequestID)
    (dataSet : List RawDataReportWithID) (validator : ValAddress) (reporter : AccAddress)
    (r : RequestID) (w : ValAddress) (hrep : HasReported ctx r w) :
    HasReported (AddReport ctx requestID dataSet validator reporter).1 r w := by
  obtain ⟨stored, hstored, hmem⟩ := hrep
  cases hres : (AddReport ctx requestID dataSet validator reporter).2 with
  | some err =>
    refine ⟨stored, ?_, hmem⟩
    rw [(AddReport_error_fields ctx requestID dataSet validator reporter err hres).1]
    exact hstored
  | none =>
    obtain ⟨request, hreq, _, _, _⟩ :=
      checks_of_success ctx requestID dataSet validator reporter hres
    have hfields := AddReport_success_fields ctx requestID dataSet validator reporter request
      hreq (ReportChecksPass_of_success ctx requestID dataSet validator reporter hres)
    by_cases hid : r = requestID
    · subst hid
      have heq : request = stored := Option.some.inj (hreq.symm.trans hstored)
      subst heq
      refine ⟨{ request with
        ReceivedValidators := request.ReceivedValidators ++ [validator] }, ?_, ?_⟩
      · rw [hfields.1]
        simp
      · exact List.mem_append.mpr (Or.inl hmem)
    · refine ⟨stored, ?_, hmem⟩
      rw [hfields.1]
      simp only [if_neg hid]
      exact hstored

/-- A call leaves every raw data report of a validator that has already reported on the
request as it is: a call of that validator on that request is rejected before the loop,
and any other call writes under other keys. -/
theorem AddReport_keeps_reported (ctx : Context) (requestID : RequestID)
    (dataSet : List RawDataReportWithID) (validator : ValAddress) (reporter : AccAddress)
    (r : RequestID) (e : ExternalID) (w : ValAddress) (hrep : HasReported ctx r w) :
    (AddReport ctx requestID dataSet validator reporter).1.rawDataReports r e w =
      ctx.rawDataReports r e w := by
  by_cases hkey : r = requestID ∧ w = validator
  · obtain ⟨rfl, rfl⟩ := hkey
    obtain ⟨stored, hstored, hmem⟩ := hrep
    have hfail : ¬ HeaderChecksPass ctx r dataSet w reporter := by
      rw [HeaderChecksPass_iff]
      rintro ⟨request, hreq, hchecks, _⟩
      have heq : request = stored := Option.some.inj (hreq.symm.trans hstored)
      subst heq
      exact hchecks.2.2.2.2 hmem
    rw [AddReport_of_failed_header ctx r dataSet w reporter hfail]
  · exact AddReport_other_keys ctx requestID dataSet validator reporter r e w hkey

/-- Across a sequence of calls a validator that has reported stays reported and its raw
data reports stay as they are. -/
theorem applyCalls_keeps_reported (r : RequestID) (w : ValAddress) :
    ∀ (calls : List ReportCall) (ctx : Context), HasReported ctx r w →
      HasReported (applyCalls ctx calls) r w ∧
      ∀ e, (applyCalls ctx calls).rawDataReports r e w = ctx.rawDataReports r e w
  | [], _, hrep => ⟨hrep, fun _ => rfl⟩
  | c :: rest, ctx, hrep => by
    have hrep0 : HasReported { ctx with blockHeight := c.height } r w := hrep
    have hstep := HasReported_AddReport { ctx with blockHeight := c.height } c.requestID
      c.dataSet c.validator c.reporter r w hrep0
    have ih := applyCalls_keeps_reported r w rest (applyCall ctx c) hstep
    refine ⟨ih.1, fun e => ?_⟩
    have hkeep := AddReport_keeps_reported { ctx with blockHeight := c.height } c.requestID
      c.dataSet c.validator c.reporter r e w hrep0
    exact (ih.2 e).trans hkeep

/-- Every call of `AddReport` preserves the quorum invariant of every request. -/
theorem QuorumInvariant_AddReport (ctx : Context) (requestID : RequestID)
    (dataSet : List RawDataReportWithID) (validator : ValAddress) (reporter : AccAddress)
    (r : RequestID) (sufficient : Int) (hinv : QuorumInvariant ctx r sufficient) :
    QuorumInvariant (AddReport ctx requestID dataSet validator reporter).1 r sufficient := by
  obtain ⟨stored, hstored, hsuff, hcount⟩ := hinv
  cases hres : (AddReport ctx requestID dataSet validator reporter).2 with
  | some err =>
    obtain ⟨hreqs, hpend⟩ :=
      AddReport_error_fields ctx requestID dataSet validator reporter err hres
    exact ⟨stored, by rw [hreqs]; exact hstored, hsuff, by rw [hpend]; exact hcount⟩
  | none =>
    obtain ⟨request, hreq, _, _, _⟩ :=
      checks_of_success ctx requestID dataSet validator reporter hres
    obtain ⟨hreqs, _, hpend, _⟩ :=
      AddReport_success_fields ctx requestID dataSet validator reporter request
        hreq (ReportChecksPass_of_success ctx requestID dataSet validator reporter hres)
    by_cases hid : r = requestID
    · subst hid
      have heq : request = stored := Option.some.inj (hreq.symm.trans hstored)
      subst heq
      refine ⟨{ request with
        ReceivedValidators := request.ReceivedValidators ++ [validator] }, ?_, hsuff, ?_⟩
      · rw [hreqs]
        simp
      · rw [hpend, hsuff]
        simp only [List.length_append, List.length_singleton, Nat.cast_add, Nat.cast_one]
          at hcount ⊢
        by_cases hq : sufficient ≤ (request.ReceivedValidators.length : Int)
        · rw [if_pos hq] at hcount
          have hin : r ∈ ctx.pendingResolveList :=
            List.count_pos_iff.mp (by rw [hcount]; exact Nat.one_pos)
          have hq2 : sufficient ≤ (request.ReceivedValidators.length : Int) + 1 := by
            linarith
          rw [if_neg (fun h => h.2 hin), if_pos hq2]
          exact hcount
        · rw [if_neg hq] at hcount
          have hnotin : r ∉ ctx.pendingResolveList := List.count_eq_zero.mp hcount
          by_cases hq2 : sufficient ≤ (request.ReceivedValidators.length : Int) + 1
          · rw [if_pos ⟨hq2, hnotin⟩, if_pos hq2, List.count_append, hcount]
            simp
          · rw [if_neg (fun h => hq2 h.1), if_neg hq2]
            exact hcount
    · refine ⟨stored, ?_, hsuff, ?_⟩
      · rw [hreqs]
        simp only [if_neg hid]
        exact hstored
      · rw [hpend, ← hcount]
        split_ifs
        · rw [List.count_append]
          have hne : requestID ≠ r := fun h => hid h.symm
          simp [List.count_singleton, hne]
        · rfl

/-- Every sequence of calls preserves the quorum invariant of every request. -/
theorem QuorumInvariant_applyCalls (r : RequestID) (sufficient : Int) :
    ∀ (calls : List ReportCall) (ctx : Context), QuorumInvariant ctx r sufficient →
      QuorumInvariant (applyCalls ctx calls) r sufficient
  | [], _, hinv => hinv
  | c :: rest, ctx, hinv => by
    have hinv0 : QuorumInvariant { ctx with blockHeight := c.height } r sufficient := hinv
    exact QuorumInvariant_applyCalls r sufficient rest (applyCall ctx c)
      (QuorumInvariant_AddReport { ctx with blockHeight := c.height } c.requestID c.dataSet
        c.validator c.reporter r sufficient hinv0)

/-! ## The claims about AddReport -/

/-- C1: for every context (store state and block height) and arguments, `AddReport`
returns no error if and only if all checks of the spec pass: the request exists, is Open,
is not past its ExpirationHeight, the reporter is authorized for the validator, the
validator is requested and has not reported, the data set has the request's raw data
request count, and over the data set the ExternalIDs increase strictly, each is known and
each Data is within `MaxRawDataReportSize`. -/
theorem AddReport_accepts_iff_checks_pass (ctx : Context) (requestID : RequestID)
    (dataSet : List RawDataReportWithID) (validator : ValAddress) (reporter : AccAddress) :
    (AddReport ctx requestID dataSet validator reporter).2 = none ↔
      ReportChecksPass ctx requestID dataSet validator reporter := by
  rw [AddReport_error_eq, firstFailingCheck_eq_none_iff]

/-- C2, against the claim as stated: at height 101 the request with expiration height 100
has validator `[1]` among its ReceivedValidators and the empty data set has the wrong
length, yet the error is `ErrInvalidState`, not `ErrItemDuplication`. -/
theorem AddReport_already_reported_wrong_length_not_duplicate :
    (∃ request, expiredReportedCtx.requests 1 = some request ∧
      [1] ∈ request.ReceivedValidators) ∧
    ((([] : List RawDataReportWithID).length : Int) ≠
      GetRawDataRequestCount expiredReportedCtx 1) ∧
    (AddReport expiredReportedCtx 1 [] [1] [11]).2 = some Error.ErrInvalidState := by
  refine ⟨⟨{ scenarioRequest with ReceivedValidators := [[1]] }, by decide, by decide⟩,
    by decide, by decide⟩

/-- C2, amended: the error `AddReport` returns is the error of the first failing check in
the spec's order (NotFound, InvalidState, InvalidState, Unauthorized, Unauthorized,
Duplicate, BadValue, BadValue).  For every call that passes checks 1 to 5 in which the
validator has already reported and the data set has the wrong length the error is
Duplicate, and for every call on a stored non-Open request by an unauthorized reporter the
error is InvalidState. -/
theorem AddReport_error_is_first_failing_check (ctx : Context) (requestID : RequestID)
    (dataSet : List RawDataReportWithID) (validator : ValAddress) (reporter : AccAddress) :
    (AddReport ctx requestID dataSet validator reporter).2 =
      firstFailingCheck ctx requestID dataSet validator reporter ∧
    (∀ request, ctx.requests requestID = some request →
      request.ResolveStatus = ResolveStatus.Open →
      ctx.blockHeight ≤ request.ExpirationHeight →
      CheckReporter ctx validator reporter = true →
      validator ∈ request.RequestedValidators →
      validator ∈ request.ReceivedValidators →
      (dataSet.length : Int) ≠ GetRawDataRequestCount ctx requestID →
      (AddReport ctx requestID dataSet validator reporter).2 =
        some Error.ErrItemDuplication) ∧
    (∀ request, ctx.requests requestID = some request →
      request.ResolveStatus ≠ ResolveStatus.Open →
      CheckReporter ctx validator reporter = false →
      (AddReport ctx requestID dataSet validator reporter).2 =
        some Error.ErrInvalidState) := by
  refine ⟨AddReport_error_eq ctx requestID dataSet validator reporter, ?_, ?_⟩
  · intro request hreq h2 h3 h4 h5 h6 _
    rw [AddReport_error_eq]
    simp only [firstFailingCheck, hreq]
    rw [if_neg (not_not.mpr h2), if_neg (not_not.mpr h3), if_neg (not_not.mpr h4),
      if_neg (not_not.mpr h5), if_pos h6]
  · intro request hreq h2 _
    rw [AddReport_error_eq]
    simp only [firstFailingCheck, hreq]
    rw [if_pos h2]

/-- C4: for every stored request and every block height strictly greater than its
ExpirationHeight, `AddReport` returns `ErrInvalidState` whatever the data set, validator
and reporter are, and returns in the context it was called in: the stored request and all
stored raw reports are unchanged. -/
theorem AddReport_past_expiration (ctx : Context) (requestID : RequestID)
    (dataSet : List RawDataReportWithID) (validator : ValAddress) (reporter : AccAddress)
    (request : Request) (hreq : GetRequest ctx requestID = .ok request)
    (hexp : request.ExpirationHeight < ctx.blockHeight) :
    (AddReport ctx requestID dataSet validator reporter).2 = some Error.ErrInvalidState ∧
    (AddReport ctx requestID dataSet validator reporter).1 = ctx ∧
    GetRequest (AddReport ctx requestID dataSet validator reporter).1 requestID =
      .ok request ∧
    ∀ r e v, GetRawDataReport (AddReport ctx requestID dataSet validator reporter).1 r e v =
      GetRawDataReport ctx r e v := by
  have hreq2 : ctx.requests requestID = some request := by
    unfold GetRequest at hreq
    cases h : ctx.requests requestID with
    | none => simp [h] at hreq
    | some q =>
      simp only [h, Except.ok.injEq] at hreq
      rw [hreq]
  have hfail : ¬ HeaderChecksPass ctx requestID dataSet validator reporter := by
    simp only [HeaderChecksPass, hreq2, RequestChecksPass]
    intro h
    exact absurd hexp (not_lt.mpr h.1.2.1)
  have hctx := AddReport_of_failed_header ctx requestID dataSet validator reporter hfail
  refine ⟨?_, hctx, ?_, ?_⟩
  · rw [AddReport_error_eq]
    simp only [firstFailingCheck, hreq2]
    by_cases h2 : request.ResolveStatus = ResolveStatus.Open
    · rw [if_neg (not_not.mpr h2), if_pos (not_le.mpr hexp)]
    · rw [if_pos h2]
  · rw [hctx, hreq]
  · intro r e v
    rw [hctx]

/-- C4 at the scenario one block past the expiration height. -/
theorem AddReport_past_expiration_witness :
    (AddReport expiredReportedCtx 1 scenarioDataSet [2] [12]).2 =
      some Error.ErrInvalidState ∧
    (AddReport expiredReportedCtx 1 scenarioDataSet [2] [12]).1 = expiredReportedCtx ∧
    GetRequest (AddReport expiredReportedCtx 1 scenarioDataSet [2] [12]).1 1 =
      .ok { scenarioRequest with ReceivedValidators := [[1]] } ∧
    ∀ r e v, GetRawDataReport (AddReport expiredReportedCtx 1 scenarioDataSet [2] [12]).1
        r e v = GetRawDataReport expiredReportedCtx r e v :=
  AddReport_past_expiration expiredReportedCtx 1 scenarioDataSet [2] [12]
    { scenarioRequest with ReceivedValidators := [[1]] } (by decide) (by decide)

/-- C2 (amended) at a call by validator `[1]`, who has already reported, with an empty
data set before the expiration height: the error is `ErrItemDuplication`. -/
theorem AddReport_error_is_first_failing_check_witness :
    (AddReport reportedCtx 1 [] [1] [11]).2 = some Error.ErrItemDuplication :=
  (AddReport_error_is_first_failing_check reportedCtx 1 [] [1] [11]).2.1
    { scenarioRequest with ReceivedValidators := [[1]] }
    (by decide) (by decide) (by decide) (by decide) (by decide) (by decide) (by decide)

/-- C3, against the claim as stated: with ExternalIDs 1 and 2 both known and no report
stored, the data set with ExternalIDs `[2, 1]` is rejected with `ErrBadDataValue`, and in
the context in which `AddReport` returns, `GetRawDataReport` for ExternalID 2 finds the
first item's report instead of `ErrItemNotFound`. -/
theorem AddReport_decreasing_leaves_partial_write :
    CheckRawDataRequestExists scenarioCtx 1 1 = true ∧
    CheckRawDataRequestExists scenarioCtx 1 2 = true ∧
    GetRawDataReport scenarioCtx 1 2 [1] = .error Error.ErrItemNotFound ∧
    (AddReport scenarioCtx 1 decreasingDataSet [1] [11]).2 = some Error.ErrBadDataValue ∧
    GetRawDataReport (AddReport scenarioCtx 1 decreasingDataSet [1] [11]).1 1 2 [1] =
      .ok { ExitCode := 0, Data := [8, 9] } := by
  decide

/-- C3, amended: a call of `AddReport` that returns an error has written nothing but raw
data reports; when one of the checks 1 to 7 fails it has written nothing at all; when
checks 1 to 7 pass the error is `ErrBadDataValue` and the call has written exactly the
reports of the `k` items that precede the first item failing a per-item check: the first
`k` items pass the per-item checks, the first `k + 1` do not, each of the first `k` is
stored under (requestID, its ExternalID, validator) and every other key holds what it held
before.  In particular a data set with ExternalIDs `[2, 1]` whose call passes checks 1 to
7, with ExternalID 2 known and the first item's Data within the maximum size, is rejected
with `ErrBadDataValue`, and in the context in which `AddReport` returns the first item's
report is stored under ExternalID 2. -/
theorem AddReport_error_writes_only_checked_items (ctx : Context) (requestID : RequestID)
    (dataSet : List RawDataReportWithID) (validator : ValAddress) (reporter : AccAddress) :
    (∀ err, (AddReport ctx requestID dataSet validator reporter).2 = some err →
      (AddReport ctx requestID dataSet validator reporter).1 =
        { ctx with rawDataReports :=
            (AddReport ctx requestID dataSet validator reporter).1.rawDataReports } ∧
      (¬ HeaderChecksPass ctx requestID dataSet validator reporter →
        (AddReport ctx requestID dataSet validator reporter).1 = ctx) ∧
      (HeaderChecksPass ctx requestID dataSet validator reporter →
        err = Error.ErrBadDataValue ∧
        ∃ k, k < dataSet.length ∧
          ItemChecksPass ctx requestID (dataSet.take k) ∧
          ¬ ItemChecksPass ctx requestID (dataSet.take (k + 1)) ∧
          (∀ item ∈ dataSet.take k,
            GetRawDataReport (AddReport ctx requestID dataSet validator reporter).1 requestID
                item.ExternalDataID validator =
              .ok { ExitCode := item.ExitCode, Data := item.Data }) ∧
          (∀ r e w, ¬ (r = requestID ∧ w = validator ∧ e ∈ externalIDs (dataSet.take k)) →
            GetRawDataReport (AddReport ctx requestID dataSet validator reporter).1 r e w =
              GetRawDataReport ctx r e w))) ∧
    (∀ first second : RawDataReportWithID, dataSet = [first, second] →
      first.ExternalDataID = 2 → second.ExternalDataID = 1 →
      HeaderChecksPass ctx requestID dataSet validator reporter →
      CheckRawDataRequestExists ctx requestID 2 = true →
      (first.Data.length : Int) ≤ MaxRawDataReportSize ctx →
      (AddReport ctx requestID dataSet validator reporter).2 = some Error.ErrBadDataValue ∧
      GetRawDataReport (AddReport ctx requestID dataSet validator reporter).1 requestID 2
          validator =
        .ok { ExitCode := first.ExitCode, Data := first.Data }) := by
  constructor
  · intro err herr
    rcases AddReport_error_cases ctx requestID dataSet validator reporter err herr with
      ⟨hhead, hctx⟩ | ⟨hhead, hkind, hctx, loopErr, hloop⟩
    · exact ⟨by rw [hctx], fun _ => hctx, fun h => absurd h hhead⟩
    · obtain ⟨k, hk, hrun, hfail⟩ :=
        reportLoop_error_first_failing requestID validator dataSet ctx 0 0 loopErr hloop
      have hnone : (reportLoop requestID validator ctx 0 0 (dataSet.take k)).2 = none := by
        rw [hrun]
      have hfst : (reportLoop requestID validator ctx 0 0 (dataSet.take k)).1 =
          (reportLoop requestID validator ctx 0 0 dataSet).1 := by
        rw [hrun]
      have hitems := (reportLoop_none_iff requestID validator ctx (dataSet.take k)).mp hnone
      have hnext : ¬ ItemChecksPass ctx requestID (dataSet.take (k + 1)) := fun hpass =>
        hfail ((reportLoop_none_iff requestID validator ctx (dataSet.take (k + 1))).mpr hpass)
      have hpw : (externalIDs (dataSet.take k)).Pairwise (fun a b => a < b) :=
        List.chain'_iff_pairwise.mp hitems.1
      refine ⟨?_, fun h => absurd hhead h, fun _ => ⟨hkind, k, hk, hitems, hnext, ?_, ?_⟩⟩
      · rw [hctx]
        exact reportLoop_frame requestID validator dataSet ctx 0 0
      · intro item hitem
        have hw := reportLoop_written requestID validator (dataSet.take k) ctx 0 0 hnone hpw
          item hitem
        rw [hfst] at hw
        simp only [GetRawDataReport, hctx, hw]
      · intro r e w hkey
        have ho := reportLoop_other_keys requestID validator (dataSet.take k) ctx 0 0 r e w
          hkey
        rw [hfst] at ho
        simp only [GetRawDataReport, hctx, ho]
  · intro first second hset hfirst hsecond hhead hknown hsize
    subst hset
    obtain ⟨request, hreq, hchecks, hlen⟩ :=
      (HeaderChecksPass_iff ctx requestID [first, second] validator reporter).mp hhead
    have hitems : ¬ ItemChecksPass ctx requestID [first, second] := by
      intro hpass
      have hchain := hpass.1
      simp [externalIDs, hfirst, hsecond] at hchain
    have hloop : (reportLoop requestID validator ctx 0 0 [first, second]).1 =
        SetRawDataReport ctx requestID 2 validator
          { ExitCode := first.ExitCode, Data := first.Data } := by
      have c2 : ¬ ((!CheckRawDataRequestExists ctx requestID first.ExternalDataID) = true) := by
        rw [hfirst, hknown]
        simp
      have c4 : (0 + 1 ≠ 0 ∧ first.ExternalDataID ≥ second.ExternalDataID) := by
        rw [hfirst, hsecond]
        exact ⟨by simp, by decide⟩
      simp only [reportLoop]
      rw [if_neg (by simp), if_neg c2, if_neg (not_lt.mpr hsize), if_pos c4, hfirst]
    rw [AddReport_of_request_checks ctx requestID [first, second] validator reporter request
      hreq hchecks hlen, if_neg hitems, hloop]
    refine ⟨rfl, ?_⟩
    simp [GetRawDataReport, SetRawDataReport]

/-- C3 (amended) at the data set with ExternalIDs `[2, 1]` in the scenario: the call is
rejected with `ErrBadDataValue` and the report of the first item is stored under
ExternalID 2 in the context in which it returns. -/
theorem AddReport_error_writes_only_checked_items_witness :
    ((AddReport scenarioCtx 1 decreasingDataSet [1] [11]).2 = some Error.ErrBadDataValue ∧
      GetRawDataReport (AddReport scenarioCtx 1 decreasingDataSet [1] [11]).1 1 2 [1] =
        .ok { ExitCode := 0, Data := [8, 9] }) ∧
    (∃ k, k < decreasingDataSet.length ∧
      ItemChecksPass scenarioCtx 1 (decreasingDataSet.take k) ∧
      ¬ ItemChecksPass scenarioCtx 1 (decreasingDataSet.take (k + 1)) ∧
      (∀ item ∈ decreasingDataSet.take k,
        GetRawDataReport (AddReport scenarioCtx 1 decreasingDataSet [1] [11]).1 1
            item.ExternalDataID [1] =
          .ok { ExitCode := item.ExitCode, Data := item.Data }) ∧
      (∀ r e w, ¬ (r = 1 ∧ w = [1] ∧ e ∈ externalIDs (decreasingDataSet.take k)) →
        GetRawDataReport (AddReport scenarioCtx 1 decreasingDataSet [1] [11]).1 r e w =
          GetRawDataReport scenarioCtx r e w)) :=
  ⟨(AddReport_error_writes_only_checked_items scenarioCtx 1 decreasingDataSet [1] [11]).2
      { ExternalDataID := 2, ExitCode := 0, Data := [8, 9] }
      { ExternalDataID := 1, ExitCode := 0, Data := [7] }
      rfl rfl rfl (by decide) (by decide) (by decide),
   (((AddReport_error_writes_only_checked_items scenarioCtx 1 decreasingDataSet [1]
      [11]).1 Error.ErrBadDataValue (by decide)).2.2 (by decide)).2⟩

/-- C5: `AddReport` preserves the request invariant.  For every stored request whose
ReceivedValidators is a duplicate-free list of members of RequestedValidators before the
call, a request is stored under the same ID after the call and the same holds of it,
whether `AddReport` succeeds or fails. -/
theorem AddReport_preserves_request_invariant (ctx : Context) (requestID : RequestID)
    (dataSet : List RawDataReportWithID) (validator : ValAddress) (reporter : AccAddress)
    (id : RequestID) (stored : Request) (hstored : GetRequest ctx id = .ok stored)
    (hinv : RequestInvariant stored) :
    ∃ after, GetRequest (AddReport ctx requestID dataSet validator reporter).1 id =
        .ok after ∧ RequestInvariant after := by
  rw [GetRequest_eq_ok_iff] at hstored
  cases hres : (AddReport ctx requestID dataSet validator reporter).2 with
  | some err =>
    refine ⟨stored, ?_, hinv⟩
    rw [GetRequest_eq_ok_iff,
      (AddReport_error_fields ctx requestID dataSet validator reporter err hres).1]
    exact hstored
  | none =>
    obtain ⟨request, hreq, hchecks, _, _⟩ :=
      checks_of_success ctx requestID dataSet validator reporter hres
    have hfields := AddReport_success_fields ctx requestID dataSet validator reporter request
      hreq (ReportChecksPass_of_success ctx requestID dataSet validator reporter hres)
    by_cases hid : id = requestID
    · subst hid
      have heq : request = stored := Option.some.inj (hreq.symm.trans hstored)
      subst heq
      refine ⟨{ request with
        ReceivedValidators := request.ReceivedValidators ++ [validator] }, ?_, ?_, ?_⟩
      · rw [GetRequest_eq_ok_iff, hfields.1]
        simp
      · exact List.Nodup.append hinv.1 (List.nodup_singleton validator)
          (by simpa using hchecks.2.2.2.2)
      · intro v hv
        rcases List.mem_append.mp hv with h | h
        · exact hinv.2 v h
        · rw [List.mem_singleton.mp h]
          exact hchecks.2.2.2.1
    · refine ⟨stored, ?_, hinv⟩
      rw [GetRequest_eq_ok_iff, hfields.1]
      simp only [if_neg hid]
      exact hstored

/-- C5 at the report of validator `[2]` after validator `[1]` has reported. -/
theorem AddReport_preserves_request_invariant_witness :
    ∃ after, GetRequest (AddReport reportedCtx 1 scenarioDataSet [2] [12]).1 1 =
        .ok after ∧ RequestInvariant after :=
  AddReport_preserves_request_invariant reportedCtx 1 scenarioDataSet [2] [12] 1
    { scenarioRequest with ReceivedValidators := [[1]] } (by decide) (by decide)

/-- C6: after every successful `AddReport` the stored request is the request before the
call with `validator` appended at the end of ReceivedValidators: ResolveStatus (Open),
RequestedValidators, ExpirationHeight and every other field are unchanged, the earlier
entries of ReceivedValidators keep their places, and every other request is stored as
before. -/
theorem AddReport_success_appends_validator (ctx : Context) (requestID : RequestID)
    (dataSet : List RawDataReportWithID) (validator : ValAddress) (reporter : AccAddress)
    (request : Request) (hreq : GetRequest ctx requestID = .ok request)
    (hok : (AddReport ctx requestID dataSet validator reporter).2 = none) :
    GetRequest (AddReport ctx requestID dataSet validator reporter).1 requestID =
      .ok { request with ReceivedValidators := request.ReceivedValidators ++ [validator] } ∧
    request.ResolveStatus = ResolveStatus.Open ∧
    ∀ other, other ≠ requestID →
      GetRequest (AddReport ctx requestID dataSet validator reporter).1 other =
        GetRequest ctx other := by
  rw [GetRequest_eq_ok_iff] at hreq
  obtain ⟨request2, hreq2, hchecks, _, _⟩ :=
    checks_of_success ctx requestID dataSet validator reporter hok
  have heq : request2 = request := Option.some.inj (hreq2.symm.trans hreq)
  subst heq
  have hfields := AddReport_success_fields ctx requestID dataSet validator reporter request2
    hreq (ReportChecksPass_of_success ctx requestID dataSet validator reporter hok)
  refine ⟨?_, hchecks.1, ?_⟩
  · rw [GetRequest_eq_ok_iff, hfields.1]
    simp
  · intro other hother
    simp only [GetRequest, hfields.1, if_neg hother]

/-- C6 at the first report of the scenario. -/
theorem AddReport_success_appends_validator_witness :
    GetRequest (AddReport scenarioCtx 1 scenarioDataSet [1] [11]).1 1 =
      .ok { scenarioRequest with ReceivedValidators := [] ++ [[1]] } ∧
    scenarioRequest.ResolveStatus = ResolveStatus.Open ∧
    ∀ other, other ≠ 1 →
      GetRequest (AddReport scenarioCtx 1 scenarioDataSet [1] [11]).1 other =
        GetRequest scenarioCtx other :=
  AddReport_success_appends_validator scenarioCtx 1 scenarioDataSet [1] [11] scenarioRequest
    (by decide) (by decide)

/-- C7: round trip of a report.  After every successful `AddReport` and for every item of
the data set, `GetRawDataReport(requestID, item.ExternalDataID, validator)` returns no
error and the report with the item's ExitCode and Data. -/
theorem AddReport_then_GetRawDataReport (ctx : Context) (requestID : RequestID)
    (dataSet : List RawDataReportWithID) (validator : ValAddress) (reporter : AccAddress)
    (hok : (AddReport ctx requestID dataSet validator reporter).2 = none) :
    ∀ item ∈ dataSet,
      GetRawDataReport (AddReport ctx requestID dataSet validator reporter).1 requestID
          item.ExternalDataID validator =
        .ok { ExitCode := item.ExitCode, Data := item.Data } := by
  intro item hitem
  simp only [GetRawDataReport,
    AddReport_success_written ctx requestID dataSet validator reporter hok item hitem]

/-- C7 at the first report of the scenario: both items are read back. -/
theorem AddReport_then_GetRawDataReport_witness :
    GetRawDataReport (AddReport scenarioCtx 1 scenarioDataSet [1] [11]).1 1 1 [1] =
        .ok { ExitCode := 0, Data := [7] } ∧
    GetRawDataReport (AddReport scenarioCtx 1 scenarioDataSet [1] [11]).1 1 2 [1] =
        .ok { ExitCode := 0, Data := [8, 9] } :=
  ⟨AddReport_then_GetRawDataReport scenarioCtx 1 scenarioDataSet [1] [11] (by decide)
      { ExternalDataID := 1, ExitCode := 0, Data := [7] } (by decide),
   AddReport_then_GetRawDataReport scenarioCtx 1 scenarioDataSet [1] [11] (by decide)
      { ExternalDataID := 2, ExitCode := 0, Data := [8, 9] } (by decide)⟩

/-- C8: a successful submission is complete.  Let `expected` be the set of ExternalIDs
for which `CheckRawDataRequestExists(requestID, id)` holds and assume
`GetRawDataRequestCount(requestID)` is its size.  Then for every successful `AddReport`
the ExternalIDs of the data set are pairwise distinct and are exactly the expected ones,
and after the call a report of this validator is stored for every expected ExternalID,
namely the report of the item with that ExternalID. -/
theorem AddReport_success_is_complete (ctx : Context) (requestID : RequestID)
    (dataSet : List RawDataReportWithID) (validator : ValAddress) (reporter : AccAddress)
    (expected : Finset ExternalID)
    (hexpected : ∀ e, e ∈ expected ↔ CheckRawDataRequestExists ctx requestID e = true)
    (hcount : GetRawDataRequestCount ctx requestID = (expected.card : Int))
    (hok : (AddReport ctx requestID dataSet validator reporter).2 = none) :
    (externalIDs dataSet).Nodup ∧
    (externalIDs dataSet).toFinset = expected ∧
    ∀ e ∈ expected, ∃ item ∈ dataSet, item.ExternalDataID = e ∧
      GetRawDataReport (AddReport ctx requestID dataSet validator reporter).1 requestID e
          validator =
        .ok { ExitCode := item.ExitCode, Data := item.Data } := by
  obtain ⟨request, _, _, hlen, hitems⟩ :=
    checks_of_success ctx requestID dataSet validator reporter hok
  have hpw : (externalIDs dataSet).Pairwise (fun a b => a < b) :=
    List.chain'_iff_pairwise.mp hitems.1
  have hnodup : (externalIDs dataSet).Nodup :=
    hpw.imp (fun h => ne_of_lt h)
  have hsub : (externalIDs dataSet).toFinset ⊆ expected := by
    intro e he
    rw [List.mem_toFinset] at he
    obtain ⟨item, hitem, rfl⟩ := List.mem_map.mp he
    exact (hexpected _).mpr (hitems.2.1 item hitem)
  have hcard : expected.card ≤ (externalIDs dataSet).toFinset.card := by
    rw [List.toFinset_card_of_nodup hnodup]
    have h1 : (externalIDs dataSet).length = dataSet.length := by simp [externalIDs]
    rw [h1]
    have h2 : (dataSet.length : Int) = (expected.card : Int) := hlen.trans hcount
    exact le_of_eq (Int.ofNat_inj.mp h2).symm
  have hset : (externalIDs dataSet).toFinset = expected :=
    Finset.eq_of_subset_of_card_le hsub hcard
  refine ⟨hnodup, hset, ?_⟩
  intro e he
  rw [← hset, List.mem_toFinset] at he
  obtain ⟨item, hitem, rfl⟩ := List.mem_map.mp he
  refine ⟨item, hitem, rfl, ?_⟩
  simp only [GetRawDataReport,
    AddReport_success_written ctx requestID dataSet validator reporter hok item hitem]

/-- C8 at the first report of the scenario, whose request expects ExternalIDs 1 and 2. -/
theorem AddReport_success_is_complete_witness :
    (externalIDs scenarioDataSet).Nodup ∧
    (externalIDs scenarioDataSet).toFinset = ({1, 2} : Finset ExternalID) ∧
    ∀ e ∈ ({1, 2} : Finset ExternalID), ∃ item ∈ scenarioDataSet, item.ExternalDataID = e ∧
      GetRawDataReport (AddReport scenarioCtx 1 scenarioDataSet [1] [11]).1 1 e [1] =
        .ok { ExitCode := item.ExitCode, Data := item.Data } :=
  AddReport_success_is_complete scenarioCtx 1 scenarioDataSet [1] [11] {1, 2}
    (by
      intro e
      simp only [CheckRawDataRequestExists, scenarioCtx, Finset.mem_insert,
        Finset.mem_singleton, true_and]
      by_cases h : e = 1 ∨ e = 2
      · simp [h]
      · simp [h])
    (by decide) (by decide)

/-- C9: a RawDataReport is immutable once written.  Once an `AddReport` call of a
validator on a request has succeeded, no later sequence of `AddReport` calls, on any
request, by any validator and reporter, at any height, successful or failing, changes
what `GetRawDataReport(requestID, externalID, validator)` returns for any externalID. -/
theorem AddReport_reports_immutable (ctx : Context) (requestID : RequestID)
    (dataSet : List RawDataReportWithID) (validator : ValAddress) (reporter : AccAddress)
    (hok : (AddReport ctx requestID dataSet validator reporter).2 = none)
    (later : List ReportCall) (externalID : ExternalID) :
    GetRawDataReport
        (applyCalls (AddReport ctx requestID dataSet validator reporter).1 later)
        requestID externalID validator =
      GetRawDataReport (AddReport ctx requestID dataSet validator reporter).1
        requestID externalID validator := by
  obtain ⟨request, hreq, _, _, _⟩ :=
    checks_of_success ctx requestID dataSet validator reporter hok
  have hfields := AddReport_success_fields ctx requestID dataSet validator reporter request
    hreq (ReportChecksPass_of_success ctx requestID dataSet validator reporter hok)
  have hrep : HasReported (AddReport ctx requestID dataSet validator reporter).1 requestID
      validator := by
    refine ⟨{ request with
      ReceivedValidators := request.ReceivedValidators ++ [validator] }, ?_, ?_⟩
    · rw [hfields.1]
      simp
    · simp
  simp only [GetRawDataReport,
    (applyCalls_keeps_reported requestID validator later _ hrep).2 externalID]

/-- C9 at the scenario: after validator `[1]` has reported, a second report of `[1]` with
other data, a report of `[2]` and a misordered report of `[3]` leave the report of `[1]`
for ExternalID 1 as it is. -/
theorem AddReport_reports_immutable_witness :
    GetRawDataReport
        (applyCalls (AddReport scenarioCtx 1 scenarioDataSet [1] [11]).1
          [{ height := 51, requestID := 1, dataSet := decreasingDataSet, validator := [1],
             reporter := [11] },
           { height := 52, requestID := 1, dataSet := scenarioDataSet, validator := [2],
             reporter := [12] },
           { height := 53, requestID := 1, dataSet := decreasingDataSet, validator := [3],
             reporter := [13] }])
        1 1 [1] =
      GetRawDataReport (AddReport scenarioCtx 1 scenarioDataSet [1] [11]).1 1 1 [1] :=
  AddReport_reports_immutable scenarioCtx 1 scenarioDataSet [1] [11] (by decide) _ 1

/-- C10: the quorum transition fires exactly once per request.  Start from a stored
request that is below its SufficientValidatorCount and is not in the pending resolution
queue, and run any sequence of `AddReport` calls.  Afterwards the request ID is in the
queue once if len(ReceivedValidators) has reached SufficientValidatorCount and not at all
otherwise; and every further report on the request that passes the checks is accepted
without error and appends the request ID to the queue exactly when it brings
len(ReceivedValidators) to SufficientValidatorCount, leaving the queue as it is
otherwise. -/
theorem AddReport_quorum_fires_once (ctx : Context) (requestID : RequestID)
    (request : Request) (hreq : GetRequest ctx requestID = .ok request)
    (hbelow : (request.ReceivedValidators.length : Int) < request.SufficientValidatorCount)
    (hnot : requestID ∉ ctx.pendingResolveList) (calls : List ReportCall) :
    ∃ after, GetRequest (applyCalls ctx calls) requestID = .ok after ∧
      after.SufficientValidatorCount = request.SufficientValidatorCount ∧
      (applyCalls ctx calls).pendingResolveList.count requestID =
        (if request.SufficientValidatorCount ≤ (after.ReceivedValidators.length : Int)
          then 1 else 0) ∧
      ∀ (height : Int) (dataSet : List RawDataReportWithID) (validator : ValAddress)
        (reporter : AccAddress),
        ReportChecksPass { applyCalls ctx calls with blockHeight := height } requestID
          dataSet validator reporter →
        (AddReport { applyCalls ctx calls with blockHeight := height } requestID dataSet
          validator reporter).2 = none ∧
        (AddReport { applyCalls ctx calls with blockHeight := height } requestID dataSet
          validator reporter).1.pendingResolveList =
          (if (after.ReceivedValidators.length : Int) + 1 = request.SufficientValidatorCount
            then (applyCalls ctx calls).pendingResolveList ++ [requestID]
            else (applyCalls ctx calls).pendingResolveList) := by
  rw [GetRequest_eq_ok_iff] at hreq
  have hstart : QuorumInvariant ctx requestID request.SufficientValidatorCount :=
    ⟨request, hreq, rfl, by
      rw [if_neg (not_le.mpr hbelow)]
      exact List.count_eq_zero.mpr hnot⟩
  obtain ⟨after, hafter, hsuff, hcount⟩ :=
    QuorumInvariant_applyCalls requestID request.SufficientValidatorCount calls ctx hstart
  refine ⟨after, (GetRequest_eq_ok_iff _ _ _).mpr hafter, hsuff, hcount, ?_⟩
  intro height dataSet validator reporter hpass
  have hok := (firstFailingCheck_eq_none_iff _ requestID dataSet validator reporter).mpr hpass
  rw [← AddReport_error_eq] at hok
  refine ⟨hok, ?_⟩
  have hafter2 : ({ applyCalls ctx calls with blockHeight := height } : Context).requests
      requestID = some after := hafter
  obtain ⟨_, _, hpend, _⟩ :=
    AddReport_success_fields _ requestID dataSet validator reporter after hafter2 hpass
  rw [hpend, hsuff]
  simp only [List.length_append, List.length_singleton, Nat.cast_add, Nat.cast_one]
  by_cases hq : request.SufficientValidatorCount ≤ (after.ReceivedValidators.length : Int)
  · rw [if_pos hq] at hcount
    have hin : requestID ∈ (applyCalls ctx calls).pendingResolveList :=
      List.count_pos_iff.mp (by rw [hcount]; exact Nat.one_pos)
    have hne : ¬ ((after.ReceivedValidators.length : Int) + 1 =
        request.SufficientValidatorCount) := by
      intro h; linarith
    rw [if_neg (fun h => h.2 hin), if_neg hne]
  · rw [if_neg hq] at hcount
    have hnotin : requestID ∉ (applyCalls ctx calls).pendingResolveList :=
      List.count_eq_zero.mp hcount
    by_cases hq2 : (after.ReceivedValidators.length : Int) + 1 =
        request.SufficientValidatorCount
    · rw [if_pos ⟨le_of_eq hq2.symm, hnotin⟩, if_pos hq2]
    · have hlt : ¬ request.SufficientValidatorCount ≤
          (after.ReceivedValidators.length : Int) + 1 := by
        intro h
        rcases lt_or_eq_of_le h with h1 | h1
        · exact hq (Int.lt_add_one_iff.mp h1)
        · exact hq2 h1.symm
      rw [if_neg (fun h => hlt h.1), if_neg hq2]

/-- C10 at the spec's scenario (four requested validators, quorum three): after the reports
of validators `[1]`, `[2]` and `[3]` the request ID is in the queue once, and a further
valid report is accepted and leaves the queue as it is. -/
theorem AddReport_quorum_fires_once_witness :
    ∃ after,
      GetRequest (applyCalls scenarioCtx
        [{ height := 50, requestID := 1, dataSet := scenarioDataSet, validator := [1],
           reporter := [11] },
         { height := 51, requestID := 1, dataSet := scenarioDataSet, validator := [2],
           reporter := [12] },
         { height := 52, requestID := 1, dataSet := scenarioDataSet, validator := [3],
           reporter := [13] }]) 1 = .ok after ∧
      after.SufficientValidatorCount = scenarioRequest.SufficientValidatorCount ∧
      (applyCalls scenarioCtx
        [{ height := 50, requestID := 1, dataSet := scenarioDataSet, validator := [1],
           reporter := [11] },
         { height := 51, requestID := 1, dataSet := scenarioDataSet, validator := [2],
           reporter := [12] },
         { height := 52, requestID := 1, dataSet := scenarioDataSet, validator := [3],
           reporter := [13] }]).pendingResolveList.count 1 =
        (if scenarioRequest.SufficientValidatorCount ≤
            (after.ReceivedValidators.length : Int) then 1 else 0) := by
  obtain ⟨after, h1, h2, h3, _⟩ := AddReport_quorum_fires_once scenarioCtx 1 scenarioRequest
    (by decide) (by decide) (by decide)
    [{ height := 50, requestID := 1, dataSet := scenarioDataSet, validator := [1],
       reporter := [11] },
     { height := 51, requestID := 1, dataSet := scenarioDataSet, validator := [2],
       reporter := [12] },
     { height := 52, requestID := 1, dataSet := scenarioDataSet, validator := [3],
       reporter := [13] }]
  exact ⟨after, h1, h2, h3⟩

/-! ## The claims about the messages -/

theorem Empty_eq_false_iff (address : List Nat) : Empty address = false ↔ address ≠ [] := by
  cases address <;> simp [Empty]

/-- C18: `MsgRequestData.ValidateBasic` returns no error if and only if Sender is
non-empty, OracleScriptID > 0, SufficientValidatorCount > 0, RequestedValidatorCount >=
SufficientValidatorCount, Expiration > 0, PrepareGas > 0 and ExecuteGas > 0; hence every
accepted message has RequestedValidatorCount >= SufficientValidatorCount >= 1. -/
theorem MsgRequestData_ValidateBasic_accepts_iff (msg : MsgRequestData) :
    (msg.ValidateBasic = none ↔
      msg.Sender ≠ [] ∧ 0 < msg.OracleScriptID ∧ 0 < msg.SufficientValidatorCount ∧
      msg.SufficientValidatorCount ≤ msg.RequestedValidatorCount ∧ 0 < msg.Expiration ∧
      0 < msg.PrepareGas ∧ 0 < msg.ExecuteGas) ∧
    (msg.ValidateBasic = none →
      msg.SufficientValidatorCount ≤ msg.RequestedValidatorCount ∧
      1 ≤ msg.SufficientValidatorCount) := by
  have hiff : msg.ValidateBasic = none ↔
      msg.Sender ≠ [] ∧ 0 < msg.OracleScriptID ∧ 0 < msg.SufficientValidatorCount ∧
      msg.SufficientValidatorCount ≤ msg.RequestedValidatorCount ∧ 0 < msg.Expiration ∧
      0 < msg.PrepareGas ∧ 0 < msg.ExecuteGas := by
    unfold MsgRequestData.ValidateBasic
    rw [← Empty_eq_false_iff]
    split_ifs <;> simp_all
    omega
  refine ⟨hiff, fun h => ?_⟩
  obtain ⟨_, _, h3, h4, _⟩ := hiff.mp h
  exact ⟨h4, h3⟩

/-- C18 at a message with four requested validators and quorum three. -/
theorem MsgRequestData_ValidateBasic_accepts_iff_witness :
    (3 : Int) ≤ 4 ∧ (1 : Int) ≤ 3 :=
  (MsgRequestData_ValidateBasic_accepts_iff
    { OracleScriptID := 1, Calldata := [], RequestedValidatorCount := 4,
      SufficientValidatorCount := 3, Expiration := 100, PrepareGas := 10, ExecuteGas := 10,
      Sender := [1], SourcePort := "", SourceChannel := "" }).2 (by decide)

/-- C19: `MsgReportData.ValidateBasic` returns no error if and only if RequestID > 0,
DataSet is non-empty, Validator is non-empty and Reporter is non-empty; the order and the
content of the DataSet items play no part: replacing a non-empty DataSet by any other
non-empty one does not change the result. -/
theorem MsgReportData_ValidateBasic_accepts_iff (msg : MsgReportData) :
    (msg.ValidateBasic = none ↔
      0 < msg.RequestID ∧ msg.DataSet ≠ [] ∧ msg.Validator ≠ [] ∧ msg.Reporter ≠ []) ∧
    (∀ dataSet : List RawDataReportWithID, dataSet ≠ [] → msg.DataSet ≠ [] →
      MsgReportData.ValidateBasic { msg with DataSet := dataSet } = msg.ValidateBasic) := by
  have hiff : ∀ m : MsgReportData, m.ValidateBasic = none ↔
      0 < m.RequestID ∧ m.DataSet ≠ [] ∧ m.Validator ≠ [] ∧ m.Reporter ≠ [] := by
    intro m
    unfold MsgReportData.ValidateBasic
    rw [← Empty_eq_false_iff, ← Empty_eq_false_iff]
    split_ifs <;> simp_all
  refine ⟨hiff msg, ?_⟩
  intro dataSet hne hmsg
  unfold MsgReportData.ValidateBasic
  simp [hne, hmsg]

/-- C19 at a message whose data set is in decreasing order. -/
theorem MsgReportData_ValidateBasic_accepts_iff_witness :
    MsgReportData.ValidateBasic
        { RequestID := 1, DataSet := decreasingDataSet, Validator := [1], Reporter := [11] } =
      MsgReportData.ValidateBasic
        { RequestID := 1, DataSet := scenarioDataSet, Validator := [1], Reporter := [11] } :=
  (MsgReportData_ValidateBasic_accepts_iff
    { RequestID := 1, DataSet := scenarioDataSet, Validator := [1], Reporter := [11] }).2
    decreasingDataSet (by decide) (by decide)

/-- C20: `MsgCreateDataSource.ValidateBasic` returns no error if and only if Owner and
Sender are non-empty, Name is non-empty, Description is non-empty, Fee is valid and
Executable is non-empty; and `MsgEditDataSource.ValidateBasic` accepts a message if and
only if DataSourceID > 0 and the `MsgCreateDataSource` with the same Owner, Name,
Description, Fee, Executable and Sender is accepted. -/
theorem MsgDataSource_ValidateBasic_accepts_iff (feeIsValid : Coins → Bool)
    (create : MsgCreateDataSource) (edit : MsgEditDataSource) :
    (create.ValidateBasic feeIsValid = none ↔
      create.Owner ≠ [] ∧ create.Sender ≠ [] ∧ create.Name ≠ "" ∧
      create.Description ≠ "" ∧ feeIsValid create.Fee = true ∧ create.Executable ≠ []) ∧
    (edit.ValidateBasic feeIsValid = none ↔
      0 < edit.DataSourceID ∧ edit.asCreate.ValidateBasic feeIsValid = none) := by
  constructor
  · unfold MsgCreateDataSource.ValidateBasic
    rw [← Empty_eq_false_iff, ← Empty_eq_false_iff]
    split_ifs <;> simp_all
  · unfold MsgEditDataSource.ValidateBasic MsgCreateDataSource.ValidateBasic
      MsgEditDataSource.asCreate
    split_ifs <;> simp_all

/-! ## The store of the registry -/

theorem storeGet_storeSet_same {α : Type} (id : Int) (value : α) :
    ∀ entries : List (Int × α), storeGet id (storeSet id value entries) = some value
  | [] => by simp [storeSet, storeGet]
  | (k, w) :: rest => by
    simp only [storeSet]
    split_ifs with h1 h2
    · simp [storeGet]
    · simp [storeGet]
    · simp only [storeGet, if_neg h2]
      exact storeGet_storeSet_same id value rest

theorem storeGet_storeSet_other {α : Type} (id j : Int) (value : α) (hne : j ≠ id) :
    ∀ entries : List (Int × α), storeGet j (storeSet id value entries) = storeGet j entries
  | [] => by simp [storeSet, storeGet, hne]
  | (k, w) :: rest => by
    simp only [storeSet]
    split_ifs with h1 h2
    · simp [storeGet, hne]
    · subst h2
      simp [storeGet, hne]
    · simp only [storeGet]
      rw [storeGet_storeSet_other id j value hne rest]

theorem storeGet_isSome_iff {α : Type} (id : Int) :
    ∀ entries : List (Int × α), (storeGet id entries).isSome = true ↔ id ∈ storeKeys entries
  | [] => by simp [storeGet, storeKeys]
  | (k, w) :: rest => by
    have ih := storeGet_isSome_iff id rest
    simp only [storeGet, storeKeys, List.map_cons, List.mem_cons] at ih ⊢
    by_cases h : id = k
    · simp [h]
    · simp only [if_neg h, h, false_or]
      exact ih

theorem mem_storeKeys_storeSet {α : Type} (id k : Int) (value : α) :
    ∀ entries : List (Int × α),
      k ∈ storeKeys (storeSet id value entries) ↔ k = id ∨ k ∈ storeKeys entries
  | [] => by simp [storeSet, storeKeys]
  | (k2, w) :: rest => by
    have ih := mem_storeKeys_storeSet id k value rest
    simp only [storeSet]
    split_ifs with h1 h2
    · simp [storeKeys]
    · subst h2
      simp [storeKeys]
    · simp only [storeKeys, List.map_cons, List.mem_cons] at ih ⊢
      rw [ih]
      tauto

theorem storeKeys_storeSet_sorted {α : Type} (id : Int) (value : α) :
    ∀ entries : List (Int × α), (storeKeys entries).Pairwise (fun a b => a < b) →
      (storeKeys (storeSet id value entries)).Pairwise (fun a b => a < b)
  | [], _ => by simp [storeSet, storeKeys]
  | (k, w) :: rest, hsorted => by
    have hs : (∀ b ∈ storeKeys rest, k < b) ∧
        (storeKeys rest).Pairwise (fun a b => a < b) := by
      simpa [storeKeys] using hsorted
    simp only [storeSet]
    split_ifs with h1 h2
    · simp only [storeKeys, List.map_cons, List.pairwise_cons, List.mem_cons]
      refine ⟨?_, ?_, hs.2⟩
      · rintro b (rfl | hb)
        · exact h1
        · exact lt_trans h1 (hs.1 b hb)
      · exact hs.1
    · subst h2
      simpa [storeKeys] using hsorted
    · have hlt : k < id := lt_of_le_of_ne (not_lt.mp h1) (fun h => h2 h.symm)
      have ih := storeKeys_storeSet_sorted id value rest hs.2
      simp only [storeKeys, List.map_cons, List.pairwise_cons]
      refine ⟨?_, ih⟩
      intro b hb
      rcases (mem_storeKeys_storeSet id b value rest).mp hb with rfl | hb2
      · exact hlt
      · exact hs.1 b hb2

theorem storeKeys_storeSet_of_mem {α : Type} (id : Int) (value : α) :
    ∀ entries : List (Int × α), (storeKeys entries).Pairwise (fun a b => a < b) →
      id ∈ storeKeys entries → storeKeys (storeSet id value entries) = storeKeys entries
  | [], _, hmem => by simp [storeKeys] at hmem
  | (k, w) :: rest, hsorted, hmem => by
    have hs : (∀ b ∈ storeKeys rest, k < b) ∧
        (storeKeys rest).Pairwise (fun a b => a < b) := by
      simpa [storeKeys] using hsorted
    have hmem2 : id = k ∨ id ∈ storeKeys rest := by
      simpa [storeKeys] using hmem
    simp only [storeSet]
    split_ifs with h1 h2
    · rcases hmem2 with h | h
      · exact absurd h1 (by rw [h]; exact lt_irrefl k)
      · exact absurd (lt_trans h1 (hs.1 id h)) (lt_irrefl id)
    · subst h2
      simp [storeKeys]
    · rcases hmem2 with h | h
      · exact absurd h h2
      · have ih := storeKeys_storeSet_of_mem id value rest hs.2 h
        simp only [storeKeys, List.map_cons] at ih ⊢
        rw [ih]

theorem storeSet_of_all_lt {α : Type} (id : Int) (value : α) :
    ∀ entries : List (Int × α), (∀ k ∈ storeKeys entries, k < id) →
      storeSet id value entries = entries ++ [(id, value)]
  | [], _ => by simp [storeSet]
  | (k, w) :: rest, hall => by
    have hk : k < id := hall k (by simp [storeKeys])
    have hrest : ∀ b ∈ storeKeys rest, b < id := by
      intro b hb
      exact hall b (by simp only [storeKeys, List.map_cons, List.mem_cons] at hb ⊢
                       exact Or.inr hb)
    simp only [storeSet, if_neg (not_lt.mpr (le_of_lt hk)), if_neg (ne_of_gt hk),
      List.cons_append]
    rw [storeSet_of_all_lt id value rest hrest]

theorem map_storeGet_storeKeys {α : Type} :
    ∀ entries : List (Int × α), (storeKeys entries).Nodup →
      (storeKeys entries).map (fun k => storeGet k entries) =
        entries.map (fun entry => some entry.2)
  | [], _ => by simp [storeKeys]
  | (k, w) :: rest, hnodup => by
    have hs : k ∉ storeKeys rest ∧ (storeKeys rest).Nodup := by
      simpa [storeKeys] using hnodup
    have ih := map_storeGet_storeKeys rest hs.2
    simp only [storeKeys, List.map_cons, storeGet, if_true, List.cons.injEq, true_and]
      at ih ⊢
    rw [← ih]
    apply List.map_congr_left
    intro b hb
    have hne : b ≠ k := by
      rintro rfl
      exact hs.1 (by simpa [storeKeys] using hb)
    simp only [if_neg hne]

/-! ## AddDataSource and EditDataSource -/

/-- An `AddDataSource` call with an oversized argument returns `ErrBadDataValue` in the
context it was called in. -/
theorem AddDataSource_of_oversized (ctx : Context) (owner : AccAddress) (name : String)
    (description : String) (fee : Coins) (executable : List Nat)
    (hsize : Oversized ctx name description executable) :
    AddDataSource ctx owner name description fee executable =
      (ctx, .error Error.ErrBadDataValue) := by
  unfold Oversized MaxDataSourceExecutableSize MaxNameLength MaxDescriptionLength at hsize
  simp only [AddDataSource, GetNextDataSourceID, MaxDataSourceExecutableSize, MaxNameLength,
    MaxDescriptionLength]
  split_ifs with h1 h2 h3
  · rfl
  · rfl
  · rfl
  · rcases hsize with h | h | h
    · exact absurd h h1
    · exact absurd h h2
    · exact absurd h h3

/-- An `AddDataSource` call within the size limits stores the record under the next ID and
returns that ID. -/
theorem AddDataSource_of_within (ctx : Context) (owner : AccAddress) (name : String)
    (description : String) (fee : Coins) (executable : List Nat)
    (hsize : ¬ Oversized ctx name description executable) :
    AddDataSource ctx owner name description fee executable =
      (SetDataSource ctx ((ctx.dataSources.length : Int) + 1)
          (NewDataSource owner name description fee executable),
        .ok ((ctx.dataSources.length : Int) + 1)) := by
  unfold Oversized MaxDataSourceExecutableSize MaxNameLength MaxDescriptionLength at hsize
  simp only [AddDataSource, GetNextDataSourceID, MaxDataSourceExecutableSize, MaxNameLength,
    MaxDescriptionLength]
  split_ifs with h1 h2 h3
  · exact absurd (Or.inl h1) hsize
  · exact absurd (Or.inr (Or.inl h2)) hsize
  · exact absurd (Or.inr (Or.inr h3)) hsize
  · rfl

/-- An `EditDataSource` call on an unknown ID returns `ErrItemNotFound` in the unchanged
context. -/
theorem EditDataSource_of_unknown (ctx : Context) (id : DataSourceID) (owner : AccAddress)
    (name : String) (description : String) (fee : Coins) (executable : List Nat)
    (hunknown : CheckDataSourceExists ctx id = false) :
    EditDataSource ctx id owner name description fee executable =
      (ctx, some Error.ErrItemNotFound) := by
  simp [EditDataSource, hunknown]

/-- An `EditDataSource` call on a known ID with an oversized argument returns
`ErrBadDataValue` in the unchanged context. -/
theorem EditDataSource_of_oversized (ctx : Context) (id : DataSourceID) (owner : AccAddress)
    (name : String) (description : String) (fee : Coins) (executable : List Nat)
    (hknown : CheckDataSourceExists ctx id = true)
    (hsize : Oversized ctx name description executable) :
    EditDataSource ctx id owner name description fee executable =
      (ctx, some Error.ErrBadDataValue) := by
  unfold Oversized at hsize
  simp only [EditDataSource, hknown, Bool.not_true, Bool.false_eq_true, if_false]
  split_ifs with h1 h2 h3
  · rfl
  · rfl
  · rfl
  · rcases hsize with h | h | h
    · exact absurd h h1
    · exact absurd h h2
    · exact absurd h h3

/-- An `EditDataSource` call on a known ID within the size limits replaces the record. -/
theorem EditDataSource_of_within (ctx : Context) (id : DataSourceID) (owner : AccAddress)
    (name : String) (description : String) (fee : Coins) (executable : List Nat)
    (hknown : CheckDataSourceExists ctx id = true)
    (hsize : ¬ Oversized ctx name description executable) :
    EditDataSource ctx id owner name description fee executable =
      (SetDataSource ctx id (NewDataSource owner name description fee executable), none) := by
  unfold Oversized at hsize
  simp only [EditDataSource, hknown, Bool.not_true, Bool.false_eq_true, if_false]
  split_ifs with h1 h2 h3
  · exact absurd (Or.inl h1) hsize
  · exact absurd (Or.inr (Or.inl h2)) hsize
  · exact absurd (Or.inr (Or.inr h3)) hsize
  · rfl

/-- What `GetDataSource` returns after `SetDataSource`: the new record under the ID that
was set, the former result under every other ID. -/
theorem GetDataSource_SetDataSource (ctx : Context) (id : DataSourceID)
    (dataSource : DataSource) (other : DataSourceID) :
    GetDataSource (SetDataSource ctx id dataSource) other =
      if other = id then .ok dataSource else GetDataSource ctx other := by
  by_cases h : other = id
  · subst h
    simp [GetDataSource, CheckDataSourceExists, SetDataSource, storeGet_storeSet_same]
  · simp only [GetDataSource, CheckDataSourceExists, SetDataSource, if_neg h,
      storeGet_storeSet_other id other dataSource h]

theorem CheckDataSourceExists_SetDataSource (ctx : Context) (id : DataSourceID)
    (dataSource : DataSource) (other : DataSourceID) :
    CheckDataSourceExists (SetDataSource ctx id dataSource) other =
      if other = id then true else CheckDataSourceExists ctx other := by
  by_cases h : other = id
  · subst h
    simp [CheckDataSourceExists, SetDataSource, storeGet_storeSet_same]
  · simp only [CheckDataSourceExists, SetDataSource, if_neg h,
      storeGet_storeSet_other id other dataSource h]

/-- C11: `AddDataSource` fails with `ErrBadDataValue` if and only if the executable, the
name or the description is longer than its maximum (a length equal to the maximum is
accepted); otherwise it returns the next ID with no error, and `GetDataSource` of that ID
returns the record whose Owner, Name, Description, Fee and Executable are exactly the
given owner, name, description, fee and executable. -/
theorem AddDataSource_fails_iff_oversized (ctx : Context) (owner : AccAddress)
    (name : String) (description : String) (fee : Coins) (executable : List Nat) :
    ((AddDataSource ctx owner name description fee executable).2 =
        .error Error.ErrBadDataValue ↔
      ((executable.length : Int) > MaxDataSourceExecutableSize ctx ∨
        (name.utf8ByteSize : Int) > MaxNameLength ctx ∨
        (description.utf8ByteSize : Int) > MaxDescriptionLength ctx)) ∧
    (¬ ((executable.length : Int) > MaxDataSourceExecutableSize ctx ∨
        (name.utf8ByteSize : Int) > MaxNameLength ctx ∨
        (description.utf8ByteSize : Int) > MaxDescriptionLength ctx) →
      (AddDataSource ctx owner name description fee executable).2 =
        .ok (GetNextDataSourceID ctx).2 ∧
      GetDataSource (AddDataSource ctx owner name description fee executable).1
          (GetNextDataSourceID ctx).2 =
        .ok { Owner := owner, Name := name, Description := description, Fee := fee,
              Executable := executable }) := by
  by_cases hsize : Oversized ctx name description executable
  · rw [AddDataSource_of_oversized ctx owner name description fee executable hsize]
    exact ⟨⟨fun _ => hsize, fun _ => rfl⟩, fun h => absurd hsize h⟩
  · rw [AddDataSource_of_within ctx owner name description fee executable hsize]
    refine ⟨⟨fun h => ?_, fun h => absurd h hsize⟩, fun _ => ⟨rfl, ?_⟩⟩
    · simp at h
    · simp only [GetNextDataSourceID]
      rw [GetDataSource_SetDataSource, if_pos rfl]
      rfl

/-- C11 at the first data source of an empty registry: it is stored under ID 1 with the
five fields of the call. -/
theorem AddDataSource_fails_iff_oversized_witness :
    (AddDataSource emptyRegistryCtx [1] "btc" "price" [] [1, 2]).2 = .ok 1 ∧
    GetDataSource (AddDataSource emptyRegistryCtx [1] "btc" "price" [] [1, 2]).1 1 =
      .ok { Owner := [1], Name := "btc", Description := "price", Fee := [],
            Executable := [1, 2] } :=
  (AddDataSource_fails_iff_oversized emptyRegistryCtx [1] "btc" "price" [] [1, 2]).2
    (by decide)

/-- An `EditDataSource` call that returns an error returns in the context it was called
in. -/
theorem registry_error_frame_edit (ctx : Context) (id : DataSourceID) (owner : AccAddress)
    (name : String) (description : String) (fee : Coins) (executable : List Nat)
    (err : Error)
    (herr : (EditDataSource ctx id owner name description fee executable).2 = some err) :
    (EditDataSource ctx id owner name description fee executable).1 = ctx := by
  by_cases hknown : CheckDataSourceExists ctx id = true
  · by_cases hsize : Oversized ctx name description executable
    · rw [EditDataSource_of_oversized ctx id owner name description fee executable hknown
        hsize]
    · rw [EditDataSource_of_within ctx id owner name description fee executable hknown
        hsize] at herr
      simp at herr
  · rw [EditDataSource_of_unknown ctx id owner name description fee executable
      (by simpa using hknown)]

/-- C13: registry operations are atomic on error.  An `AddDataSource` or `EditDataSource`
call that returns an error returns in the context it was called in, so the next ID and
what `GetDataSource` returns for every ID are as before the call; and the calls with an
oversized executable, name or description, or with an unknown ID, do return an error. -/
theorem registry_error_is_atomic (ctx : Context) (id : DataSourceID)
    (owner : AccAddress) (name : String) (description : String) (fee : Coins)
    (executable : List Nat) :
    (∀ err, (EditDataSource ctx id owner name description fee executable).2 = some err →
      (EditDataSource ctx id owner name description fee executable).1 = ctx ∧
      (GetNextDataSourceID
          (EditDataSource ctx id owner name description fee executable).1).2 =
        (GetNextDataSourceID ctx).2 ∧
      ∀ other, GetDataSource (EditDataSource ctx id owner name description fee executable).1
        other = GetDataSource ctx other) ∧
    (∀ err, (AddDataSource ctx owner name description fee executable).2 = .error err →
      (AddDataSource ctx owner name description fee executable).1 = ctx ∧
      (GetNextDataSourceID (AddDataSource ctx owner name description fee executable).1).2 =
        (GetNextDataSourceID ctx).2 ∧
      ∀ other, GetDataSource (AddDataSource ctx owner name description fee executable).1
        other = GetDataSource ctx other) ∧
    (CheckDataSourceExists ctx id = false ∨ Oversized ctx name description executable →
      (EditDataSource ctx id owner name description fee executable).2 ≠ none) ∧
    (Oversized ctx name description executable →
      (AddDataSource ctx owner name description fee executable).2 =
        .error Error.ErrBadDataValue) := by
  refine ⟨fun err herr => ?_, fun err herr => ?_, fun hcase => ?_, fun hsize => ?_⟩
  · rw [registry_error_frame_edit ctx id owner name description fee executable err herr]
    exact ⟨rfl, rfl, fun _ => rfl⟩
  · by_cases hsize : Oversized ctx name description executable
    · rw [AddDataSource_of_oversized ctx owner name description fee executable hsize]
      exact ⟨rfl, rfl, fun _ => rfl⟩
    · rw [AddDataSource_of_within ctx owner name description fee executable hsize] at herr
      simp at herr
  · by_cases hknown : CheckDataSourceExists ctx id = true
    · rcases hcase with h | hsize
      · rw [hknown] at h
        simp at h
      · rw [EditDataSource_of_oversized ctx id owner name description fee executable hknown
          hsize]
        simp
    · rw [EditDataSource_of_unknown ctx id owner name description fee executable
        (by simpa using hknown)]
      simp
  · rw [AddDataSource_of_oversized ctx owner name description fee executable hsize]

/-- C13 at an `EditDataSource` call on an unknown ID and an `AddDataSource` call with an
oversized executable, each on the registry that holds one data source: both return in the
context they were called in, and the next ID is still 2. -/
theorem registry_error_is_atomic_witness :
    (EditDataSource oneSourceCtx 7 [1] "eth" "price" [] [1, 2, 3, 4, 5]).1 = oneSourceCtx ∧
    (AddDataSource oneSourceCtx [1] "eth" "price" [] [1, 2, 3, 4, 5]).1 = oneSourceCtx ∧
    (GetNextDataSourceID
        (AddDataSource oneSourceCtx [1] "eth" "price" [] [1, 2, 3, 4, 5]).1).2 = 2 :=
  ⟨((registry_error_is_atomic oneSourceCtx 7 [1] "eth" "price" []
      [1, 2, 3, 4, 5]).1 Error.ErrItemNotFound (by decide)).1,
   ((registry_error_is_atomic oneSourceCtx 7 [1] "eth" "price" []
      [1, 2, 3, 4, 5]).2.1 Error.ErrBadDataValue (by decide)).1,
   ((registry_error_is_atomic oneSourceCtx 7 [1] "eth" "price" []
      [1, 2, 3, 4, 5]).2.1 Error.ErrBadDataValue (by decide)).2.1⟩

/-- C14: `EditDataSource` returns `ErrItemNotFound` if and only if no data source is stored
under the ID, whatever the sizes are (the check precedes the size checks); for a known ID
it returns `ErrBadDataValue` exactly when the executable, the name or the description is
longer than its maximum, and no error otherwise. -/
theorem EditDataSource_error_iff (ctx : Context) (id : DataSourceID) (owner : AccAddress)
    (name : String) (description : String) (fee : Coins) (executable : List Nat) :
    ((EditDataSource ctx id owner name description fee executable).2 =
        some Error.ErrItemNotFound ↔ CheckDataSourceExists ctx id = false) ∧
    (CheckDataSourceExists ctx id = true →
      ((EditDataSource ctx id owner name description fee executable).2 =
          some Error.ErrBadDataValue ↔
        ((executable.length : Int) > MaxDataSourceExecutableSize ctx ∨
          (name.utf8ByteSize : Int) > MaxNameLength ctx ∨
          (description.utf8ByteSize : Int) > MaxDescriptionLength ctx)) ∧
      (¬ ((executable.length : Int) > MaxDataSourceExecutableSize ctx ∨
          (name.utf8ByteSize : Int) > MaxNameLength ctx ∨
          (description.utf8ByteSize : Int) > MaxDescriptionLength ctx) →
        (EditDataSource ctx id owner name description fee executable).2 = none)) := by
  by_cases hknown : CheckDataSourceExists ctx id = true
  · by_cases hsize : Oversized ctx name description executable
    · rw [EditDataSource_of_oversized ctx id owner name description fee executable hknown
        hsize]
      refine ⟨⟨fun h => ?_, fun h => ?_⟩, fun _ => ⟨⟨fun _ => hsize, fun _ => rfl⟩,
        fun h => absurd hsize h⟩⟩
      · simp at h
      · rw [hknown] at h
        simp at h
    · rw [EditDataSource_of_within ctx id owner name description fee executable hknown
        hsize]
      refine ⟨⟨fun h => ?_, fun h => ?_⟩, fun _ => ⟨⟨fun h => ?_, fun h => absurd h hsize⟩,
        fun _ => rfl⟩⟩
      · simp at h
      · rw [hknown] at h
        simp at h
      · simp at h
  · have hunknown : CheckDataSourceExists ctx id = false := by simpa using hknown
    rw [EditDataSource_of_unknown ctx id owner name description fee executable hunknown]
    exact ⟨⟨fun _ => hunknown, fun _ => rfl⟩, fun h => absurd h hknown⟩

/-- C14 at the stored data source 1: an edit with an oversized executable is
`ErrBadDataValue`, an edit within the limits is accepted. -/
theorem EditDataSource_error_iff_witness :
    ((EditDataSource oneSourceCtx 1 [2] "eth" "price" [] [1, 2, 3, 4, 5]).2 =
        some Error.ErrBadDataValue ↔
      (((([1, 2, 3, 4, 5] : List Nat).length : Int) > MaxDataSourceExecutableSize oneSourceCtx) ∨
        (("eth".utf8ByteSize : Int) > MaxNameLength oneSourceCtx) ∨
        (("price".utf8ByteSize : Int) > MaxDescriptionLength oneSourceCtx))) ∧
    (¬ (((([1, 2, 3, 4, 5] : List Nat).length : Int) > MaxDataSourceExecutableSize oneSourceCtx) ∨
        (("eth".utf8ByteSize : Int) > MaxNameLength oneSourceCtx) ∨
        (("price".utf8ByteSize : Int) > MaxDescriptionLength oneSourceCtx)) →
      (EditDataSource oneSourceCtx 1 [2] "eth" "price" [] [1, 2, 3, 4, 5]).2 = none) :=
  (EditDataSource_error_iff oneSourceCtx 1 [2] "eth" "price" [] [1, 2, 3, 4, 5]).2
    (by decide)

/-- A successful `EditDataSource` call was made on a known ID and has replaced its
record. -/
theorem EditDataSource_success (ctx : Context) (id : DataSourceID) (owner : AccAddress)
    (name : String) (description : String) (fee : Coins) (executable : List Nat)
    (hok : (EditDataSource ctx id owner name description fee executable).2 = none) :
    CheckDataSourceExists ctx id = true ∧
    (EditDataSource ctx id owner name description fee executable).1 =
      SetDataSource ctx id (NewDataSource owner name description fee executable) := by
  by_cases hknown : CheckDataSourceExists ctx id = true
  · by_cases hsize : Oversized ctx name description executable
    · rw [EditDataSource_of_oversized ctx id owner name description fee executable hknown
        hsize] at hok
      simp at hok
    · rw [EditDataSource_of_within ctx id owner name description fee executable hknown
        hsize]
      exact ⟨hknown, rfl⟩
  · rw [EditDataSource_of_unknown ctx id owner name description fee executable
      (by simpa using hknown)] at hok
    simp at hok

/-- The context in which `EditDataSource` returns is the one it was called in, or that
context with the record of a known ID replaced. -/
theorem EditDataSource_fst_cases (ctx : Context) (id : DataSourceID) (owner : AccAddress)
    (name : String) (description : String) (fee : Coins) (executable : List Nat) :
    ((EditDataSource ctx id owner name description fee executable).2 ≠ none ∧
      (EditDataSource ctx id owner name description fee executable).1 = ctx) ∨
    ((EditDataSource ctx id owner name description fee executable).2 = none ∧
      CheckDataSourceExists ctx id = true ∧
      (EditDataSource ctx id owner name description fee executable).1 =
        SetDataSource ctx id (NewDataSource owner name description fee executable)) := by
  cases hres : (EditDataSource ctx id owner name description fee executable).2 with
  | none =>
    right
    exact ⟨rfl, EditDataSource_success ctx id owner name description fee executable hres⟩
  | some err =>
    left
    refine ⟨by simp, ?_⟩
    exact (registry_error_frame_edit ctx id owner name description fee executable err hres)

/-- Every registry call keeps every stored ID stored. -/
theorem applyRegistryCall_keeps_existing (ctx : Context) (call : RegistryCall)
    (existing : DataSourceID) (hex : CheckDataSourceExists ctx existing = true) :
    CheckDataSourceExists (applyRegistryCall ctx call) existing = true := by
  cases call with
  | add owner name description fee executable =>
    simp only [applyRegistryCall]
    by_cases hsize : Oversized ctx name description executable
    · rw [AddDataSource_of_oversized ctx owner name description fee executable hsize]
      exact hex
    · rw [AddDataSource_of_within ctx owner name description fee executable hsize,
        CheckDataSourceExists_SetDataSource]
      split_ifs
      · rfl
      · exact hex
  | edit id owner name description fee executable =>
    simp only [applyRegistryCall]
    rcases EditDataSource_fst_cases ctx id owner name description fee executable with
      ⟨_, hctx⟩ | ⟨_, _, hctx⟩
    · rw [hctx]
      exact hex
    · rw [hctx, CheckDataSourceExists_SetDataSource]
      split_ifs
      · rfl
      · exact hex

/-- C15: `EditDataSource` is a full replacement that preserves the ID and deletes nothing.
After every successful `EditDataSource(id, owner, name, description, fee, executable)`,
`GetDataSource(id)` returns exactly the record with those five fields, and for every other
ID `CheckDataSourceExists` and `GetDataSource` return what they returned before; and every
ID that exists before an `AddDataSource` or `EditDataSource` call, successful or not,
still exists after it. -/
theorem EditDataSource_replaces_and_keeps (ctx : Context) (id : DataSourceID)
    (owner : AccAddress) (name : String) (description : String) (fee : Coins)
    (executable : List Nat) :
    ((EditDataSource ctx id owner name description fee executable).2 = none →
      GetDataSource (EditDataSource ctx id owner name description fee executable).1 id =
        .ok { Owner := owner, Name := name, Description := description, Fee := fee,
              Executable := executable } ∧
      ∀ other, other ≠ id →
        CheckDataSourceExists
            (EditDataSource ctx id owner name description fee executable).1 other =
          CheckDataSourceExists ctx other ∧
        GetDataSource (EditDataSource ctx id owner name description fee executable).1 other =
          GetDataSource ctx other) ∧
    (∀ (call : RegistryCall) (existing : DataSourceID),
      CheckDataSourceExists ctx existing = true →
        CheckDataSourceExists (applyRegistryCall ctx call) existing = true) := by
  refine ⟨fun hok => ?_, applyRegistryCall_keeps_existing ctx⟩
  obtain ⟨_, hctx⟩ := EditDataSource_success ctx id owner name description fee executable hok
  rw [hctx]
  refine ⟨?_, fun other hother => ⟨?_, ?_⟩⟩
  · rw [GetDataSource_SetDataSource, if_pos rfl]
    rfl
  · rw [CheckDataSourceExists_SetDataSource, if_neg hother]
  · rw [GetDataSource_SetDataSource, if_neg hother]

/-- C15 at an edit of the stored data source 1 that changes every field. -/
theorem EditDataSource_replaces_and_keeps_witness :
    GetDataSource (EditDataSource oneSourceCtx 1 [2] "eth" "rate" [] [3]).1 1 =
      .ok { Owner := [2], Name := "eth", Description := "rate", Fee := [],
            Executable := [3] } ∧
    CheckDataSourceExists (applyRegistryCall oneSourceCtx oversizedAdd) 1 = true :=
  ⟨((EditDataSource_replaces_and_keeps oneSourceCtx 1 [2] "eth" "rate" [] [3]).1
      (by decide)).1,
   (EditDataSource_replaces_and_keeps oneSourceCtx 1 [2] "eth" "rate" [] [3]).2
      oversizedAdd 1 (by decide)⟩

/-- C17, against the claim as stated: data source 1 is stored with Owner `[1]`; the edit
message of sender `[2]`, whose only signer is `[2]`, passes `ValidateBasic`, and
`EditDataSource` with its fields returns no error and replaces the record, Owner
included. -/
theorem EditDataSource_by_other_account_changes_record :
    GetDataSource oneSourceCtx 1 = .ok (NewDataSource [1] "btc" "price" [] [1, 2]) ∧
    MsgEditDataSource.ValidateBasic (fun _ => true)
      { DataSourceID := 1, Owner := [2], Name := "eth", Description := "rate", Fee := [],
        Executable := [3], Sender := [2] } = none ∧
    MsgEditDataSource.GetSigners
      { DataSourceID := 1, Owner := [2], Name := "eth", Description := "rate", Fee := [],
        Executable := [3], Sender := [2] } = [[2]] ∧
    (EditDataSource oneSourceCtx 1 [2] "eth" "rate" [] [3]).2 = none ∧
    GetDataSource (EditDataSource oneSourceCtx 1 [2] "eth" "rate" [] [3]).1 1 =
      .ok (NewDataSource [2] "eth" "rate" [] [3]) := by
  decide

/-- C17, amended: a stored DataSource is mutated only by a successful `EditDataSource` on
its own ID, and `EditDataSource` makes no authorization check.  For every registry state
in which `id` holds a record, of whatever Owner, every `EditDataSource` on `id` within the
size limits returns no error and replaces the record, Owner included; a failing
`EditDataSource` and an `EditDataSource` on another ID leave the record as it is; and the
only signer of `MsgEditDataSource` is its Sender.  That the edit is made on behalf of the
stored Owner is for the caller of `EditDataSource` to check. -/
theorem EditDataSource_makes_no_owner_check (ctx : Context) (id : DataSourceID)
    (stored : DataSource) (hstored : GetDataSource ctx id = .ok stored)
    (owner : AccAddress) (name : String) (description : String) (fee : Coins)
    (executable : List Nat) :
    (¬ Oversized ctx name description executable →
      (EditDataSource ctx id owner name description fee executable).2 = none ∧
      GetDataSource (EditDataSource ctx id owner name description fee executable).1 id =
        .ok (NewDataSource owner name description fee executable)) ∧
    ((EditDataSource ctx id owner name description fee executable).2 ≠ none →
      GetDataSource (EditDataSource ctx id owner name description fee executable).1 id =
        .ok stored) ∧
    (∀ other, other ≠ id →
      GetDataSource (EditDataSource ctx other owner name description fee executable).1 id =
        .ok stored) ∧
    (∀ msg : MsgEditDataSource, msg.GetSigners = [msg.Sender]) := by
  have hknown : CheckDataSourceExists ctx id = true := by
    unfold GetDataSource at hstored
    by_contra h
    simp [h] at hstored
  refine ⟨fun hsize => ?_, fun hfail => ?_, fun other hother => ?_, fun _ => rfl⟩
  · rw [EditDataSource_of_within ctx id owner name description fee executable hknown hsize]
    exact ⟨rfl, by rw [GetDataSource_SetDataSource, if_pos rfl]⟩
  · rcases EditDataSource_fst_cases ctx id owner name description fee executable with
      ⟨_, hctx⟩ | ⟨hok, _⟩
    · rw [hctx]
      exact hstored
    · exact absurd hok hfail
  · rcases EditDataSource_fst_cases ctx other owner name description fee executable with
      ⟨_, hctx⟩ | ⟨_, _, hctx⟩
    · rw [hctx]
      exact hstored
    · rw [hctx, GetDataSource_SetDataSource, if_neg (fun h => hother h.symm)]
      exact hstored

/-- C17 (amended) at the edit of data source 1, stored with Owner `[1]`, to Owner `[2]`. -/
theorem EditDataSource_makes_no_owner_check_witness :
    (EditDataSource oneSourceCtx 1 [2] "eth" "rate" [] [3]).2 = none ∧
    GetDataSource (EditDataSource oneSourceCtx 1 [2] "eth" "rate" [] [3]).1 1 =
      .ok (NewDataSource [2] "eth" "rate" [] [3]) :=
  (EditDataSource_makes_no_owner_check oneSourceCtx 1 (NewDataSource [1] "btc" "price" [] [1, 2])
    (by decide) [2] "eth" "rate" [] [3]).1 (by decide)

/-! ## Sequences of registry calls -/

/-- `AddDataSource` writes nothing but the data sources. -/
theorem AddDataSource_frame (ctx : Context) (owner : AccAddress) (name : String)
    (description : String) (fee : Coins) (executable : List Nat) :
    (AddDataSource ctx owner name description fee executable).1 =
      { ctx with
        dataSources :=
          (AddDataSource ctx owner name description fee executable).1.dataSources } := by
  by_cases hsize : Oversized ctx name description executable
  · rw [AddDataSource_of_oversized ctx owner name description fee executable hsize]
  · rw [AddDataSource_of_within ctx owner name description fee executable hsize]
    rfl

/-- `EditDataSource` writes nothing but the data sources. -/
theorem EditDataSource_frame (ctx : Context) (id : DataSourceID) (owner : AccAddress)
    (name : String) (description : String) (fee : Coins) (executable : List Nat) :
    (EditDataSource ctx id owner name description fee executable).1 =
      { ctx with
        dataSources :=
          (EditDataSource ctx id owner name description fee executable).1.dataSources } := by
  rcases EditDataSource_fst_cases ctx id owner name description fee executable with
    ⟨_, hctx⟩ | ⟨_, _, hctx⟩
  · rw [hctx]
  · rw [hctx]
    rfl

/-- The size checks read the three maxima only. -/
theorem Oversized_congr (ctx ctx2 : Context) (name : String) (description : String)
    (executable : List Nat)
    (h1 : ctx2.maxDataSourceExecutableSize = ctx.maxDataSourceExecutableSize)
    (h2 : ctx2.maxNameLength = ctx.maxNameLength)
    (h3 : ctx2.maxDescriptionLength = ctx.maxDescriptionLength) :
    Oversized ctx2 name description executable ↔
      Oversized ctx name description executable := by
  simp only [Oversized, MaxDataSourceExecutableSize, MaxNameLength, MaxDescriptionLength,
    h1, h2, h3]

theorem denseIDs_succ (n : Nat) : denseIDs (n + 1) = denseIDs n ++ [(n : Int) + 1] := by
  simp [denseIDs, List.range_succ]

theorem denseIDs_lt (n : Nat) : ∀ k ∈ denseIDs n, k < (n : Int) + 1 := by
  intro k hk
  unfold denseIDs at hk
  obtain ⟨j, hj, rfl⟩ := List.mem_map.mp hk
  have hlt : (j : Int) < (n : Int) := by exact_mod_cast List.mem_range.mp hj
  linarith

theorem denseIDs_sorted (n : Nat) : (denseIDs n).Pairwise (fun a b => a < b) := by
  induction n with
  | zero => simp [denseIDs]
  | succ n ih =>
    rw [denseIDs_succ, List.pairwise_append]
    refine ⟨ih, by simp, ?_⟩
    intro a ha b hb
    rw [List.mem_singleton.mp hb]
    exact denseIDs_lt n a ha

theorem denseIDs_length (n : Nat) : (denseIDs n).length = n := by
  simp [denseIDs]

/-- The entry number `i + 1` of the IDs 1, ..., n is `i + 1`. -/
theorem denseIDs_get (n i : Nat) (h : i < n) : (denseIDs n)[i]? = some ((i : Int) + 1) := by
  simp [denseIDs, List.getElem?_map, List.getElem?_range h]

/-- An empty registry is dense. -/
theorem DenseRegistry_of_empty (ctx : Context) (hempty : ctx.dataSources = []) :
    DenseRegistry ctx := by
  simp [DenseRegistry, storedDataSourceIDs, storeKeys, hempty, denseIDs]

/-- In a dense registry every stored ID is below the next ID. -/
theorem DenseRegistry_lt (ctx : Context) (hdense : DenseRegistry ctx) :
    ∀ k ∈ storeKeys ctx.dataSources, k < (ctx.dataSources.length : Int) + 1 := by
  intro k hk
  have hk2 : k ∈ denseIDs ctx.dataSources.length := by
    rw [← hdense]
    exact hk
  exact denseIDs_lt _ k hk2

/-- The stored IDs of a dense registry are in strictly ascending order. -/
theorem DenseRegistry_sorted (ctx : Context) (hdense : DenseRegistry ctx) :
    (storedDataSourceIDs ctx).Pairwise (fun a b => a < b) := by
  rw [hdense]
  exact denseIDs_sorted _

/-- An `EditDataSource` call keeps the list of stored IDs as it is. -/
theorem EditDataSource_keeps_ids (ctx : Context)
    (hsorted : (storedDataSourceIDs ctx).Pairwise (fun a b => a < b))
    (id : DataSourceID) (owner : AccAddress) (name : String) (description : String)
    (fee : Coins) (executable : List Nat) :
    storedDataSourceIDs (EditDataSource ctx id owner name description fee executable).1 =
      storedDataSourceIDs ctx := by
  rcases EditDataSource_fst_cases ctx id owner name description fee executable with
    ⟨_, hctx⟩ | ⟨_, hknown, hctx⟩
  · rw [hctx]
  · rw [hctx]
    exact storeKeys_storeSet_of_mem id _ ctx.dataSources hsorted
      ((storeGet_isSome_iff id ctx.dataSources).mp hknown)

/-- An `EditDataSource` call keeps the number of stored data sources. -/
theorem EditDataSource_keeps_length (ctx : Context)
    (hsorted : (storedDataSourceIDs ctx).Pairwise (fun a b => a < b))
    (id : DataSourceID) (owner : AccAddress) (name : String) (description : String)
    (fee : Coins) (executable : List Nat) :
    (EditDataSource ctx id owner name description fee executable).1.dataSources.length =
      ctx.dataSources.length := by
  have hlen := congrArg List.length
    (EditDataSource_keeps_ids ctx hsorted id owner name description fee executable)
  simpa [storedDataSourceIDs, storeKeys] using hlen

/-- A successful `AddDataSource` call on a dense registry stores the new record at the
end, under the number of stored data sources plus one. -/
theorem AddDataSource_dense (ctx : Context) (owner : AccAddress) (name : String)
    (description : String) (fee : Coins) (executable : List Nat)
    (hdense : DenseRegistry ctx)
    (hsize : ¬ Oversized ctx name description executable) :
    (AddDataSource ctx owner name description fee executable).1.dataSources =
      ctx.dataSources ++
        [((ctx.dataSources.length : Int) + 1,
          NewDataSource owner name description fee executable)] := by
  rw [AddDataSource_of_within ctx owner name description fee executable hsize]
  simp only [SetDataSource]
  exact storeSet_of_all_lt _ _ _ (DenseRegistry_lt ctx hdense)

/-- Every registry call keeps a dense registry dense. -/
theorem applyRegistryCall_dense (ctx : Context) (call : RegistryCall)
    (hdense : DenseRegistry ctx) : DenseRegistry (applyRegistryCall ctx call) := by
  cases call with
  | add owner name description fee executable =>
    simp only [applyRegistryCall]
    by_cases hsize : Oversized ctx name description executable
    · rw [AddDataSource_of_oversized ctx owner name description fee executable hsize]
      exact hdense
    · have hadd := AddDataSource_dense ctx owner name description fee executable hdense hsize
      have hkeys : storeKeys ctx.dataSources = denseIDs ctx.dataSources.length := hdense
      unfold DenseRegistry storedDataSourceIDs
      rw [hadd, List.length_append, List.length_singleton, denseIDs_succ, ← hkeys]
      simp [storeKeys]
  | edit id owner name description fee executable =>
    simp only [applyRegistryCall]
    have hsorted := DenseRegistry_sorted ctx hdense
    have hids := EditDataSource_keeps_ids ctx hsorted id owner name description fee
      executable
    have hlen := EditDataSource_keeps_length ctx hsorted id owner name description fee
      executable
    unfold DenseRegistry
    rw [hids, hlen]
    exact hdense

theorem applyRegistryCalls_dense (calls : List RegistryCall) :
    ∀ ctx : Context, DenseRegistry ctx → DenseRegistry (applyRegistryCalls ctx calls) := by
  induction calls with
  | nil => intro ctx h; exact h
  | cons call rest ih =>
    intro ctx h
    exact ih (applyRegistryCall ctx call) (applyRegistryCall_dense ctx call h)

theorem successfulIDs_cons_error (err : Error) (rest : List (Except Error DataSourceID)) :
    successfulIDs (.error err :: rest) = successfulIDs rest := by
  simp [successfulIDs, Except.toOption]

theorem successfulIDs_cons_ok (id : DataSourceID)
    (rest : List (Except Error DataSourceID)) :
    successfulIDs (.ok id :: rest) = id :: successfulIDs rest := by
  simp [successfulIDs, Except.toOption]

/-- On a dense registry, the successful `AddDataSource` call number `j + 1` of a sequence
returns the number of data sources stored at the start plus `j + 1`. -/
theorem addResults_getElem (calls : List RegistryCall) :
    ∀ (ctx : Context), DenseRegistry ctx → ∀ (j : Nat) (id : DataSourceID),
      (successfulIDs (addResults ctx calls))[j]? = some id →
        id = (ctx.dataSources.length : Int) + ((j : Int) + 1) := by
  induction calls with
  | nil =>
    intro ctx _ j id h
    simp [addResults, successfulIDs] at h
  | cons call rest ih =>
    intro ctx hdense j id h
    cases call with
    | add owner name description fee executable =>
      simp only [addResults] at h
      by_cases hsize : Oversized ctx name description executable
      · rw [AddDataSource_of_oversized ctx owner name description fee executable hsize,
          successfulIDs_cons_error] at h
        exact ih ctx hdense j id h
      · have hd2 := applyRegistryCall_dense ctx (.add owner name description fee executable)
          hdense
        have hlen := congrArg List.length
          (AddDataSource_dense ctx owner name description fee executable hdense hsize)
        simp only [applyRegistryCall] at hd2
        have hadd := AddDataSource_of_within ctx owner name description fee executable hsize
        rw [hadd] at h hd2 hlen
        simp only at h hd2 hlen
        rw [successfulIDs_cons_ok] at h
        cases j with
        | zero =>
          simp only [List.getElem?_cons_zero, Option.some.injEq] at h
          rw [← h]
          simp
        | succ j =>
          simp only [List.getElem?_cons_succ] at h
          have hid := ih _ hd2 j id h
          rw [hid, hlen]
          simp only [List.length_append, List.length_singleton]
          push_cast
          ring
    | edit dataSourceID owner name description fee executable =>
      simp only [addResults] at h
      have hd2 := applyRegistryCall_dense ctx
        (.edit dataSourceID owner name description fee executable) hdense
      simp only [applyRegistryCall] at hd2
      have hid := ih _ hd2 j id h
      rw [EditDataSource_keeps_length ctx (DenseRegistry_sorted ctx hdense)] at hid
      exact hid

/-- The `EditDataSource` calls of a sequence have no effect on the results of its
`AddDataSource` calls: two dense registries with the same number of data sources and the
same maxima give the same results, with or without the `EditDataSource` calls. -/
theorem addResults_filter (calls : List RegistryCall) :
    ∀ (ctx ctx2 : Context), DenseRegistry ctx → DenseRegistry ctx2 →
      ctx2.dataSources.length = ctx.dataSources.length →
      ctx2.maxDataSourceExecutableSize = ctx.maxDataSourceExecutableSize →
      ctx2.maxNameLength = ctx.maxNameLength →
      ctx2.maxDescriptionLength = ctx.maxDescriptionLength →
      addResults ctx calls = addResults ctx2 (calls.filter RegistryCall.isAdd) := by
  induction calls with
  | nil =>
    intro ctx ctx2 _ _ _ _ _ _
    rfl
  | cons call rest ih =>
    intro ctx ctx2 hd hd2 hlen h1 h2 h3
    cases call with
    | add owner name description fee executable =>
      have hfilter : (RegistryCall.add owner name description fee executable :: rest).filter
          RegistryCall.isAdd =
          RegistryCall.add owner name description fee executable ::
            rest.filter RegistryCall.isAdd := by
        simp [RegistryCall.isAdd]
      rw [hfilter]
      simp only [addResults]
      have hcongr := Oversized_congr ctx ctx2 name description executable h1 h2 h3
      by_cases hsize : Oversized ctx name description executable
      · rw [AddDataSource_of_oversized ctx owner name description fee executable hsize,
          AddDataSource_of_oversized ctx2 owner name description fee executable
            (hcongr.mpr hsize)]
        rw [ih ctx ctx2 hd hd2 hlen h1 h2 h3]
      · have hsize2 : ¬ Oversized ctx2 name description executable :=
          fun h => hsize (hcongr.mp h)
        have he := applyRegistryCall_dense ctx (.add owner name description fee executable)
          hd
        have he2 := applyRegistryCall_dense ctx2
          (.add owner name description fee executable) hd2
        have hl := congrArg List.length
          (AddDataSource_dense ctx owner name description fee executable hd hsize)
        have hl2 := congrArg List.length
          (AddDataSource_dense ctx2 owner name description fee executable hd2 hsize2)
        simp only [applyRegistryCall] at he he2
        have hadd := AddDataSource_of_within ctx owner name description fee executable hsize
        have hadd2 := AddDataSource_of_within ctx2 owner name description fee executable
          hsize2
        rw [hadd] at he hl ⊢
        rw [hadd2] at he2 hl2 ⊢
        simp only at he he2 hl hl2 ⊢
        have hlen2 : (SetDataSource ctx2 ((ctx2.dataSources.length : Int) + 1)
              (NewDataSource owner name description fee executable)).dataSources.length =
            (SetDataSource ctx ((ctx.dataSources.length : Int) + 1)
              (NewDataSource owner name description fee executable)).dataSources.length := by
          rw [hl, hl2]
          simp [hlen]
        rw [ih _ _ he he2 hlen2 h1 h2 h3, hlen]
    | edit dataSourceID owner name description fee executable =>
      have hfilter : (RegistryCall.edit dataSourceID owner name description fee executable ::
          rest).filter RegistryCall.isAdd = rest.filter RegistryCall.isAdd := by
        simp [RegistryCall.isAdd]
      rw [hfilter]
      simp only [addResults]
      have he := applyRegistryCall_dense ctx
        (.edit dataSourceID owner name description fee executable) hd
      simp only [applyRegistryCall] at he
      have hframe := EditDataSource_frame ctx dataSourceID owner name description fee
        executable
      have f1 := congrArg Context.maxDataSourceExecutableSize hframe
      have f2 := congrArg Context.maxNameLength hframe
      have f3 := congrArg Context.maxDescriptionLength hframe
      have hl := EditDataSource_keeps_length ctx (DenseRegistry_sorted ctx hd) dataSourceID
        owner name description fee executable
      exact ih _ ctx2 he hd2 (hlen.trans hl.symm) (h1.trans f1.symm) (h2.trans f2.symm)
        (h3.trans f3.symm)

/-- C12: data source IDs are dense.  Starting from an empty registry, for every sequence of
`AddDataSource` and `EditDataSource` calls, the k-th successful `AddDataSource` call
returns ID k: the returned IDs are 1, 2, 3, ... in order, strictly increasing and without
gaps; and the results of the `AddDataSource` calls are those of the same sequence without
its `EditDataSource` calls. -/
theorem AddDataSource_ids_dense (ctx : Context) (hempty : ctx.dataSources = [])
    (calls : List RegistryCall) :
    (∀ (j : Nat) (id : DataSourceID),
      (successfulIDs (addResults ctx calls))[j]? = some id → id = (j : Int) + 1) ∧
    successfulIDs (addResults ctx calls) =
      denseIDs (successfulIDs (addResults ctx calls)).length ∧
    (successfulIDs (addResults ctx calls)).Pairwise (fun a b => a < b) ∧
    addResults ctx calls = addResults ctx (calls.filter RegistryCall.isAdd) := by
  have hdense := DenseRegistry_of_empty ctx hempty
  have hget : ∀ (j : Nat) (id : DataSourceID),
      (successfulIDs (addResults ctx calls))[j]? = some id → id = (j : Int) + 1 := by
    intro j id h
    have := addResults_getElem calls ctx hdense j id h
    rw [this, hempty]
    simp
  have hlist : successfulIDs (addResults ctx calls) =
      denseIDs (successfulIDs (addResults ctx calls)).length := by
    apply List.ext_getElem?
    intro j
    by_cases hj : j < (successfulIDs (addResults ctx calls)).length
    · have h1 : (successfulIDs (addResults ctx calls))[j]? =
          some ((successfulIDs (addResults ctx calls))[j]) := List.getElem?_eq_getElem hj
      rw [denseIDs_get _ j hj, h1, hget j _ h1]
    · have h1 : (successfulIDs (addResults ctx calls))[j]? = none :=
        List.getElem?_eq_none (not_lt.mp hj)
      have h2 : (denseIDs (successfulIDs (addResults ctx calls)).length)[j]? = none :=
        List.getElem?_eq_none (by rw [denseIDs_length]; exact not_lt.mp hj)
      rw [h1, h2]
  refine ⟨hget, hlist, ?_, addResults_filter calls ctx ctx hdense hdense rfl rfl rfl rfl⟩
  rw [hlist]
  exact denseIDs_sorted _

/-- C12 at a sequence from the empty registry with a failing `AddDataSource` call and an
edit between two successful ones: the successful calls return IDs 1 and 2. -/
theorem AddDataSource_ids_dense_witness :
    addResults emptyRegistryCtx
        [sampleAdd, oversizedAdd, .edit 1 [2] "eth" "rate" [] [3], sampleAdd] =
      [.ok 1, .error Error.ErrBadDataValue, .ok 2] ∧
    successfulIDs (addResults emptyRegistryCtx
        [sampleAdd, oversizedAdd, .edit 1 [2] "eth" "rate" [] [3], sampleAdd]) =
      denseIDs (successfulIDs (addResults emptyRegistryCtx
        [sampleAdd, oversizedAdd, .edit 1 [2] "eth" "rate" [] [3], sampleAdd])).length :=
  ⟨by decide,
   (AddDataSource_ids_dense emptyRegistryCtx (by decide)
      [sampleAdd, oversizedAdd, .edit 1 [2] "eth" "rate" [] [3], sampleAdd]).2.1⟩

/-! ## GetAllDataSources -/

/-- `GetDataSource` in terms of the store: the record under the key, if any. -/
theorem GetDataSource_eq (ctx : Context) (id : DataSourceID) :
    GetDataSource ctx id =
      match storeGet id ctx.dataSources with
      | some dataSource => .ok dataSource
      | none => .error Error.ErrItemNotFound := by
  unfold GetDataSource CheckDataSourceExists
  cases storeGet id ctx.dataSources <;> simp

/-- Over stored IDs in strictly ascending order, `GetAllDataSources` lists the record of
each stored ID, in the order of the IDs. -/
theorem GetAllDataSources_eq_map (ctx : Context)
    (hsorted : (storedDataSourceIDs ctx).Pairwise (fun a b => a < b)) :
    (GetAllDataSources ctx).map (fun dataSource => (Except.ok dataSource : Except Error DataSource)) =
      (storedDataSourceIDs ctx).map (GetDataSource ctx) := by
  have hnodup : (storeKeys ctx.dataSources).Nodup := hsorted.imp (fun h => ne_of_lt h)
  have hmap := map_storeGet_storeKeys ctx.dataSources hnodup
  have hget : GetDataSource ctx = fun id =>
      match storeGet id ctx.dataSources with
      | some dataSource => .ok dataSource
      | none => .error Error.ErrItemNotFound := funext (GetDataSource_eq ctx)
  have h2 := congrArg (List.map (fun (o : Option DataSource) =>
      match o with
      | some dataSource => (Except.ok dataSource : Except Error DataSource)
      | none => .error Error.ErrItemNotFound)) hmap
  simp only [List.map_map] at h2
  simp only [GetAllDataSources, storedDataSourceIDs, hget, List.map_map]
  exact h2.symm

/-- The list of a dense registry: the entry number `i + 1` is the record under ID
`i + 1`. -/
theorem GetAllDataSources_dense (ctx : Context) (hdense : DenseRegistry ctx) :
    storedDataSourceIDs ctx = denseIDs (GetAllDataSources ctx).length ∧
    (GetAllDataSources ctx).map
        (fun dataSource => (Except.ok dataSource : Except Error DataSource)) =
      (denseIDs (GetAllDataSources ctx).length).map (GetDataSource ctx) ∧
    (∀ (i : Nat) (entry : DataSource), (GetAllDataSources ctx)[i]? = some entry →
      GetDataSource ctx ((i : Int) + 1) = .ok entry) := by
  have hlen : (GetAllDataSources ctx).length = ctx.dataSources.length := by
    simp [GetAllDataSources]
  have hids : storedDataSourceIDs ctx = denseIDs (GetAllDataSources ctx).length := by
    rw [hlen]
    exact hdense
  have hmap := GetAllDataSources_eq_map ctx (DenseRegistry_sorted ctx hdense)
  rw [hids] at hmap
  refine ⟨hids, hmap, fun i entry hentry => ?_⟩
  have hi : i < (GetAllDataSources ctx).length := by
    by_contra hge
    rw [List.getElem?_eq_none (not_lt.mp hge)] at hentry
    simp at hentry
  have h2 := congrArg (fun l => l[i]?) hmap
  simp only [List.getElem?_map, hentry, denseIDs_get _ i hi, Option.map_some'] at h2
  exact (Option.some.inj h2).symm

/-- C16: `GetAllDataSources` lists the registry in insertion order.  For every registry
state reached from an empty registry by `AddDataSource` and `EditDataSource` calls, the
stored IDs are 1, ..., n in ascending order, `GetAllDataSources` returns exactly one entry
per stored data source (n entries), and its i-th entry is `GetDataSource(i)`; an
`EditDataSource` call changes neither the stored IDs nor the length of the list, and
leaves `GetDataSource` of every other ID as it was. -/
theorem GetAllDataSources_lists_by_id (ctx : Context) (hempty : ctx.dataSources = [])
    (calls : List RegistryCall) :
    (storedDataSourceIDs (applyRegistryCalls ctx calls)).Pairwise (fun a b => a < b) ∧
    storedDataSourceIDs (applyRegistryCalls ctx calls) =
      denseIDs (GetAllDataSources (applyRegistryCalls ctx calls)).length ∧
    (∀ id, CheckDataSourceExists (applyRegistryCalls ctx calls) id = true ↔
      id ∈ denseIDs (GetAllDataSources (applyRegistryCalls ctx calls)).length) ∧
    (GetAllDataSources (applyRegistryCalls ctx calls)).map
        (fun dataSource => (Except.ok dataSource : Except Error DataSource)) =
      (denseIDs (GetAllDataSources (applyRegistryCalls ctx calls)).length).map
        (GetDataSource (applyRegistryCalls ctx calls)) ∧
    (∀ (i : Nat) (entry : DataSource),
      (GetAllDataSources (applyRegistryCalls ctx calls))[i]? = some entry →
        GetDataSource (applyRegistryCalls ctx calls) ((i : Int) + 1) = .ok entry) ∧
    (∀ (id : DataSourceID) (owner : AccAddress) (name : String) (description : String)
      (fee : Coins) (executable : List Nat),
      storedDataSourceIDs
          (EditDataSource (applyRegistryCalls ctx calls) id owner name description fee
            executable).1 =
        storedDataSourceIDs (applyRegistryCalls ctx calls) ∧
      (GetAllDataSources
          (EditDataSource (applyRegistryCalls ctx calls) id owner name description fee
            executable).1).length =
        (GetAllDataSources (applyRegistryCalls ctx calls)).length ∧
      ∀ other, other ≠ id →
        GetDataSource
            (EditDataSource (applyRegistryCalls ctx calls) id owner name description fee
              executable).1 other =
          GetDataSource (applyRegistryCalls ctx calls) other) := by
  have hdense := applyRegistryCalls_dense calls ctx (DenseRegistry_of_empty ctx hempty)
  have hsorted := DenseRegistry_sorted _ hdense
  obtain ⟨hids, hmap, hget⟩ := GetAllDataSources_dense _ hdense
  refine ⟨hsorted, hids, fun id => ?_, hmap, hget,
    fun id owner name description fee executable => ⟨?_, ?_, fun other hother => ?_⟩⟩
  · rw [← hids]
    exact storeGet_isSome_iff id _
  · exact EditDataSource_keeps_ids _ hsorted id owner name description fee executable
  · have hlen := EditDataSource_keeps_length _ hsorted id owner name description fee
      executable
    simpa [GetAllDataSources] using hlen
  · rcases EditDataSource_fst_cases (applyRegistryCalls ctx calls) id owner name description
        fee executable with ⟨_, hctx⟩ | ⟨_, _, hctx⟩
    · rw [hctx]
    · rw [hctx, GetDataSource_SetDataSource, if_neg hother]

/-- C16 at the registry reached from the empty one by a failing `AddDataSource` call, two
successful ones and an edit of the first: the list has two entries, the edited record
under ID 1 and the second record under ID 2. -/
theorem GetAllDataSources_lists_by_id_witness :
    GetAllDataSources (applyRegistryCalls emptyRegistryCtx
        [oversizedAdd, sampleAdd, .edit 1 [2] "eth" "rate" [] [3], sampleAdd]) =
      [NewDataSource [2] "eth" "rate" [] [3], NewDataSource [1] "btc" "price" [] [1, 2]] ∧
    storedDataSourceIDs (applyRegistryCalls emptyRegistryCtx
        [oversizedAdd, sampleAdd, .edit 1 [2] "eth" "rate" [] [3], sampleAdd]) =
      denseIDs (GetAllDataSources (applyRegistryCalls emptyRegistryCtx
        [oversizedAdd, sampleAdd, .edit 1 [2] "eth" "rate" [] [3], sampleAdd])).length ∧
    GetDataSource (applyRegistryCalls emptyRegistryCtx
        [oversizedAdd, sampleAdd, .edit 1 [2] "eth" "rate" [] [3], sampleAdd])
        (((1 : Nat) : Int) + 1) =
      .ok (NewDataSource [1] "btc" "price" [] [1, 2]) :=
  ⟨by decide,
   (GetAllDataSources_lists_by_id emptyRegistryCtx (by decide)
      [oversizedAdd, sampleAdd, .edit 1 [2] "eth" "rate" [] [3], sampleAdd]).2.1,
   (GetAllDataSources_lists_by_id emptyRegistryCtx (by decide)
      [oversizedAdd, sampleAdd, .edit 1 [2] "eth" "rate" [] [3], sampleAdd]).2.2.2.2.1
      1 (NewDataSource [1] "btc" "price" [] [1, 2]) (by decide)⟩

/-! ## The claims about the oracle script and oracle address messages -/

/-- C21, against the claim as stated: a `MsgCreateOracleScript` with non-empty Owner,
Sender, Name and Code but an empty Description is rejected; the `MsgEditOracleScript` with
the same fields and a positive ID is accepted, although the create message with its
fields is not. -/
theorem MsgOracleScript_description_counterexample :
    MsgCreateOracleScript.ValidateBasic
      { Owner := [1], Name := "median", Description := "", Code := [0, 97], Sender := [1] } =
      some Error.ErrInvalidBasicMsg ∧
    MsgEditOracleScript.ValidateBasic
      { OracleScriptID := 1, Owner := [1], Name := "median", Description := "",
        Code := [0, 97], Sender := [1] } = none ∧
    MsgCreateOracleScript.ValidateBasic
      (MsgEditOracleScript.asCreate
        { OracleScriptID := 1, Owner := [1], Name := "median", Description := "",
          Code := [0, 97], Sender := [1] }) ≠ none := by
  decide

/-- C21, amended: `MsgCreateOracleScript.ValidateBasic` returns no error if and only if
Owner and Sender are non-empty, Name is non-empty, Description is non-empty and Code is
non-empty; `MsgEditOracleScript.ValidateBasic` accepts every message with OracleScriptID >
0 whose create message is accepted, and every message it accepts has OracleScriptID > 0
and non-empty Owner, Sender, Name and Code. -/
theorem MsgOracleScript_ValidateBasic_accepts (create : MsgCreateOracleScript)
    (edit : MsgEditOracleScript) :
    (create.ValidateBasic = none ↔
      create.Owner ≠ [] ∧ create.Sender ≠ [] ∧ create.Name ≠ "" ∧
      create.Description ≠ "" ∧ create.Code ≠ []) ∧
    (0 < edit.OracleScriptID → edit.asCreate.ValidateBasic = none →
      edit.ValidateBasic = none) ∧
    (edit.ValidateBasic = none →
      0 < edit.OracleScriptID ∧ edit.Owner ≠ [] ∧ edit.Sender ≠ [] ∧ edit.Name ≠ "" ∧
      edit.Code ≠ []) := by
  refine ⟨?_, ?_, ?_⟩
  · unfold MsgCreateOracleScript.ValidateBasic
    rw [← Empty_eq_false_iff, ← Empty_eq_false_iff]
    split_ifs <;> simp_all
  · unfold MsgEditOracleScript.ValidateBasic MsgCreateOracleScript.ValidateBasic
      MsgEditOracleScript.asCreate
    intro hid
    have hid2 : ¬ edit.OracleScriptID ≤ 0 := not_le.mpr hid
    simp only [if_neg hid2]
    split_ifs <;> simp_all
  · unfold MsgEditOracleScript.ValidateBasic
    rw [← Empty_eq_false_iff, ← Empty_eq_false_iff]
    split_ifs <;> simp_all

/-- C21 (amended) at an edit message with a description. -/
theorem MsgOracleScript_ValidateBasic_accepts_witness :
    MsgEditOracleScript.ValidateBasic
      { OracleScriptID := 1, Owner := [1], Name := "median", Description := "of prices",
        Code := [0, 97], Sender := [1] } = none :=
  (MsgOracleScript_ValidateBasic_accepts
    { Owner := [1], Name := "median", Description := "of prices", Code := [0, 97],
      Sender := [1] }
    { OracleScriptID := 1, Owner := [1], Name := "median", Description := "of prices",
      Code := [0, 97], Sender := [1] }).2.1 (by decide) (by decide)

/-- C22: `MsgAddOracleAddress.ValidateBasic` and `MsgRemoveOracleAdderess.ValidateBasic`
each return no error if and only if both Validator and Reporter are non-empty, so for
every (validator, reporter) pair the remove message is accepted exactly when the add
message is. -/
theorem MsgOracleAddress_ValidateBasic_accepts_iff (validator : ValAddress)
    (reporter : AccAddress) :
    (MsgAddOracleAddress.ValidateBasic { Validator := validator, Reporter := reporter } =
        none ↔ validator ≠ [] ∧ reporter ≠ []) ∧
    (MsgRemoveOracleAdderess.ValidateBasic { Validator := validator, Reporter := reporter } =
        none ↔ validator ≠ [] ∧ reporter ≠ []) ∧
    (MsgRemoveOracleAdderess.ValidateBasic { Validator := validator, Reporter := reporter } =
        none ↔
      MsgAddOracleAddress.ValidateBasic { Validator := validator, Reporter := reporter } =
        none) := by
  have hadd : MsgAddOracleAddress.ValidateBasic
      { Validator := validator, Reporter := reporter } = none ↔
      validator ≠ [] ∧ reporter ≠ [] := by
    unfold MsgAddOracleAddress.ValidateBasic
    rw [← Empty_eq_false_iff, ← Empty_eq_false_iff]
    split_ifs <;> simp_all
  have hremove : MsgRemoveOracleAdderess.ValidateBasic
      { Validator := validator, Reporter := reporter } = none ↔
      validator ≠ [] ∧ reporter ≠ [] := by
    unfold MsgRemoveOracleAdderess.ValidateBasic
    rw [← Empty_eq_false_iff, ← Empty_eq_false_iff]
    split_ifs <;> simp_all
  exact ⟨hadd, hremove, hremove.trans hadd.symm⟩

/-- C26: every error returned by the `ValidateBasic` method of any of the eight message
types is `ErrInvalidBasicMsg`; each method is a function of the message alone (and, for
the two data source messages, of the SDK's validity test applied to the message's Fee):
none receives or reads the context. -/
theorem ValidateBasic_errors_are_ErrInvalidBasicMsg (feeIsValid : Coins → Bool)
    (requestData : MsgRequestData) (reportData : MsgReportData)
    (createDataSource : MsgCreateDataSource) (editDataSource : MsgEditDataSource)
    (createOracleScript : MsgCreateOracleScript) (editOracleScript : MsgEditOracleScript)
    (addOracleAddress : MsgAddOracleAddress)
    (removeOracleAddress : MsgRemoveOracleAdderess) (err : Error) :
    (requestData.ValidateBasic = some err → err = Error.ErrInvalidBasicMsg) ∧
    (reportData.ValidateBasic = some err → err = Error.ErrInvalidBasicMsg) ∧
    (createDataSource.ValidateBasic feeIsValid = some err →
      err = Error.ErrInvalidBasicMsg) ∧
    (editDataSource.ValidateBasic feeIsValid = some err → err = Error.ErrInvalidBasicMsg) ∧
    (createOracleScript.ValidateBasic = some err → err = Error.ErrInvalidBasicMsg) ∧
    (editOracleScript.ValidateBasic = some err → err = Error.ErrInvalidBasicMsg) ∧
    (addOracleAddress.ValidateBasic = some err → err = Error.ErrInvalidBasicMsg) ∧
    (removeOracleAddress.ValidateBasic = some err → err = Error.ErrInvalidBasicMsg) := by
  refine ⟨?_, ?_, ?_, ?_, ?_, ?_, ?_, ?_⟩
  · unfold MsgRequestData.ValidateBasic
    split_ifs <;> intro h <;> first | exact (Option.some.inj h).symm | simp at h
  · unfold MsgReportData.ValidateBasic
    split_ifs <;> intro h <;> first | exact (Option.some.inj h).symm | simp at h
  · unfold MsgCreateDataSource.ValidateBasic
    split_ifs <;> intro h <;> first | exact (Option.some.inj h).symm | simp at h
  · unfold MsgEditDataSource.ValidateBasic
    split_ifs <;> intro h <;> first | exact (Option.some.inj h).symm | simp at h
  · unfold MsgCreateOracleScript.ValidateBasic
    split_ifs <;> intro h <;> first | exact (Option.some.inj h).symm | simp at h
  · unfold MsgEditOracleScript.ValidateBasic
    split_ifs <;> intro h <;> first | exact (Option.some.inj h).symm | simp at h
  · unfold MsgAddOracleAddress.ValidateBasic
    split_ifs <;> intro h <;> first | exact (Option.some.inj h).symm | simp at h
  · unfold MsgRemoveOracleAdderess.ValidateBasic
    split_ifs <;> intro h <;> first | exact (Option.some.inj h).symm | simp at h

/-- C26 at a report message without data set: its error is `ErrInvalidBasicMsg`. -/
theorem ValidateBasic_errors_are_ErrInvalidBasicMsg_witness :
    MsgReportData.ValidateBasic
        { RequestID := 1, DataSet := [], Validator := [1], Reporter := [11] } =
      some Error.ErrInvalidBasicMsg ∧
    Error.ErrInvalidBasicMsg = Error.ErrInvalidBasicMsg :=
  ⟨by decide,
   (ValidateBasic_errors_are_ErrInvalidBasicMsg (fun _ => true)
      { OracleScriptID := 1, Calldata := [], RequestedValidatorCount := 4,
        SufficientValidatorCount := 3, Expiration := 100, PrepareGas := 10,
        ExecuteGas := 10, Sender := [1], SourcePort := "", SourceChannel := "" }
      { RequestID := 1, DataSet := [], Validator := [1], Reporter := [11] }
      { Owner := [1], Name := "btc", Description := "price", Fee := [], Executable := [1],
        Sender := [1] }
      { DataSourceID := 1, Owner := [1], Name := "btc", Description := "price", Fee := [],
        Executable := [1], Sender := [1] }
      { Owner := [1], Name := "median", Description := "of prices", Code := [0, 97],
        Sender := [1] }
      { OracleScriptID := 1, Owner := [1], Name := "median", Description := "of prices",
        Code := [0, 97], Sender := [1] }
      { Validator := [1], Reporter := [11] } { Validator := [1], Reporter := [11] }
      Error.ErrInvalidBasicMsg).2.1 (by decide)⟩

/-- C27: every message names exactly one required signer.  `GetSigners` returns `[Sender]`
for `MsgRequestData`, `MsgCreateDataSource`, `MsgEditDataSource`, `MsgCreateOracleScript`
and `MsgEditOracleScript`, whatever the Owner is; `[Reporter]` for `MsgReportData`, the
account that a successful `AddReport` with the message's fields has found authorized for
the message's Validator; and the account address with the bytes of Validator for
`MsgAddOracleAddress` and `MsgRemoveOracleAdderess`, whatever the Reporter is. -/
theorem GetSigners_single_signer (requestData : MsgRequestData) (reportData : MsgReportData)
    (createDataSource : MsgCreateDataSource) (editDataSource : MsgEditDataSource)
    (createOracleScript : MsgCreateOracleScript) (editOracleScript : MsgEditOracleScript)
    (addOracleAddress : MsgAddOracleAddress)
    (removeOracleAddress : MsgRemoveOracleAdderess) :
    requestData.GetSigners = [requestData.Sender] ∧
    createDataSource.GetSigners = [createDataSource.Sender] ∧
    editDataSource.GetSigners = [editDataSource.Sender] ∧
    createOracleScript.GetSigners = [createOracleScript.Sender] ∧
    editOracleScript.GetSigners = [editOracleScript.Sender] ∧
    reportData.GetSigners = [reportData.Reporter] ∧
    (∀ ctx : Context,
      (AddReport ctx reportData.RequestID reportData.DataSet reportData.Validator
        reportData.Reporter).2 = none →
      CheckReporter ctx reportData.Validator reportData.Reporter = true) ∧
    addOracleAddress.GetSigners = [addOracleAddress.Validator] ∧
    removeOracleAddress.GetSigners = [removeOracleAddress.Validator] := by
  refine ⟨rfl, rfl, rfl, rfl, rfl, rfl, ?_, rfl, rfl⟩
  intro ctx hok
  obtain ⟨_, _, hchecks, _, _⟩ := checks_of_success ctx reportData.RequestID
    reportData.DataSet reportData.Validator reportData.Reporter hok
  exact hchecks.2.2.1

/-- C27 at the first report of the scenario: the signer `[11]` is the reporter that
`AddReport` finds authorized for validator `[1]`. -/
theorem GetSigners_single_signer_witness :
    CheckReporter scenarioCtx [1] [11] = true :=
  (GetSigners_single_signer
      { OracleScriptID := 1, Calldata := [], RequestedValidatorCount := 4,
        SufficientValidatorCount := 3, Expiration := 100, PrepareGas := 10,
        ExecuteGas := 10, Sender := [1], SourcePort := "", SourceChannel := "" }
      { RequestID := 1, DataSet := scenarioDataSet, Validator := [1], Reporter := [11] }
      { Owner := [1], Name := "btc", Description := "price", Fee := [], Executable := [1],
        Sender := [2] }
      { DataSourceID := 1, Owner := [1], Name := "btc", Description := "price", Fee := [],
        Executable := [1], Sender := [2] }
      { Owner := [1], Name := "median", Description := "of prices", Code := [0, 97],
        Sender := [2] }
      { OracleScriptID := 1, Owner := [1], Name := "median", Description := "of prices",
        Code := [0, 97], Sender := [2] }
      { Validator := [1], Reporter := [11] }
      { Validator := [1], Reporter := [11] }).2.2.2.2.2.2.1 scenarioCtx (by decide)

/-! ## The claims about Execute -/

/-- The result a resolver holds after a sequence of `save_result` calls: the last saved
bytes, or what it held before when nothing was saved. -/
theorem foldl_saveResult_result {Env : Type} (saved : List (List Nat)) :
    ∀ resolver : Resolver Env,
      (saved.foldl Resolver.saveResult resolver).result =
        saved.getLast?.getD resolver.result := by
  induction saved with
  | nil => intro resolver; rfl
  | cons bytes rest ih =>
    intro resolver
    rw [List.foldl_cons, ih]
    cases rest with
    | nil => rfl
    | cons next more =>
      rw [List.getLast?_cons_cons,
        List.getLast?_eq_getLast (next :: more) (List.cons_ne_nil next more)]
      rfl

/-- C23: for every code, calldata and gas limit, if the virtual machine cannot be built
from the code or the entry name is not an exported function, `Execute` returns a nil
result, gasUsed = 0 and a non-nil error, and `vm.Run` plays no part in what it returns:
no instruction of the script is run. -/
theorem Execute_unresolved_entry {Env : Type} {VM : Type}
    (library : VirtualMachineLibrary Env VM) (env : Env) (code : List Nat) (entry : String)
    (calldata : List Nat) (gasLimit : Nat)
    (hunresolved :
      (∃ err, library.NewVirtualMachine code (executeConfig gasLimit)
        (NewResolver env calldata) = .error err) ∨
      (∃ vm, library.NewVirtualMachine code (executeConfig gasLimit)
        (NewResolver env calldata) = .ok vm ∧ library.GetFunctionExport vm entry = none)) :
    (∃ err, Execute library env code entry calldata gasLimit = ([], 0, some err)) ∧
    ∀ run : VM → Int → RunOutcome,
      Execute { library with Run := run } env code entry calldata gasLimit =
        Execute library env code entry calldata gasLimit := by
  rcases hunresolved with ⟨err, hvm⟩ | ⟨vm, hvm, hentry⟩
  · refine ⟨⟨err, ?_⟩, fun run => ?_⟩
    · simp only [Execute, hvm]
    · simp only [Execute, hvm]
  · refine ⟨⟨"Execute: invalid owasm entry: " ++ entry, ?_⟩, fun run => ?_⟩
    · simp only [Execute, hvm, hentry]
    · simp only [Execute, hvm, hentry]

/-- C23 at the entry `resolve`, which the sample machine does not export. -/
theorem Execute_unresolved_entry_witness :
    (∃ err, Execute sampleLibrary () [0, 97] "resolve" [] 100 = ([], 0, some err)) ∧
    ∀ run : Unit → Int → RunOutcome,
      Execute { sampleLibrary with Run := run } () [0, 97] "resolve" [] 100 =
        Execute sampleLibrary () [0, 97] "resolve" [] 100 :=
  Execute_unresolved_entry sampleLibrary () [0, 97] "resolve" [] 100
    (Or.inr ⟨(), by decide, by decide⟩)

/-- C24: for every invocation of `Execute` whose entry point resolves, the returned triple
is the bytes last stored by `save_result`, the gas counter of the machine at termination
and the error of the run.  When the run completes without any `save_result`, the result is
nil and the error is nil at the same time; when the run fails, the gas counter at the
failure is still what is returned as gasUsed. -/
theorem Execute_resolved_entry {Env : Type} {VM : Type}
    (library : VirtualMachineLibrary Env VM) (env : Env) (code : List Nat) (entry : String)
    (calldata : List Nat) (gasLimit : Nat) (vm : VM) (entryID : Int)
    (hvm : library.NewVirtualMachine code (executeConfig gasLimit)
      (NewResolver env calldata) = .ok vm)
    (hentry : library.GetFunctionExport vm entry = some entryID) :
    Execute library env code entry calldata gasLimit =
      ((library.Run vm entryID).saved.getLast?.getD [], (library.Run vm entryID).Gas,
        (library.Run vm entryID).err) ∧
    ((library.Run vm entryID).saved = [] → (library.Run vm entryID).err = none →
      (Execute library env code entry calldata gasLimit).1 = [] ∧
      (Execute library env code entry calldata gasLimit).2.2 = none) ∧
    ((library.Run vm entryID).err ≠ none →
      (Execute library env code entry calldata gasLimit).2.1 =
        (library.Run vm entryID).Gas) := by
  have hrun : Execute library env code entry calldata gasLimit =
      ((library.Run vm entryID).saved.getLast?.getD [], (library.Run vm entryID).Gas,
        (library.Run vm entryID).err) := by
    simp only [Execute, hvm, hentry, foldl_saveResult_result]
    rfl
  refine ⟨hrun, fun hsaved herr => ?_, fun _ => ?_⟩
  · rw [hrun, hsaved, herr]
    exact ⟨rfl, rfl⟩
  · rw [hrun]

/-- C24 at the two entries of the sample machine: `prepare` completes without saving and
returns a nil result with a nil error; `execute` runs out of gas after two saves and
returns the second one with the 40 gas used. -/
theorem Execute_resolved_entry_witness :
    Execute sampleLibrary () [0, 97] "prepare" [] 100 = ([], 7, none) ∧
    Execute sampleLibrary () [0, 97] "execute" [] 100 =
      ([2, 3], 40, some "gas limit exceeded") :=
  ⟨(Execute_resolved_entry sampleLibrary () [0, 97] "prepare" [] 100 () 0
      (by decide) (by decide)).1,
   (Execute_resolved_entry sampleLibrary () [0, 97] "execute" [] 100 () 1
      (by decide) (by decide)).1⟩

/-- C28: the configuration `Execute` gives the virtual machine is the same for every call
except GasLimit, which is the gasLimit argument, and DefaultMemoryPages (64) is within
MaxMemoryPages (1024); but DefaultTableSize is 65536 and MaxTableSize is 1024, so the
initial table size is not within its bound. -/
theorem executeConfig_table_size_exceeds_bound :
    (∀ gasLimit : Nat,
      executeConfig gasLimit = { executeConfig 0 with GasLimit := gasLimit }) ∧
    (executeConfig 0).DefaultMemoryPages ≤ (executeConfig 0).MaxMemoryPages ∧
    (executeConfig 0).DefaultTableSize = 65536 ∧
    (executeConfig 0).MaxTableSize = 1024 ∧
    ¬ ((executeConfig 0).DefaultTableSize ≤ (executeConfig 0).MaxTableSize) := by
  refine ⟨fun _ => rfl, by decide, rfl, rfl, by decide⟩

/-! ## Genesis -/

theorem OracleScriptOversized_congr (ctx ctx2 : Context) (name : String)
    (description : String) (code : List Nat)
    (h1 : ctx2.maxOracleScriptCodeSize = ctx.maxOracleScriptCodeSize)
    (h2 : ctx2.maxNameLength = ctx.maxNameLength)
    (h3 : ctx2.maxDescriptionLength = ctx.maxDescriptionLength) :
    OracleScriptOversized ctx2 name description code ↔
      OracleScriptOversized ctx name description code := by
  simp only [OracleScriptOversized, MaxOracleScriptCodeSize, MaxNameLength,
    MaxDescriptionLength, h1, h2, h3]

/-- The loop over the data sources writes nothing but the data sources. -/
theorem initDataSources_frame (dataSources : List DataSource) :
    ∀ (ctx ctx2 : Context), initDataSources ctx dataSources = .ok ctx2 →
      ctx2 = { ctx with dataSources := ctx2.dataSources } := by
  induction dataSources with
  | nil =>
    intro ctx ctx2 h
    simp only [initDataSources, Except.ok.injEq] at h
    rw [← h]
  | cons dataSource rest ih =>
    intro ctx ctx2 h
    simp only [initDataSources] at h
    have hframe := AddDataSource_frame ctx dataSource.Owner dataSource.Name
      dataSource.Description dataSource.Fee dataSource.Executable
    rcases hadd : AddDataSource ctx dataSource.Owner dataSource.Name dataSource.Description
        dataSource.Fee dataSource.Executable with ⟨ctx1, _ | id⟩
    · rw [hadd] at h
      simp at h
    · rw [hadd] at h hframe
      have h2 := ih ctx1 ctx2 h
      simp only at hframe
      rw [h2, hframe]

/-- The loop over the data sources completes exactly when no data source is oversized. -/
theorem initDataSources_isOk_iff (dataSources : List DataSource) :
    ∀ ctx : Context, (initDataSources ctx dataSources).isOk = true ↔
      ∀ dataSource ∈ dataSources,
        ¬ Oversized ctx dataSource.Name dataSource.Description dataSource.Executable := by
  induction dataSources with
  | nil => intro ctx; simp [initDataSources, Except.isOk, Except.toBool]
  | cons dataSource rest ih =>
    intro ctx
    simp only [initDataSources, List.mem_cons, forall_eq_or_imp]
    by_cases hsize : Oversized ctx dataSource.Name dataSource.Description
        dataSource.Executable
    · rw [AddDataSource_of_oversized ctx dataSource.Owner dataSource.Name
        dataSource.Description dataSource.Fee dataSource.Executable hsize]
      simp [Except.isOk, Except.toBool, hsize]
    · rw [AddDataSource_of_within ctx dataSource.Owner dataSource.Name
        dataSource.Description dataSource.Fee dataSource.Executable hsize]
      simp only [ih, hsize, not_false_eq_true, true_and]
      apply forall_congr'
      intro other
      apply imp_congr Iff.rfl
      exact not_congr (Oversized_congr ctx _ other.Name other.Description other.Executable
        rfl rfl rfl)

theorem AddOracleScript_of_oversized (ctx : Context) (owner : AccAddress) (name : String)
    (description : String) (code : List Nat)
    (hsize : OracleScriptOversized ctx name description code) :
    AddOracleScript ctx owner name description code =
      (ctx, .error Error.ErrBadDataValue) := by
  unfold OracleScriptOversized MaxOracleScriptCodeSize MaxNameLength MaxDescriptionLength
    at hsize
  simp only [AddOracleScript, MaxOracleScriptCodeSize, MaxNameLength, MaxDescriptionLength]
  split_ifs with h1 h2 h3
  · rfl
  · rfl
  · rfl
  · rcases hsize with h | h | h
    · exact absurd h h1
    · exact absurd h h2
    · exact absurd h h3

theorem AddOracleScript_of_within (ctx : Context) (owner : AccAddress) (name : String)
    (description : String) (code : List Nat)
    (hsize : ¬ OracleScriptOversized ctx name description code) :
    AddOracleScript ctx owner name description code =
      ({ ctx with
          oracleScripts := storeSet ((ctx.oracleScripts.length : Int) + 1)
            { Owner := owner, Name := name, Description := description, Code := code }
            ctx.oracleScripts },
        .ok ((ctx.oracleScripts.length : Int) + 1)) := by
  unfold OracleScriptOversized MaxOracleScriptCodeSize MaxNameLength MaxDescriptionLength
    at hsize
  simp only [AddOracleScript, MaxOracleScriptCodeSize, MaxNameLength, MaxDescriptionLength]
  split_ifs with h1 h2 h3
  · exact absurd (Or.inl h1) hsize
  · exact absurd (Or.inr (Or.inl h2)) hsize
  · exact absurd (Or.inr (Or.inr h3)) hsize
  · rfl

/-- `AddOracleScript` writes nothing but the oracle scripts. -/
theorem AddOracleScript_frame (ctx : Context) (owner : AccAddress) (name : String)
    (description : String) (code : List Nat) :
    (AddOracleScript ctx owner name description code).1 =
      { ctx with
        oracleScripts :=
          (AddOracleScript ctx owner name description code).1.oracleScripts } := by
  by_cases hsize : OracleScriptOversized ctx name description code
  · rw [AddOracleScript_of_oversized ctx owner name description code hsize]
  · rw [AddOracleScript_of_within ctx owner name description code hsize]

/-- The loop over the oracle scripts writes nothing but the oracle scripts. -/
theorem initOracleScripts_frame (oracleScripts : List OracleScript) :
    ∀ (ctx ctx2 : Context), initOracleScripts ctx oracleScripts = .ok ctx2 →
      ctx2 = { ctx with oracleScripts := ctx2.oracleScripts } := by
  induction oracleScripts with
  | nil =>
    intro ctx ctx2 h
    simp only [initOracleScripts, Except.ok.injEq] at h
    rw [← h]
  | cons oracleScript rest ih =>
    intro ctx ctx2 h
    simp only [initOracleScripts] at h
    have hframe := AddOracleScript_frame ctx oracleScript.Owner oracleScript.Name
      oracleScript.Description oracleScript.Code
    rcases hadd : AddOracleScript ctx oracleScript.Owner oracleScript.Name
        oracleScript.Description oracleScript.Code with ⟨ctx1, _ | id⟩
    · rw [hadd] at h
      simp at h
    · rw [hadd] at h hframe
      have h2 := ih ctx1 ctx2 h
      simp only at hframe
      rw [h2, hframe]

/-- The loop over the oracle scripts completes exactly when no oracle script is
oversized. -/
theorem initOracleScripts_isOk_iff (oracleScripts : List OracleScript) :
    ∀ ctx : Context, (initOracleScripts ctx oracleScripts).isOk = true ↔
      ∀ oracleScript ∈ oracleScripts,
        ¬ OracleScriptOversized ctx oracleScript.Name oracleScript.Description
          oracleScript.Code := by
  induction oracleScripts with
  | nil => intro ctx; simp [initOracleScripts, Except.isOk, Except.toBool]
  | cons oracleScript rest ih =>
    intro ctx
    simp only [initOracleScripts, List.mem_cons, forall_eq_or_imp]
    by_cases hsize : OracleScriptOversized ctx oracleScript.Name oracleScript.Description
        oracleScript.Code
    · rw [AddOracleScript_of_oversized ctx oracleScript.Owner oracleScript.Name
        oracleScript.Description oracleScript.Code hsize]
      simp [Except.isOk, Except.toBool, hsize]
    · rw [AddOracleScript_of_within ctx oracleScript.Owner oracleScript.Name
        oracleScript.Description oracleScript.Code hsize]
      simp only [ih, hsize, not_false_eq_true, true_and]
      apply forall_congr'
      intro other
      apply imp_congr Iff.rfl
      exact not_congr (OracleScriptOversized_congr ctx _ other.Name other.Description
        other.Code rfl rfl rfl)

theorem Oversized_setParams (ctx : Context) (params : Params) (dataSource : DataSource) :
    ¬ Oversized (setParams ctx params) dataSource.Name dataSource.Description
        dataSource.Executable ↔ DataSourceWithin params dataSource := by
  simp only [Oversized, setParams, MaxDataSourceExecutableSize, MaxNameLength,
    MaxDescriptionLength, DataSourceWithin, not_or, not_lt, gt_iff_lt]

theorem OracleScriptOversized_setParams (ctx : Context) (params : Params)
    (oracleScript : OracleScript) :
    ¬ OracleScriptOversized (setParams ctx params) oracleScript.Name
        oracleScript.Description oracleScript.Code ↔
      OracleScriptWithin params oracleScript := by
  simp only [OracleScriptOversized, setParams, MaxOracleScriptCodeSize, MaxNameLength,
    MaxDescriptionLength, OracleScriptWithin, not_or, not_lt, gt_iff_lt]

/-- `InitGenesis` completes exactly when every data source and every oracle script of the
genesis state is within the size limits of the state's parameters. -/
theorem InitGenesis_isOk_iff (ctx : Context) (data : GenesisState) :
    (InitGenesis ctx data).isOk = true ↔
      (∀ dataSource ∈ data.DataSources, DataSourceWithin data.Params dataSource) ∧
      (∀ oracleScript ∈ data.OracleScripts,
        OracleScriptWithin data.Params oracleScript) := by
  have hds := initDataSources_isOk_iff data.DataSources (setParams ctx data.Params)
  simp only [Oversized_setParams] at hds
  unfold InitGenesis
  cases hrun : initDataSources (setParams ctx data.Params) data.DataSources with
  | error err =>
    rw [hrun] at hds
    simp only [Except.isOk, Except.toBool] at hds ⊢
    constructor
    · intro h
      simp at h
    · intro h
      exact absurd (hds.mpr h.1) (by simp)
  | ok ctx1 =>
    rw [hrun] at hds
    have hall := hds.mp rfl
    have hframe := initDataSources_frame data.DataSources _ ctx1 hrun
    have hos := initOracleScripts_isOk_iff data.OracleScripts ctx1
    have hcongr : ∀ oracleScript : OracleScript,
        OracleScriptOversized ctx1 oracleScript.Name oracleScript.Description
            oracleScript.Code ↔
          OracleScriptOversized (setParams ctx data.Params) oracleScript.Name
            oracleScript.Description oracleScript.Code := by
      intro oracleScript
      have f1 := congrArg Context.maxOracleScriptCodeSize hframe
      have f2 := congrArg Context.maxNameLength hframe
      have f3 := congrArg Context.maxDescriptionLength hframe
      exact OracleScriptOversized_congr _ ctx1 _ _ _ f1 f2 f3
    simp only [hos, hcongr, OracleScriptOversized_setParams]
    exact ⟨fun h => ⟨hall, h⟩, fun h => h.2⟩

/-- On a dense registry, the loop over data sources within the limits completes and
appends them, in order, under the next IDs. -/
theorem initDataSources_appends (dataSources : List DataSource) :
    ∀ (ctx : Context), DenseRegistry ctx →
      (∀ dataSource ∈ dataSources,
        ¬ Oversized ctx dataSource.Name dataSource.Description dataSource.Executable) →
      ∃ ctx2, initDataSources ctx dataSources = .ok ctx2 ∧
        GetAllDataSources ctx2 = GetAllDataSources ctx ++ dataSources ∧
        DenseRegistry ctx2 := by
  induction dataSources with
  | nil =>
    intro ctx hdense _
    exact ⟨ctx, rfl, by simp, hdense⟩
  | cons dataSource rest ih =>
    intro ctx hdense hall
    have hsize : ¬ Oversized ctx dataSource.Name dataSource.Description
        dataSource.Executable := hall dataSource (List.mem_cons_self _ _)
    have hadd := AddDataSource_dense ctx dataSource.Owner dataSource.Name
      dataSource.Description dataSource.Fee dataSource.Executable hdense hsize
    have hd2 := applyRegistryCall_dense ctx
      (.add dataSource.Owner dataSource.Name dataSource.Description dataSource.Fee
        dataSource.Executable) hdense
    simp only [applyRegistryCall] at hd2
    have hrest : ∀ other ∈ rest,
        ¬ Oversized
          (AddDataSource ctx dataSource.Owner dataSource.Name dataSource.Description
            dataSource.Fee dataSource.Executable).1
          other.Name other.Description other.Executable := by
      intro other hother
      have hframe := AddDataSource_frame ctx dataSource.Owner dataSource.Name
        dataSource.Description dataSource.Fee dataSource.Executable
      have f1 := congrArg Context.maxDataSourceExecutableSize hframe
      have f2 := congrArg Context.maxNameLength hframe
      have f3 := congrArg Context.maxDescriptionLength hframe
      rw [Oversized_congr ctx _ other.Name other.Description other.Executable f1 f2 f3]
      exact hall other (List.mem_cons_of_mem _ hother)
    obtain ⟨ctx2, hrun, hlist, hdense2⟩ := ih _ hd2 hrest
    have hget : GetAllDataSources
        (AddDataSource ctx dataSource.Owner dataSource.Name dataSource.Description
          dataSource.Fee dataSource.Executable).1 =
        GetAllDataSources ctx ++ [dataSource] := by
      simp only [GetAllDataSources, hadd]
      simp [NewDataSource]
    refine ⟨ctx2, ?_, ?_, hdense2⟩
    · simp only [initDataSources]
      rw [AddDataSource_of_within ctx dataSource.Owner dataSource.Name
        dataSource.Description dataSource.Fee dataSource.Executable hsize] at hrun ⊢
      exact hrun
    · rw [hlist, hget]
      simp

/-- C29, against the claim as stated: `ValidateGenesis` returns nil for the genesis state
whose data source has an executable of 5 bytes under a maximum of 4, and `InitGenesis`
panics on it with the `ErrBadDataValue` of `AddDataSource`. -/
theorem InitGenesis_panics_on_validated_state :
    ValidateGenesis oversizedDataSourceGenesis = none ∧
    panicOf (InitGenesis emptyRegistryCtx oversizedDataSourceGenesis) =
      some Error.ErrBadDataValue := by
  decide

/-- C29, amended: `ValidateGenesis` returns nil for every genesis state, and `InitGenesis`
runs without panic exactly on the genesis states whose data sources and oracle scripts
are all within the size limits of the state's own Params: on those every `AddDataSource`
and `AddOracleScript` call it makes succeeds, on the others it panics. -/
theorem InitGenesis_no_panic_iff_within (ctx : Context) (data : GenesisState) :
    ValidateGenesis data = none ∧
    (panicOf (InitGenesis ctx data) = none ↔
      (∀ dataSource ∈ data.DataSources, DataSourceWithin data.Params dataSource) ∧
      (∀ oracleScript ∈ data.OracleScripts,
        OracleScriptWithin data.Params oracleScript)) := by
  refine ⟨rfl, ?_⟩
  rw [← InitGenesis_isOk_iff ctx data]
  cases InitGenesis ctx data <;> simp [panicOf, Except.isOk, Except.toBool]

/-- C30, against the claim as stated: every data source of the genesis state is within the
size limits of its Params, yet `InitGenesis` on the empty store panics (on an oracle
script whose code has 5 bytes under a maximum of 4), so no state is left to export. -/
theorem InitGenesis_panics_with_valid_data_sources :
    (∀ dataSource ∈ oversizedOracleScriptGenesis.DataSources,
      DataSourceWithin oversizedOracleScriptGenesis.Params dataSource) ∧
    emptyRegistryCtx.dataSources = [] ∧
    panicOf (InitGenesis emptyRegistryCtx oversizedOracleScriptGenesis) =
      some Error.ErrBadDataValue := by
  decide

/-- C30, amended: genesis round trip for data sources.  For every genesis state whose data
sources and oracle scripts all satisfy the size limits of its Params, `InitGenesis` on an
empty store completes, and `ExportGenesis` then yields a DataSources list equal to the
input list, in the same order, the i-th input data source being stored under ID i. -/
theorem genesis_round_trip_data_sources (ctx : Context) (data : GenesisState)
    (hempty : ctx.dataSources = [])
    (hdataSources : ∀ dataSource ∈ data.DataSources,
      DataSourceWithin data.Params dataSource)
    (horacleScripts : ∀ oracleScript ∈ data.OracleScripts,
      OracleScriptWithin data.Params oracleScript) :
    ∃ ctx2, InitGenesis ctx data = .ok ctx2 ∧
      (ExportGenesis ctx2).DataSources = data.DataSources ∧
      storedDataSourceIDs ctx2 = denseIDs data.DataSources.length ∧
      data.DataSources.map (fun dataSource => (Except.ok dataSource : Except Error DataSource)) =
        (denseIDs data.DataSources.length).map (GetDataSource ctx2) := by
  have hok := (InitGenesis_isOk_iff ctx data).mpr ⟨hdataSources, horacleScripts⟩
  have hwithin : ∀ dataSource ∈ data.DataSources,
      ¬ Oversized (setParams ctx data.Params) dataSource.Name dataSource.Description
        dataSource.Executable := fun dataSource h =>
    (Oversized_setParams ctx data.Params dataSource).mpr (hdataSources dataSource h)
  obtain ⟨ctx1, hrun, hlist, hdense⟩ := initDataSources_appends data.DataSources
    (setParams ctx data.Params)
    (DenseRegistry_of_empty _ (by simpa [setParams] using hempty)) hwithin
  unfold InitGenesis at hok ⊢
  rw [hrun] at hok ⊢
  simp only at hok ⊢
  cases hrun2 : initOracleScripts ctx1 data.OracleScripts with
  | error err =>
    rw [hrun2] at hok
    simp [Except.isOk, Except.toBool] at hok
  | ok ctx2 =>
    have hframe := initOracleScripts_frame data.OracleScripts ctx1 ctx2 hrun2
    have hds0 := congrArg Context.dataSources hframe
    have hds : ctx2.dataSources = ctx1.dataSources := hds0
    have hlist2 : GetAllDataSources ctx2 = data.DataSources := by
      have h0 : GetAllDataSources (setParams ctx data.Params) = [] := by
        simp [GetAllDataSources, setParams, hempty]
      rw [h0, List.nil_append] at hlist
      simpa [GetAllDataSources, hds] using hlist
    have hdense2 : DenseRegistry ctx2 := by
      unfold DenseRegistry storedDataSourceIDs at hdense ⊢
      rw [hds]
      exact hdense
    have hids2 : storedDataSourceIDs ctx2 = denseIDs data.DataSources.length := by
      have h := (GetAllDataSources_dense ctx2 hdense2).1
      rw [hlist2] at h
      exact h
    have hsorted : (storedDataSourceIDs ctx2).Pairwise (fun a b => a < b) := by
      rw [hids2]
      exact denseIDs_sorted _
    have hmap := GetAllDataSources_eq_map ctx2 hsorted
    rw [hlist2, hids2] at hmap
    exact ⟨ctx2, rfl, hlist2, hids2, hmap⟩

/-- C30 (amended) at a genesis state with two data sources: they are exported in order and
stored under IDs 1 and 2. -/
theorem genesis_round_trip_data_sources_witness :
    ∃ ctx2, InitGenesis emptyRegistryCtx sampleGenesis = .ok ctx2 ∧
      (ExportGenesis ctx2).DataSources = sampleGenesis.DataSources ∧
      storedDataSourceIDs ctx2 = denseIDs sampleGenesis.DataSources.length ∧
      sampleGenesis.DataSources.map
          (fun dataSource => (Except.ok dataSource : Except Error DataSource)) =
        (denseIDs sampleGenesis.DataSources.length).map (GetDataSource ctx2) :=
  genesis_round_trip_data_sources emptyRegistryCtx sampleGenesis (by decide) (by decide)
    (by decide)

end Zoracle
